import Mathlib

set_option maxRecDepth 8000

/-
  Verification development for the bisquits multiplayer tile game.

  The first half of this file is a shallow embedding of the pure tile
  engine (src/shared/game/engine.ts) and of the authoritative room layer
  (src/server/state/BisquitsRoomState.ts).  TypeScript arrays become
  Lean lists, the Colyseus MapSchema / JS Map become insertion-ordered
  association lists, and in-place mutation becomes copy construction.
  Machine numbers that the code only ever uses as integers are embedded
  as Nat / Int.  The second half states and proves the specification
  claims.
-/

namespace Bisquits

/-- Game status, mirroring the TS union type "running" | "won" | "lost". -/
inductive GameStatus where
  | running
  | won
  | lost
deriving DecidableEq

/-- Tile zone, mirroring the TS union type "board" | "staging". -/
inductive TileZone where
  | board
  | staging
deriving DecidableEq

/-- Mirrors the TS GameConfig interface.  All numeric fields are used as
integers by the engine. -/
structure GameConfig where
  rows : Nat
  cols : Nat
  players : Nat
  initialVisibleTiles : Nat
  pressureRangeMs : Nat × Nat
deriving DecidableEq

/-- Mirrors the TS Tile interface; row and col are number | null. -/
structure Tile where
  id : String
  letter : String
  zone : TileZone
  row : Option Int
  col : Option Int
deriving DecidableEq

instance : Inhabited Tile := ⟨⟨"", "", .staging, none, none⟩⟩

/-- Mirrors the TS GameState interface. -/
structure GameState where
  config : GameConfig
  status : GameStatus
  turn : Nat
  nextTileId : Nat
  drawPile : List String
  tiles : List Tile
  lastAction : String
deriving DecidableEq

/-- The TS RandomSource is an impure nullary function returning a real in
[0,1); every use in the engine immediately computes Math.floor(rng() * bound),
i.e. a natural number in [0, bound).  We embed the source as a stream of
naturals with a cursor: a call with a positive bound yields an arbitrary
value in [0, bound) determined by the stream, which covers exactly the
outcomes the TS code can produce. -/
structure Rng where
  seq : Nat → Nat
  idx : Nat

/-- One call of the random source, immediately floored against a bound. -/
def Rng.next (r : Rng) (bound : Nat) : Nat × Rng :=
  (r.seq r.idx % bound, ⟨r.seq, r.idx + 1⟩)

/-- DEFAULT_CONFIG from the engine. -/
def DEFAULT_CONFIG : GameConfig :=
  { rows := 12, cols := 12, players := 4, initialVisibleTiles := 12
    pressureRangeMs := (4500, 8500) }

/-- TILE_DISTRIBUTION from the engine, transcribed entry for entry. -/
def TILE_DISTRIBUTION : List String :=
  ["J", "K", "Q", "X", "Z", "J", "K", "Q", "X", "Z",
   "B", "C", "F", "H", "M", "P", "V", "W", "Y",
   "B", "C", "F", "H", "M", "P", "V", "W", "Y",
   "B", "C", "F", "H", "M", "P", "V", "W", "Y",
   "G", "G", "G", "G",
   "L", "L", "L", "L", "L",
   "D", "S", "U", "D", "S", "U", "D", "S", "U", "D", "S", "U",
   "N", "N", "N", "N", "N", "N", "N", "N",
   "T", "R", "T", "R", "T", "R", "T", "R", "T", "R", "T", "R",
   "T", "R", "T", "R", "T", "R",
   "O", "O", "O", "O", "O", "O", "O", "O", "O", "O", "O",
   "I", "I", "I", "I", "I", "I", "I", "I", "I", "I", "I", "I",
   "A", "A", "A", "A", "A", "A", "A", "A", "A", "A", "A", "A", "A",
   "E", "E", "E", "E", "E", "E", "E", "E", "E", "E", "E", "E", "E",
   "E", "E", "E", "E", "E"]

/-- The row / col clamp of moveTile: Math.max(1, Math.min(bound, x)). -/
def clampCoord (bound : Nat) (x : Int) : Int :=
  max 1 (min (bound : Int) x)

/-- clampPlayers: Math.max(2, Math.min(4, Math.round(players))); the
argument is already integral in the embedding, so Math.round is the
identity. -/
def clampPlayers (players : Nat) : Nat :=
  max 2 (min 4 players)

/-- In-place swap of values[i] and values[j] (the tmp-variable dance in
the TS shuffle body). -/
def swapIdx [Inhabited α] (l : List α) (i j : Nat) : List α :=
  (l.set i (l.getD j default)).set j (l.getD i default)

/-- The Fisher-Yates loop of shuffle, running the index i downwards;
at index i the TS code draws j = Math.floor(rng() * (i + 1)). -/
def shuffleFrom [Inhabited α] (rng : Rng) (l : List α) : Nat → List α × Rng
  | 0 => (l, rng)
  | i + 1 =>
    let step := rng.next (i + 2)
    shuffleFrom step.2 (swapIdx l (i + 1) step.1) i

/-- shuffle from the engine (value-returning instead of mutating). -/
def shuffleList [Inhabited α] (l : List α) (rng : Rng) : List α × Rng :=
  shuffleFrom rng l (l.length - 1)

/-- addVisibleTile: drawOne (Array.shift) inlined; on an empty pile the
TS helper returns false and leaves the state alone. -/
def addVisibleTile (s : GameState) : GameState :=
  match s.drawPile with
  | [] => s
  | letter :: rest =>
    { s with
      drawPile := rest
      tiles := s.tiles ++
        [{ id := "t" ++ toString s.nextTileId, letter := letter
           zone := .staging, row := none, col := none }]
      nextTileId := s.nextTileId + 1 }

/-- burnOtherPlayers: splice(0, players - 1) guarded by the pile length.
For players = 0 the TS hiddenDrawCount is -1: the guard is false and
splice removes nothing, which Nat subtraction reproduces. -/
def burnOtherPlayers (s : GameState) : GameState :=
  let hiddenDrawCount := s.config.players - 1
  if s.drawPile.length < hiddenDrawCount then s
  else { s with drawPile := s.drawPile.drop hiddenDrawCount }

/-- canServeRound from the engine. -/
def canServeRound (s : GameState) : Bool :=
  s.config.players < s.drawPile.length

/-- Insertion of a letter at an index (Array.splice(slot, 0, letter));
a slot beyond the end appends, as splice does. -/
def listInsertAt : Nat → α → List α → List α
  | 0, a, l => a :: l
  | _ + 1, a, [] => [a]
  | n + 1, a, x :: xs => x :: listInsertAt n a xs

/-- insertLetterIntoBag: slot = Math.floor(rng() * (drawPile.length + 1)). -/
def insertLetterIntoBag (drawPile : List String) (letter : String) (rng : Rng) :
    List String × Rng :=
  let step := rng.next (drawPile.length + 1)
  (listInsertAt step.1 letter drawPile, step.2)

/-- performServeRound: clone, burn the hidden draws, surface one tile,
bump the turn counter. -/
def performServeRound (baseState : GameState) : GameState :=
  let next := addVisibleTile (burnOtherPlayers baseState)
  { next with turn := next.turn + 1 }

/-- The createGame loop over initialVisibleTiles serve rounds, breaking
as soon as canServeRound fails. -/
def serveRoundsLoop : Nat → GameState → GameState
  | 0, s => s
  | k + 1, s =>
    if canServeRound s then serveRoundsLoop k (performServeRound s) else s

/-- The Partial<GameConfig> argument of createGame. -/
structure GameConfigPatch where
  rowsField : Option Nat := none
  colsField : Option Nat := none
  playersField : Option Nat := none
  initialVisibleTilesField : Option Nat := none
  pressureRangeMsField : Option (Nat × Nat) := none

/-- The config spread in createGame: defaults, then the patch, then the
clamped player count. -/
def resolveConfig (patch : GameConfigPatch) : GameConfig :=
  { rows := patch.rowsField.getD DEFAULT_CONFIG.rows
    cols := patch.colsField.getD DEFAULT_CONFIG.cols
    players := clampPlayers (patch.playersField.getD DEFAULT_CONFIG.players)
    initialVisibleTiles :=
      patch.initialVisibleTilesField.getD DEFAULT_CONFIG.initialVisibleTiles,
    pressureRangeMs :=
      patch.pressureRangeMsField.getD DEFAULT_CONFIG.pressureRangeMs }

/-- createGame from the engine. -/
def createGame (patch : GameConfigPatch) (rng : Rng) : GameState :=
  let resolvedConfig := resolveConfig patch
  let drawPile := (shuffleList TILE_DISTRIBUTION rng).1
  let state : GameState :=
    { config := resolvedConfig, status := .running, turn := 0
      nextTileId := 1, drawPile := drawPile, tiles := []
      lastAction := "Game created." }
  let finalState := serveRoundsLoop resolvedConfig.initialVisibleTiles state
  { finalState with
    lastAction :=
      "Shelf stocked. Drag tiles onto the board, trade one-for-three, and keep serving." }

/-- servePlate from the engine. -/
def servePlate (baseState : GameState) : GameState :=
  if baseState.status ≠ .running then baseState
  else if !canServeRound baseState then
    { baseState with
      status := .won
      lastAction := "You served the final plate and won." }
  else
    let next := performServeRound baseState
    { next with
      lastAction := "You served a plate. Opponents also drew hidden tiles." }

/-- canTradeTile from the engine. -/
def canTradeTile (s : GameState) : Bool :=
  3 < s.drawPile.length

/-- First index satisfying a predicate (Array.findIndex). -/
def firstIdxWhere (p : α → Bool) : List α → Option Nat
  | [] => none
  | x :: xs => if p x then some 0 else (firstIdxWhere p xs).map (· + 1)

/-- tradeTile from the engine. -/
def tradeTile (baseState : GameState) (tileId : String) (rng : Rng) : GameState :=
  if baseState.status ≠ .running then baseState
  else if !canTradeTile baseState then
    { baseState with lastAction := "Not enough tiles remain to trade." }
  else
    match firstIdxWhere (fun t => t.id == tileId) baseState.tiles with
    | none => baseState
    | some index =>
      let discarded := baseState.tiles.getD index default
      let bag := insertLetterIntoBag baseState.drawPile discarded.letter rng
      let s1 : GameState :=
        { baseState with
          tiles := baseState.tiles.eraseIdx index, drawPile := bag.1 }
      let s2 := addVisibleTile (addVisibleTile (addVisibleTile s1))
      { s2 with
        turn := s2.turn + 1
        lastAction := "Traded " ++ discarded.letter ++ " for three new tiles." }

/-- moveTile from the engine.  The row / col clamps apply Math.round
first; move targets are embedded as integers, on which Math.round is the
identity.  Mutation through the two references obtained by find becomes
List.set at the two (distinct) found indices. -/
def moveTile (baseState : GameState) (tileId : String)
    (targetRow targetCol : Int) : GameState :=
  if baseState.status ≠ .running then baseState
  else
    match firstIdxWhere (fun t => t.id == tileId) baseState.tiles with
    | none => baseState
    | some i =>
      let tile := baseState.tiles.getD i default
      let row : Int := clampCoord baseState.config.rows targetRow
      let col : Int := clampCoord baseState.config.cols targetCol
      let moved : Tile := { tile with zone := .board, row := some row, col := some col }
      match firstIdxWhere
          (fun item => item.id != tileId && item.zone == TileZone.board &&
            item.row == some row && item.col == some col) baseState.tiles with
      | some k =>
        let occupied := baseState.tiles.getD k default
        match tile.zone, tile.row, tile.col with
        | .board, some originalRow, some originalCol =>
          { baseState with
            tiles := (baseState.tiles.set i moved).set k
              { occupied with
                zone := .board
                row := some originalRow
                col := some originalCol }
            lastAction := "Swapped " ++ tile.letter ++ " with " ++
              occupied.letter ++ "." }
        | _, _, _ =>
          { baseState with
            tiles := (baseState.tiles.set i moved).set k
              { occupied with zone := .staging, row := none, col := none }
            lastAction := "Placed " ++ tile.letter ++ " on " ++ toString row ++
              "," ++ toString col ++ "; " ++ occupied.letter ++
              " moved to shelf." }
      | none =>
        { baseState with
          tiles := baseState.tiles.set i moved
          lastAction :=
            if tile.zone == TileZone.board then
              "Moved " ++ tile.letter ++ " to " ++ toString row ++ "," ++
                toString col ++ "."
            else
              "Placed " ++ tile.letter ++ " on " ++ toString row ++ "," ++
                toString col ++ "." }

/-
  Room layer: src/server/state/BisquitsRoomState.ts (BisquitsRoom).
  The Colyseus MapSchema and the private JS Maps are embedded as
  insertion-ordered association lists; Date.now() becomes an explicit
  now argument; randomUUID() becomes explicitly supplied fresh strings;
  Math.random inside bag refills becomes supplied Rng streams.  Outbound
  client.send / broadcast calls become an output list.  setMetadata only
  feeds the external room-listing collaborator and is not modelled.
-/

/-- Mirrors the PlayerState schema. -/
structure PlayerR where
  playerId : String
  clientId : String
  name : String
  connected : Bool
  ready : Bool
  joinedAt : Nat
  wins : Nat
  gamesPlayed : Nat
  longestWord : String
deriving DecidableEq

/-- Mirrors the SeatReservation record. -/
structure SeatReservation where
  playerId : String
  expiresAt : Nat
deriving DecidableEq

/-- Room phase union type. -/
inductive RoomPhase where
  | lobby
  | playing
deriving DecidableEq

/-- JS Map.get on an insertion-ordered association list. -/
def mapGet (k : String) : List (String × α) → Option α
  | [] => none
  | e :: rest => if e.1 = k then some e.2 else mapGet k rest

/-- JS Map.set: overwrite in place when the key exists, append otherwise. -/
def mapSet (k : String) (v : α) : List (String × α) → List (String × α)
  | [] => [(k, v)]
  | e :: rest => if e.1 = k then (k, v) :: rest else e :: mapSet k v rest

/-- JS Map.delete. -/
def mapDel (k : String) : List (String × α) → List (String × α)
  | [] => []
  | e :: rest => if e.1 = k then rest else e :: mapDel k rest

/-- The mutable room. -/
structure RoomModel where
  roomId : String
  phase : RoomPhase
  players : List (String × PlayerR)
  ownerClientId : String
  lastWinnerName : String
  lastLongestWord : String
  roundsPlayed : Nat
  clients : List String
  playerGameStates : List (String × GameState)
  playerIdBySessionId : List (String × String)
  resumeTokenByPlayerId : List (String × String)
  seatReservationsByToken : List (String × SeatReservation)
  activeRoundPlayers : Nat
  sharedBagCount : Nat
  seatReservationSeconds : Nat
deriving DecidableEq

/-- Message destination: a single client or a broadcast. -/
inductive Dest where
  | client (sessionId : String)
  | broadcast
deriving DecidableEq

/-- Outbound message payloads the room can emit. -/
inductive ServerMsg where
  | roomNotice (level : String) (message : String)
  | statsSnapshot
  | gameStarted
  | gameSnapshot (gameState : GameState) (bagCount : Nat) (reason : String)
      (actorClientId : Option String)
  | gameFinished (winnerName : String) (longestWord : String)
      (winnerClientId : String) (winningBoardTiles : List Tile)
  | actionRejected (message : String)
  | seatToken (token : String) (playerId : String) (roomId : String)
      (expiresInSeconds : Nat)
deriving DecidableEq

/-- One outbound send. -/
abbrev Out := Dest × ServerMsg

/-- The whitespace class of the regexes in sanitizeName, restricted to
the characters that actually occur. -/
def isJsWhitespace (c : Char) : Bool :=
  c = ' ' ∨ c = '\t' ∨ c = '\n' ∨ c = '\r'

/-- String.prototype.trim on a character list. -/
def jsTrim (l : List Char) : List Char :=
  ((l.dropWhile isJsWhitespace).reverse.dropWhile isJsWhitespace).reverse

/-- replace(\s+, one space), written with a previous-was-whitespace
flag so that a run of whitespace collapses to a single space. -/
def collapseWsAux (prevWs : Bool) : List Char → List Char
  | [] => []
  | c :: rest =>
    if isJsWhitespace c then
      if prevWs then collapseWsAux true rest
      else ' ' :: collapseWsAux true rest
    else c :: collapseWsAux false rest

/-- replace(\s+, one space). -/
def collapseWs (l : List Char) : List Char :=
  collapseWsAux false l

/-- The characters kept by replace([^\w -], nothing). -/
def isNameKeep (c : Char) : Bool :=
  c.isAlpha ∨ c.isDigit ∨ c = '_' ∨ c = ' ' ∨ c = '-'

/-- sanitizeName from the room file. -/
def sanitizeName (input : Option String) (fallback : String) : String :=
  let base := match input with
    | some s => jsTrim s.toList
    | none => []
  let collapsed := collapseWs base
  let cleaned := collapsed.filter isNameKeep
  let sliced := cleaned.take 20
  let chosen := if sliced.isEmpty then fallback.toList else sliced
  String.mk (jsTrim chosen)

/-- Join options; the duck-typed name ladder of getJoinName collapses to
an optional string once options are a typed record. -/
structure JoinOptions where
  nameField : Option String := none
  resumeTokenField : Option String := none

/-- getJoinResumeToken from the room file. -/
def getJoinResumeToken (opts : JoinOptions) : String :=
  match opts.resumeTokenField with
  | some s => String.mk (jsTrim s.toList)
  | none => ""

/-- isBoardTile from the room file. -/
def isBoardTile (t : Tile) : Bool :=
  t.zone == TileZone.board && t.row.isSome && t.col.isSome

/-- hasStagingTiles from the room file. -/
def hasStagingTiles (g : GameState) : Bool :=
  g.tiles.any (fun t => t.zone == TileZone.staging)

/-- The boardLetters map of computeLongestWordFromBoard: Map.set
overwrites, so a cell holds the letter of the last board tile on it. -/
def boardLetterAt (g : GameState) (row col : Nat) : Option String :=
  (((g.tiles.filter isBoardTile).filter
    (fun t => t.row == some (row : Int) && t.col == some (col : Int))).getLast?).map
    (fun t => t.letter)

/-- One cell of a longest-word scan: extend the running sequence on a
letter, otherwise close it out against the best so far. -/
def stepCell (acc : String × String) (cell : Option String) : String × String :=
  match cell with
  | some letter => (acc.1, acc.2 ++ letter)
  | none =>
    if 2 ≤ acc.2.length ∧ acc.1.length < acc.2.length then (acc.2, "")
    else (acc.1, "")

/-- Closing a line at its end (the trailing sequence check). -/
def finishLine (acc : String × String) : String :=
  if 2 ≤ acc.2.length ∧ acc.1.length < acc.2.length then acc.2 else acc.1

/-- One horizontal scan line. -/
def scanRow (g : GameState) (best : String) (row : Nat) : String :=
  finishLine (((List.range g.config.cols).map
    (fun c => boardLetterAt g row (c + 1))).foldl stepCell (best, ""))

/-- One vertical scan line. -/
def scanCol (g : GameState) (best : String) (col : Nat) : String :=
  finishLine (((List.range g.config.rows).map
    (fun r => boardLetterAt g (r + 1) col)).foldl stepCell (best, ""))

/-- computeLongestWordFromBoard from the room file: rows first, then
columns, keeping the first-found on ties (strict improvement only). -/
def computeLongestWordFromBoard (g : GameState) : String :=
  let afterRows :=
    (List.range g.config.rows).foldl (fun best r => scanRow g best (r + 1)) ""
  (List.range g.config.cols).foldl (fun best c => scanCol g best (c + 1)) afterRows

/-- getPlayerIdForSession.  The TS body memoises the fallback value into
playerIdBySessionId; the cached value equals what the fallback recomputes,
so the write is observationally inert and the embedding is pure. -/
def getPlayerIdForSession (r : RoomModel) (sessionId : String) : String :=
  match mapGet sessionId r.playerIdBySessionId with
  | some mapped => mapped
  | none =>
    match mapGet sessionId r.players with
    | some p => p.playerId
    | none => ""

/-- getPlayerEntryByPlayerId: first roster entry with the player id. -/
def getPlayerEntryByPlayerId (r : RoomModel) (playerId : String) :
    Option (String × PlayerR) :=
  r.players.find? (fun e => e.2.playerId == playerId)

/-- getConnectedPlayers. -/
def getConnectedPlayers (r : RoomModel) : List (String × PlayerR) :=
  r.players.filter (fun e => e.2.connected)

/-- getConnectedPlayerCount. -/
def getConnectedPlayerCount (r : RoomModel) : Nat :=
  (getConnectedPlayers r).length

/-- getFirstConnectedPlayerSessionId, as the exact forEach fold. -/
def getFirstConnectedPlayerSessionId (r : RoomModel) : String :=
  r.players.foldl (fun first e => if first = "" ∧ e.2.connected then e.1 else first) ""

/-- getFirstPlayerId (which actually folds over session keys). -/
def getFirstPlayerId (r : RoomModel) : String :=
  r.players.foldl (fun first e => if first = "" then e.1 else first) ""

/-- issueResumeToken; randomUUID is supplied as freshToken. -/
def issueResumeToken (r : RoomModel) (playerId : String) (freshToken : String) :
    String × RoomModel :=
  match mapGet playerId r.resumeTokenByPlayerId with
  | some existing => (existing, r)
  | none =>
    (freshToken,
     { r with resumeTokenByPlayerId := mapSet playerId freshToken r.resumeTokenByPlayerId })

/-- reserveDisconnectedSeat. -/
def reserveDisconnectedSeat (r : RoomModel) (playerId : String) (now : Nat)
    (freshToken : String) : RoomModel :=
  let issued := issueResumeToken r playerId freshToken
  { issued.2 with
    seatReservationsByToken :=
      mapSet issued.1 ⟨playerId, now + r.seatReservationSeconds * 1000⟩
        issued.2.seatReservationsByToken }

/-- clearRoundGames. -/
def clearRoundGames (r : RoomModel) : RoomModel :=
  { r with playerGameStates := [], activeRoundPlayers := 0, sharedBagCount := 0 }

/-- The refill string of resizeBag. -/
def refillLetters : String := "ABCDEFGHIJKLMNOPQRSTUVWXYZ"

/-- The refill loop of resizeBag: missing letters drawn at
Math.floor(Math.random() * 26). -/
def refillPad (rng : Rng) : Nat → List String
  | 0 => []
  | n + 1 =>
    let step := rng.next 26
    String.mk [refillLetters.toList.getD step.1 'E'] :: refillPad step.2 n

/-- resizeBag: truncate an oversized pile, pad an undersized one. -/
def resizeBag (rng : Rng) (g : GameState) (targetCount : Nat) : GameState :=
  if targetCount < g.drawPile.length then
    { g with drawPile := g.drawPile.take targetCount }
  else if g.drawPile.length = targetCount then g
  else { g with drawPile := g.drawPile ++ refillPad rng (targetCount - g.drawPile.length) }

/-- Indexed map, used to hand every entry of an iteration its own
Math.random stream. -/
def mapWithIndex (f : Nat → α → β) : Nat → List α → List β
  | _, [] => []
  | i, x :: xs => f i x :: mapWithIndex f (i + 1) xs

/-- synchronizePlayerBagSizes over the game-state map values. -/
def synchronizePlayerBagSizes (rngs : Nat → Rng)
    (games : List (String × GameState)) (targetCount : Nat) :
    List (String × GameState) :=
  mapWithIndex
    (fun i e =>
      if e.2.drawPile.length ≠ targetCount then (e.1, resizeBag (rngs i) e.2 targetCount)
      else e)
    0 games

/-- getCurrentBagCountFromRound: first map value or 0. -/
def getCurrentBagCountFromRound (games : List (String × GameState)) : Nat :=
  match games.head? with
  | some e => e.2.drawPile.length
  | none => 0

/-- buildGameSnapshot (serverTime and the always-zero nextPressureAt are
not modelled). -/
def buildGameSnapshot (r : RoomModel) (g : GameState) (reason : String)
    (actorClientId : Option String) : ServerMsg :=
  ServerMsg.gameSnapshot g r.sharedBagCount reason actorClientId

/-- sendSnapshotsToAllPlayers. -/
def sendSnapshotsToAllPlayers (r : RoomModel) (reason : String)
    (actorClientId : Option String) : List Out :=
  r.clients.filterMap (fun sessionId =>
    let pid := getPlayerIdForSession r sessionId
    if pid = "" then none
    else
      match mapGet pid r.playerGameStates with
      | none => none
      | some g => some (Dest.client sessionId, buildGameSnapshot r g reason actorClientId))

/-- ensurePlaying: either a rejection message or the acting game state. -/
def ensurePlaying (r : RoomModel) (sessionId : String) : ServerMsg ⊕ GameState :=
  if r.phase ≠ RoomPhase.playing then
    Sum.inl (ServerMsg.actionRejected "No active game in this room.")
  else
    let pid := getPlayerIdForSession r sessionId
    if pid = "" then
      Sum.inl (ServerMsg.actionRejected "Your seat is not active in this room.")
    else
      match mapGet pid r.playerGameStates with
      | none => Sum.inl (ServerMsg.actionRejected "Your board is not active in this round.")
      | some g => Sum.inr g

/-- MoveTileMessage after validation typing: a missing row / col feeds
NaN to Number.isFinite and is rejected, hence Option Int. -/
structure MoveTileMsg where
  tileId : Option String := none
  rowField : Option Int := none
  colField : Option Int := none

/-- TradeTileMessage. -/
structure TradeTileMsg where
  tileId : Option String := none

/-- handleMoveTile. -/
def handleMoveTile (r : RoomModel) (sessionId : String) (msg : MoveTileMsg) :
    RoomModel × List Out :=
  match ensurePlaying r sessionId with
  | Sum.inl rej => (r, [(Dest.client sessionId, rej)])
  | Sum.inr current =>
    let tileId := msg.tileId.getD ""
    match msg.rowField, msg.colField with
    | some row, some col =>
      if tileId = "" then
        (r, [(Dest.client sessionId,
              ServerMsg.actionRejected "Move requires tile id, row, and col.")])
      else
        let pid := getPlayerIdForSession r sessionId
        if pid = "" then
          (r, [(Dest.client sessionId, ServerMsg.actionRejected "Unknown player seat.")])
        else
          let next := moveTile current tileId row col
          ({ r with playerGameStates := mapSet pid next r.playerGameStates },
           [(Dest.client sessionId, buildGameSnapshot r next "move_tile" (some sessionId))])
    | _, _ =>
      (r, [(Dest.client sessionId,
            ServerMsg.actionRejected "Move requires tile id, row, and col.")])

/-- handleTradeTile.  bagDelta is previous minus next pile length; a trade
never grows the pile, so Nat subtraction is exact, and
Math.max(0, shared - bagDelta) is Nat subtraction. -/
def handleTradeTile (r : RoomModel) (sessionId : String) (msg : TradeTileMsg)
    (tradeRng : Rng) (syncRngs : Nat → Rng) : RoomModel × List Out :=
  match ensurePlaying r sessionId with
  | Sum.inl rej => (r, [(Dest.client sessionId, rej)])
  | Sum.inr current =>
    let tileId := msg.tileId.getD ""
    if tileId = "" then
      (r, [(Dest.client sessionId, ServerMsg.actionRejected "Trade requires tile id.")])
    else if r.sharedBagCount ≤ 3 then
      (r, [(Dest.client sessionId,
            ServerMsg.actionRejected "Not enough tiles remain to trade.")])
    else
      let pid := getPlayerIdForSession r sessionId
      if pid = "" then
        (r, [(Dest.client sessionId, ServerMsg.actionRejected "Unknown player seat.")])
      else
        let previousBagCount := current.drawPile.length
        let next := tradeTile current tileId tradeRng
        let r1 := { r with playerGameStates := mapSet pid next r.playerGameStates }
        let bagDelta := previousBagCount - next.drawPile.length
        let r2 :=
          if bagDelta ≠ 0 then
            let target := r1.sharedBagCount - bagDelta
            { r1 with
              sharedBagCount := target
              playerGameStates := synchronizePlayerBagSizes syncRngs r1.playerGameStates target }
          else r1
        (r2, sendSnapshotsToAllPlayers r2 "trade_tile" (some sessionId))

/-- finalizeNoWinner. -/
def finalizeNoWinner (r : RoomModel) (message : String) : RoomModel × List Out :=
  (clearRoundGames { r with phase := RoomPhase.lobby },
   [(Dest.broadcast, ServerMsg.roomNotice "info" message)])

/-- finalizeWinner (the await on the stats collaborator is sequencing
only; recordMatch itself is external and is represented by the
stats_snapshot broadcast). -/
def finalizeWinner (r : RoomModel) (winnerPlayerId : String) : RoomModel × List Out :=
  if r.phase ≠ RoomPhase.playing then (r, [])
  else
    match getPlayerEntryByPlayerId r winnerPlayerId with
    | none => finalizeNoWinner r "Winner left the room before scoring."
    | some entry =>
      match mapGet winnerPlayerId r.playerGameStates with
      | none => finalizeNoWinner r "Winner state was unavailable."
      | some winningGameState =>
        let winner := entry.2
        let winningBoardTiles := winningGameState.tiles.filter isBoardTile
        let longestWord := computeLongestWordFromBoard winningGameState
        let winnerLongest :=
          if winner.longestWord.length < longestWord.length then longestWord
          else winner.longestWord
        let players1 := r.players.map (fun e =>
          let base : PlayerR := { e.2 with gamesPlayed := e.2.gamesPlayed + 1 }
          (e.1,
           if e.1 = entry.1 then
             { base with wins := base.wins + 1, longestWord := winnerLongest }
           else base))
        let r1 :=
          { r with
            players := players1
            lastWinnerName := winner.name
            lastLongestWord := longestWord
            roundsPlayed := r.roundsPlayed + 1
            phase := RoomPhase.lobby }
        (clearRoundGames r1,
         [(Dest.broadcast, ServerMsg.statsSnapshot),
          (Dest.broadcast,
           ServerMsg.gameFinished winner.name longestWord winner.clientId winningBoardTiles),
          (Dest.broadcast,
           ServerMsg.roomNotice "info"
             (winner.name ++ " won the round" ++
              (if longestWord = "" then "" else " with longest word " ++ longestWord) ++ "."))])

/-- handleServePlate, with the winner finalization inlined sequentially
(the room processes messages one at a time). -/
def handleServePlate (r : RoomModel) (sessionId : String) (syncRngs : Nat → Rng) :
    RoomModel × List Out :=
  match ensurePlaying r sessionId with
  | Sum.inl rej => (r, [(Dest.client sessionId, rej)])
  | Sum.inr current =>
    if hasStagingTiles current then
      (r, [(Dest.client sessionId,
            ServerMsg.actionRejected "Place all tray tiles on your board before serving.")])
    else
      let previousSharedBagCount := r.sharedBagCount
      let nextGames := r.playerGameStates.map (fun e => (e.1, servePlate e.2))
      let actorPlayerId := getPlayerIdForSession r sessionId
      let actorNextState :=
        if actorPlayerId = "" then none else mapGet actorPlayerId nextGames
      let r2 :=
        match actorNextState with
        | some st =>
          if st.status = GameStatus.running then
            let target := previousSharedBagCount - nextGames.length
            { r with
              sharedBagCount := target
              playerGameStates := synchronizePlayerBagSizes syncRngs nextGames target }
          else
            { r with
              playerGameStates := nextGames
              sharedBagCount := getCurrentBagCountFromRound nextGames }
        | none =>
          { r with
            playerGameStates := nextGames
            sharedBagCount := getCurrentBagCountFromRound nextGames }
      let snaps := sendSnapshotsToAllPlayers r2 "serve_plate" (some sessionId)
      match actorNextState with
      | none => (r2, snaps)
      | some st =>
        if st.status = GameStatus.running then (r2, snaps)
        else if st.status = GameStatus.won then
          if actorPlayerId ≠ "" then
            let fin := finalizeWinner r2 actorPlayerId
            (fin.1, snaps ++ fin.2)
          else (r2, snaps)
        else
          let fin := finalizeNoWinner r2 "Round ended without a winner."
          (fin.1, snaps ++ fin.2)

/-- startAuthoritativeGame; every created board gets its own
Math.random stream. -/
def startAuthoritativeGame (r : RoomModel) (sessionId : String)
    (createRngs : Nat → Rng) : RoomModel × List Out :=
  if sessionId ≠ r.ownerClientId then
    (r, [(Dest.client sessionId,
          ServerMsg.roomNotice "error" "Only the host can start the game.")])
  else
    let connectedPlayers := getConnectedPlayers r
    if connectedPlayers.length < 2 then
      (r, [(Dest.client sessionId,
            ServerMsg.roomNotice "error" "At least 2 connected players are required.")])
    else
      let activeRoundPlayers := min 4 connectedPlayers.length
      let games := mapWithIndex
        (fun i e =>
          (e.2.playerId,
           createGame { playersField := some activeRoundPlayers } (createRngs i)))
        0 connectedPlayers
      let r1 :=
        { r with
          phase := RoomPhase.playing
          players := r.players.map (fun e => (e.1, { e.2 with ready := false }))
          activeRoundPlayers := activeRoundPlayers
          playerGameStates := games
          sharedBagCount := getCurrentBagCountFromRound games }
      (r1, (Dest.broadcast, ServerMsg.gameStarted) ::
            sendSnapshotsToAllPlayers r1 "start_game" (some sessionId))

/-- getOrCreatePlayerGameState. -/
def getOrCreatePlayerGameState (r : RoomModel) (sessionId : String)
    (createRng resizeRng : Rng) : GameState × RoomModel :=
  let pid := getPlayerIdForSession r sessionId
  if pid = "" then
    (createGame { playersField := some (max 2 (min 4 r.clients.length)) } createRng, r)
  else
    match mapGet pid r.playerGameStates with
    | some existing => (existing, r)
    | none =>
      let players :=
        if 0 < r.activeRoundPlayers then r.activeRoundPlayers
        else min 4 (getConnectedPlayerCount r)
      let created := createGame { playersField := some (max 2 players) } createRng
      let created1 :=
        if 0 < r.sharedBagCount ∧ created.drawPile.length ≠ r.sharedBagCount then
          resizeBag resizeRng created r.sharedBagCount
        else created
      (created1, { r with playerGameStates := mapSet pid created1 r.playerGameStates })

/-- removePlayerBySession. -/
def removePlayerBySession (r : RoomModel) (sessionId : String) (message : String) :
    RoomModel × List Out :=
  match mapGet sessionId r.players with
  | none => (r, [])
  | some player =>
    let r1 :=
      { r with
        players := mapDel sessionId r.players
        playerIdBySessionId := mapDel sessionId r.playerIdBySessionId
        playerGameStates := mapDel player.playerId r.playerGameStates }
    let r2 :=
      match mapGet player.playerId r1.resumeTokenByPlayerId with
      | some token =>
        { r1 with seatReservationsByToken := mapDel token r1.seatReservationsByToken }
      | none => r1
    let r3 := { r2 with resumeTokenByPlayerId := mapDel player.playerId r2.resumeTokenByPlayerId }
    let r4 :=
      if r3.ownerClientId = sessionId then
        { r3 with
          ownerClientId :=
            let f := getFirstConnectedPlayerSessionId r3
            if f = "" then getFirstPlayerId r3 else f }
      else r3
    if getConnectedPlayerCount r4 < 2 ∧ r4.phase = RoomPhase.playing then
      ({ clearRoundGames r4 with phase := RoomPhase.lobby },
       [(Dest.broadcast,
         ServerMsg.roomNotice "info"
           "Game reset to lobby because connected player count dropped below 2."),
        (Dest.broadcast, ServerMsg.roomNotice "info" message)])
    else
      (r4, [(Dest.broadcast, ServerMsg.roomNotice "info" message)])

/-- pruneExpiredSeatReservations: collect expired tokens, then remove
each (and its still-disconnected player). -/
def pruneExpiredSeatReservations (r : RoomModel) (now : Nat) : RoomModel × List Out :=
  if r.seatReservationsByToken.isEmpty then (r, [])
  else
    let expiredTokens :=
      (r.seatReservationsByToken.filter (fun e => e.2.expiresAt ≤ now)).map (fun e => e.1)
    if expiredTokens.isEmpty then (r, [])
    else
      expiredTokens.foldl
        (fun acc token =>
          match mapGet token acc.1.seatReservationsByToken with
          | none => acc
          | some reservation =>
            let room1 :=
              { acc.1 with
                seatReservationsByToken := mapDel token acc.1.seatReservationsByToken }
            match getPlayerEntryByPlayerId room1 reservation.playerId with
            | none => (room1, acc.2)
            | some entry =>
              if entry.2.connected then (room1, acc.2)
              else
                let rem := removePlayerBySession room1 entry.1
                  (entry.2.name ++ " timed out and was removed from the room.")
                (rem.1, acc.2 ++ rem.2))
        (r, [])

/-- tryReclaimSeat; returns the reclaimed player (if any) and the room
as mutated (an expired or stale reservation is deleted even when the
reclaim fails). -/
def tryReclaimSeat (r : RoomModel) (sessionId requestedName resumeToken : String)
    (now : Nat) : Option PlayerR × RoomModel :=
  if resumeToken = "" then (none, r)
  else
    match mapGet resumeToken r.seatReservationsByToken with
    | none => (none, r)
    | some reservation =>
      if reservation.expiresAt ≤ now then
        (none, { r with seatReservationsByToken := mapDel resumeToken r.seatReservationsByToken })
      else
        match getPlayerEntryByPlayerId r reservation.playerId with
        | none =>
          (none, { r with seatReservationsByToken := mapDel resumeToken r.seatReservationsByToken })
        | some entry =>
          if entry.2.connected then
            (none,
             { r with seatReservationsByToken := mapDel resumeToken r.seatReservationsByToken })
          else
            let player :=
              { entry.2 with
                clientId := sessionId
                connected := true
                name :=
                  if requestedName ≠ "" ∧ requestedName ≠ entry.2.name then requestedName
                  else entry.2.name }
            let r1 :=
              { r with
                players := mapSet sessionId player (mapDel entry.1 r.players)
                playerIdBySessionId := mapSet sessionId player.playerId r.playerIdBySessionId
                seatReservationsByToken := mapDel resumeToken r.seatReservationsByToken }
            let r2 :=
              if r1.ownerClientId = entry.1 then { r1 with ownerClientId := sessionId }
              else r1
            (some player, r2)

/-- sendSeatToken. -/
def sendSeatToken (r : RoomModel) (clientSession targetSession freshToken : String) :
    RoomModel × List Out :=
  let pid := getPlayerIdForSession r targetSession
  if pid = "" then (r, [])
  else
    let issued := issueResumeToken r pid freshToken
    (issued.2,
     [(Dest.client clientSession,
       ServerMsg.seatToken issued.1 pid r.roomId r.seatReservationSeconds)])

/-- The shared tail of onJoin once the player record is settled. -/
def onJoinFinish (r2 : RoomModel) (sessionId : String) (player : PlayerR)
    (rejoined : Bool) (freshToken : String) (createRng resizeRng : Rng)
    (prunedOuts : List Out) : RoomModel × List Out :=
  let ownerOk :=
    match mapGet r2.ownerClientId r2.players with
    | some p => p.connected
    | none => false
  let r3 :=
    if r2.ownerClientId = "" ∨ ownerOk = false then
      { r2 with
        ownerClientId :=
          let f := getFirstConnectedPlayerSessionId r2
          if f = "" then sessionId else f }
    else r2
  let seat := sendSeatToken r3 sessionId sessionId freshToken
  let r4 := seat.1
  let noticeWord := if rejoined then "Rejoined" else "Joined"
  let verb := if rejoined then "rejoined" else "joined"
  let baseOuts :=
    prunedOuts ++ seat.2 ++
    [(Dest.client sessionId,
      ServerMsg.roomNotice "info" (noticeWord ++ " room " ++ r4.roomId ++ ".")),
     (Dest.broadcast,
      ServerMsg.roomNotice "info" (player.name ++ " " ++ verb ++ " the room.")),
     (Dest.client sessionId, ServerMsg.statsSnapshot)]
  if r4.phase = RoomPhase.playing then
    let got := getOrCreatePlayerGameState r4 sessionId createRng resizeRng
    (got.2,
     baseOuts ++
       [(Dest.client sessionId, buildGameSnapshot got.2 got.1 "sync" none)])
  else (r4, baseOuts)

/-- onJoin; the transport has already added the session to clients when
the callback runs, so the wrapper appends it first.  randomUUID calls
are supplied as freshPlayerId / freshToken. -/
def onJoin (r : RoomModel) (sessionId : String) (options : JoinOptions) (now : Nat)
    (freshPlayerId freshToken : String) (createRng resizeRng : Rng) :
    Except String (RoomModel × List Out) :=
  let r0 := { r with clients := r.clients ++ [sessionId] }
  let pruned := pruneExpiredSeatReservations r0 now
  let r1 := pruned.1
  let fallbackName := "Player " ++ toString r1.clients.length
  let requestedName := sanitizeName options.nameField fallbackName
  let resumeToken := getJoinResumeToken options
  let reclaim := tryReclaimSeat r1 sessionId requestedName resumeToken now
  match reclaim.1 with
  | some player =>
    Except.ok (onJoinFinish reclaim.2 sessionId player true freshToken createRng resizeRng pruned.2)
  | none =>
    if 4 ≤ reclaim.2.players.length then Except.error "Room is full."
    else
      let player : PlayerR :=
        { playerId := freshPlayerId, clientId := sessionId, name := requestedName,
          connected := true, ready := false, joinedAt := now, wins := 0,
          gamesPlayed := 0, longestWord := "" }
      let r2 :=
        { reclaim.2 with
          players := mapSet sessionId player reclaim.2.players
          playerIdBySessionId := mapSet sessionId freshPlayerId reclaim.2.playerIdBySessionId }
      Except.ok (onJoinFinish r2 sessionId player false freshToken createRng resizeRng pruned.2)

/-- onLeave; the transport removes the session from clients first. -/
def onLeave (r : RoomModel) (sessionId : String) (consented : Bool) (now : Nat)
    (freshToken : String) : RoomModel × List Out :=
  let r0 := { r with clients := r.clients.filter (fun c => c ≠ sessionId) }
  match mapGet sessionId r0.players with
  | none => (r0, [])
  | some leavingPlayer =>
    if consented then
      removePlayerBySession r0 sessionId (leavingPlayer.name ++ " left the room.")
    else
      let r1 :=
        { r0 with
          players := mapSet sessionId { leavingPlayer with connected := false } r0.players
          playerIdBySessionId := mapDel sessionId r0.playerIdBySessionId }
      let r2 := reserveDisconnectedSeat r1 leavingPlayer.playerId now freshToken
      let r3 :=
        if r2.ownerClientId = sessionId then
          { r2 with
            ownerClientId :=
              let f := getFirstConnectedPlayerSessionId r2
              if f = "" then getFirstPlayerId r2 else f }
        else r2
      (r3,
       [(Dest.broadcast,
         ServerMsg.roomNotice "info"
           (leavingPlayer.name ++ " disconnected. Their board is reserved for rejoin."))])

/-- A fresh room as built by onCreate (default reservation window). -/
def initialRoom (roomId : String) : RoomModel :=
  { roomId := roomId, phase := RoomPhase.lobby, players := [], ownerClientId := "",
    lastWinnerName := "", lastLongestWord := "", roundsPlayed := 0, clients := [],
    playerGameStates := [], playerIdBySessionId := [], resumeTokenByPlayerId := [],
    seatReservationsByToken := [], activeRoundPlayers := 0, sharedBagCount := 0,
    seatReservationSeconds := 300 }

/-
  Concrete execution scripts: a small operation language over the room,
  used to exhibit reachable rooms.  All randomness is the constant-zero
  stream; time stands still at 0 (no reservation expires).
-/

/-- A settled room-level operation together with its injected fresh ids. -/
inductive Op where
  | join (sessionId : String) (nameOpt : Option String) (tokenOpt : Option String)
      (freshPlayerId freshToken : String)
  | leave (sessionId : String) (consented : Bool)
  | start (sessionId : String)
  | move (sessionId tileId : String) (row col : Int)
  | trade (sessionId tileId : String)
  | serve (sessionId : String)

/-- The all-zeros random stream. -/
def zeroRng : Rng := ⟨fun _ => 0, 0⟩

/-- One zero stream per consumer. -/
def zeroRngs : Nat → Rng := fun _ => zeroRng

/-- Apply one operation (dropping the outbound messages; a failed join
leaves the room untouched). -/
def applyOp (r : RoomModel) (op : Op) : RoomModel :=
  match op with
  | .join s nm tk pid tok =>
    match onJoin r s { nameField := nm, resumeTokenField := tk } 0 pid tok zeroRng zeroRng with
    | .ok res => res.1
    | .error _ => r
  | .leave s c => (onLeave r s c 0 ("rt-" ++ s)).1
  | .start s => (startAuthoritativeGame r s zeroRngs).1
  | .move s t row col =>
    (handleMoveTile r s { tileId := some t, rowField := some row, colField := some col }).1
  | .trade s t => (handleTradeTile r s { tileId := some t } zeroRng zeroRngs).1
  | .serve s => (handleServePlate r s zeroRngs).1

/-- Run a script. -/
def runOps (r : RoomModel) (ops : List Op) : RoomModel :=
  ops.foldl applyOp r

/-- The move placing tile tk of the acting player on its own board cell:
tile tk goes to row (k-1)/12 + 1, column (k-1) % 12 + 1. -/
def moveTileOp (k : Nat) : Op :=
  Op.move "sA" ("t" ++ toString k) (((k - 1) / 12 + 1 : Nat) : Int)
    (((k - 1) % 12 + 1 : Nat) : Int)

/-- Clear the twelve initial tray tiles of player A onto the board. -/
def initialMoves : List Op :=
  (List.range 12).map (fun k => moveTileOp (k + 1))

/-- One serve preceded by placing the tile the previous serve surfaced:
serve j of the round surfaces tile t(12+j) for the acting player. -/
def serveBlock (j : Nat) : List Op :=
  [moveTileOp (12 + j), Op.serve "sA"]

/-- The script behind the shared-bag counterexample: a 2-player round
(bag 114), one mid-round joiner (3 boards), 38 serves (the shared count
walks 114, 111, ..., 3, 0 while the actor keeps running), then a second
mid-round join while the shared count is 0. -/
def c2Script : List Op :=
  [Op.join "sA" none none "pA" "tA",
   Op.join "sB" none none "pB" "tB",
   Op.start "sA",
   Op.join "sC" none none "pC" "tC"] ++
  initialMoves ++
  [Op.serve "sA"] ++
  (List.range 37).flatMap (fun j => serveBlock (j + 1)) ++
  [Op.join "sD" none none "pD" "tD"]

/-- The room at the end of the shared-bag script. -/
def c2FinalRoom : RoomModel :=
  runOps (initialRoom "room1") c2Script

/-- The pile lengths of all boards in the store. -/
def bagLengths (r : RoomModel) : List Nat :=
  r.playerGameStates.map (fun e => e.2.drawPile.length)

/-- The bag-size invariant of the spec. -/
def allBagSizesEqual (games : List (String × GameState)) : Prop :=
  ∀ e1 ∈ games, ∀ e2 ∈ games, e1.2.drawPile.length = e2.2.drawPile.length

/-- The script behind the empty-winner-name counterexample: player A
joins under a name that sanitizes to the empty string, wins a 2-player
round (57th serve ends it). -/
def c5Prefix : List Op :=
  [Op.join "sA" (some ". .") none "pA" "tA",
   Op.join "sB" none none "pB" "tB",
   Op.start "sA"] ++
  initialMoves ++
  [Op.serve "sA"] ++
  (List.range 55).flatMap (fun j => serveBlock (j + 1)) ++
  [moveTileOp 68]

/-- The room just before the winning serve. -/
def c5PreRoom : RoomModel :=
  runOps (initialRoom "room2") c5Prefix

/-- The winning serve itself, with its messages. -/
def c5FinalStep : RoomModel × List Out :=
  handleServePlate c5PreRoom "sA" zeroRngs

/-- The winner names carried by game_finished messages in an output list. -/
def winnerNamesIn (outs : List Out) : List String :=
  outs.filterMap (fun o =>
    match o.2 with
    | ServerMsg.gameFinished w _ _ _ => some w
    | _ => none)

/-- The script behind the ownership counterexample: the host leaves
gracefully while the only other seat is disconnected. -/
def c8Script : List Op :=
  [Op.join "s1" (some "Host") none "p1" "tk1",
   Op.join "s2" (some "Bob") none "p2" "tk2",
   Op.leave "s2" false,
   Op.leave "s1" true]

/-- The room at the end of the ownership script. -/
def c8FinalRoom : RoomModel :=
  runOps (initialRoom "room3") c8Script

/-
  Claim-level predicates.
-/

/-- Two tiles occupy the same board cell (both on the board with equal,
present coordinates). -/
def clash (t u : Tile) : Bool :=
  t.zone == TileZone.board && u.zone == TileZone.board &&
  t.row.isSome && t.col.isSome && t.row == u.row && t.col == u.col

/-- At most one board tile occupies any cell. -/
def atMostOnePerCell (ts : List Tile) : Prop :=
  ts.Pairwise (fun t u => clash t u = false)

/-- A tile occupies the given board cell. -/
def occupiesP (t : Tile) (r c : Int) : Prop :=
  t.zone = TileZone.board ∧ t.row = some r ∧ t.col = some c

/-- The data-model invariant: board tiles carry coordinates. -/
def boardCoordsPresent (ts : List Tile) : Prop :=
  ∀ t ∈ ts, t.zone = TileZone.board → t.row ≠ none ∧ t.col ≠ none

instance (ts : List Tile) : Decidable (atMostOnePerCell ts) := by
  unfold atMostOnePerCell
  infer_instance

instance (ts : List Tile) : Decidable (boardCoordsPresent ts) := by
  unfold boardCoordsPresent
  infer_instance

instance (games : List (String × GameState)) : Decidable (allBagSizesEqual games) := by
  unfold allBagSizesEqual
  infer_instance

/-- The round invariant the Board State Store maintains during play:
bounded active player count, and every stored board running, with the
round player count, and with a pile of exactly the shared size. -/
def RoundInv (r : RoomModel) : Prop :=
  r.phase = RoomPhase.playing →
    2 ≤ r.activeRoundPlayers ∧ r.activeRoundPlayers ≤ 4 ∧
    ∀ e ∈ r.playerGameStates,
      e.2.status = GameStatus.running ∧
      e.2.config.players = r.activeRoundPlayers ∧
      e.2.drawPile.length = r.sharedBagCount

/-- The ownership invariant: when any roster member is connected, the
owner session refers to a connected roster member. -/
def OwnerInv (r : RoomModel) : Prop :=
  (∃ e ∈ r.players, e.2.connected = true) →
    ∃ e ∈ r.players, e.1 = r.ownerClientId ∧ e.2.connected = true

/-
  Helper lemmas: list search, the association-list operations, and the
  elementary frame facts of the engine operations.
-/

/-- A small running state: 2 players, 3 letters in the bag. -/
def demoServe : GameState :=
  { config := { rows := 3, cols := 3, players := 2, initialVisibleTiles := 0
                pressureRangeMs := (0, 0) }
    status := GameStatus.running, turn := 5, nextTileId := 4
    drawPile := ["A", "B", "C"], tiles := [], lastAction := "x" }

/-- A running state with 4 letters in the bag and no tiles. -/
def demoTradeBase : GameState :=
  { config := { rows := 3, cols := 3, players := 2, initialVisibleTiles := 0
                pressureRangeMs := (0, 0) }
    status := GameStatus.running, turn := 0, nextTileId := 1
    drawPile := ["A", "B", "C", "D"], tiles := [], lastAction := "" }

/-- A running state with one staging tile and a tradeable bag. -/
def demoTradeFull : GameState :=
  { config := { rows := 3, cols := 3, players := 2, initialVisibleTiles := 0
                pressureRangeMs := (0, 0) }
    status := GameStatus.running, turn := 0, nextTileId := 2
    drawPile := ["A", "B", "C", "D"]
    tiles := [{ id := "t1", letter := "Q", zone := TileZone.staging
                row := none, col := none }]
    lastAction := "" }

/-- A running state with one board tile and one tray tile. -/
def demoMove : GameState :=
  { config := { rows := 4, cols := 4, players := 2, initialVisibleTiles := 0
                pressureRangeMs := (0, 0) }
    status := GameStatus.running, turn := 2, nextTileId := 3
    drawPile := ["A"]
    tiles := [{ id := "t1", letter := "A", zone := TileZone.board
                row := some 1, col := some 1 },
              { id := "t2", letter := "B", zone := TileZone.staging
                row := none, col := none }]
    lastAction := "" }

/-- The fold step of getFirstConnectedPlayerSessionId, named for reuse in
the ownership lemmas. -/
def firstConnStep (first : String) (e : String × PlayerR) : String :=
  if first = "" ∧ e.2.connected then e.1 else first

/-- The fold step of getFirstPlayerId. -/
def firstKeyStep (first : String) (e : String × PlayerR) : String :=
  if first = "" then e.1 else first

instance (r : RoomModel) : Decidable (RoundInv r) := by
  unfold RoundInv
  infer_instance

instance (r : RoomModel) : Decidable (OwnerInv r) := by
  unfold OwnerInv
  infer_instance

/-- Roster record of the demo rooms: seat s1. -/
def demoPlayerA : PlayerR :=
  { playerId := "p1", clientId := "s1", name := "Ann", connected := true
    ready := false, joinedAt := 0, wins := 0, gamesPlayed := 0, longestWord := "" }

/-- Roster record of the demo rooms: seat s2. -/
def demoPlayerB : PlayerR :=
  { playerId := "p2", clientId := "s2", name := "Bob", connected := true
    ready := false, joinedAt := 0, wins := 0, gamesPlayed := 0, longestWord := "" }

/-- A board one serve away from winning: empty tray, two letters left. -/
def demoGameWin : GameState :=
  { config := { rows := 3, cols := 3, players := 2, initialVisibleTiles := 0
                pressureRangeMs := (0, 0) }
    status := GameStatus.running, turn := 9, nextTileId := 5
    drawPile := ["A", "B"], tiles := [], lastAction := "" }

/-- demoGameWin with one tray tile still unplaced. -/
def demoGameStag : GameState :=
  { config := { rows := 3, cols := 3, players := 2, initialVisibleTiles := 0
                pressureRangeMs := (0, 0) }
    status := GameStatus.running, turn := 9, nextTileId := 5
    drawPile := ["A", "B"]
    tiles := [{ id := "t4", letter := "Q", zone := TileZone.staging
                row := none, col := none }]
    lastAction := "" }

/-- A mid-round room with two seated players. -/
def demoRound : RoomModel :=
  { roomId := "demo", phase := RoomPhase.playing
    players := [("s1", demoPlayerA), ("s2", demoPlayerB)]
    ownerClientId := "s1", lastWinnerName := "", lastLongestWord := ""
    roundsPlayed := 0, clients := ["s1", "s2"]
    playerGameStates := [("p1", demoGameWin), ("p2", demoGameWin)]
    playerIdBySessionId := [("s1", "p1"), ("s2", "p2")]
    resumeTokenByPlayerId := [], seatReservationsByToken := []
    activeRoundPlayers := 2, sharedBagCount := 2, seatReservationSeconds := 300 }

/-- demoRound with the acting player still holding a tray tile. -/
def demoRoundStag : RoomModel :=
  { demoRound with playerGameStates := [("p1", demoGameStag), ("p2", demoGameWin)] }

/-- The disconnected seat behind the reclaim witness. -/
def demoPlayerOld : PlayerR :=
  { playerId := "pX", clientId := "sOld", name := "Old", connected := false
    ready := false, joinedAt := 0, wins := 3, gamesPlayed := 5, longestWord := "WORD" }

/-- A room holding one reserved, disconnected seat. -/
def demoRoomC6 : RoomModel :=
  { roomId := "c6", phase := RoomPhase.lobby
    players := [("sOld", demoPlayerOld)]
    ownerClientId := "sOld", lastWinnerName := "", lastLongestWord := ""
    roundsPlayed := 0, clients := []
    playerGameStates := [("pX", demoGameWin)]
    playerIdBySessionId := []
    resumeTokenByPlayerId := [("pX", "tokX")]
    seatReservationsByToken := [("tokX", { playerId := "pX", expiresAt := 1000 })]
    activeRoundPlayers := 0, sharedBagCount := 0, seatReservationSeconds := 300 }

deriving instance DecidableEq for Except

/-- A full room: four seated, connected players. -/
def demoRoomC6full : RoomModel :=
  { roomId := "c6f", phase := RoomPhase.lobby
    players :=
      [("s1", demoPlayerA), ("s2", demoPlayerB),
       ("s3", { demoPlayerA with playerId := "p3", clientId := "s3", name := "Cid" }),
       ("s4", { demoPlayerA with playerId := "p4", clientId := "s4", name := "Dee" })]
    ownerClientId := "s1", lastWinnerName := "", lastLongestWord := ""
    roundsPlayed := 0, clients := ["s1", "s2", "s3", "s4"]
    playerGameStates := []
    playerIdBySessionId := [("s1", "p1"), ("s2", "p2"), ("s3", "p3"), ("s4", "p4")]
    resumeTokenByPlayerId := [], seatReservationsByToken := []
    activeRoundPlayers := 0, sharedBagCount := 0, seatReservationSeconds := 300 }

theorem firstIdxWhere_some_lt {p : α → Bool} :
    ∀ {l : List α} {i : Nat}, firstIdxWhere p l = some i → i < l.length := by
  intro l
  induction l with
  | nil => intro i h; simp [firstIdxWhere] at h
  | cons x xs ih =>
    intro i h
    by_cases hp : p x
    · simp [firstIdxWhere, hp] at h
      subst h
      simp
    · simp [firstIdxWhere, hp, Option.map_eq_some'] at h
      obtain ⟨j, hj, rfl⟩ := h
      have := ih hj
      simp
      omega

theorem firstIdxWhere_getElem {p : α → Bool} :
    ∀ {l : List α} {i : Nat} (_ : firstIdxWhere p l = some i) (hlt : i < l.length),
      p l[i] = true := by
  intro l
  induction l with
  | nil => intro i h hlt; simp [firstIdxWhere] at h
  | cons x xs ih =>
    intro i h hlt
    by_cases hp : p x
    · simp [firstIdxWhere, hp] at h
      subst h
      simpa using hp
    · simp [firstIdxWhere, hp, Option.map_eq_some'] at h
      obtain ⟨j, hj, rfl⟩ := h
      have hjl := firstIdxWhere_some_lt hj
      simpa using ih hj hjl

theorem firstIdxWhere_none {p : α → Bool} :
    ∀ {l : List α}, firstIdxWhere p l = none → ∀ x ∈ l, p x = false := by
  intro l
  induction l with
  | nil => intro _ x hx; simp at hx
  | cons y ys ih =>
    intro h x hx
    by_cases hp : p y
    · simp [firstIdxWhere, hp] at h
    · simp [firstIdxWhere, hp] at h
      rcases List.mem_cons.mp hx with rfl | hx
      · simpa using hp
      · exact ih h x hx

theorem firstIdxWhere_isSome {p : α → Bool} :
    ∀ {l : List α} {x : α}, x ∈ l → p x = true → (firstIdxWhere p l).isSome := by
  intro l
  induction l with
  | nil => intro x hx; simp at hx
  | cons y ys ih =>
    intro x hx hp
    by_cases hpy : p y
    · simp [firstIdxWhere, hpy]
    · rcases List.mem_cons.mp hx with rfl | hx
      · rw [hp] at hpy; simp at hpy
      · have hrec := ih hx hp
        cases hfi : firstIdxWhere p ys with
        | none => rw [hfi] at hrec; simp at hrec
        | some j => simp [firstIdxWhere, hpy, hfi]

theorem listSet_self (l : List α) (i : Nat) (h : i < l.length) :
    l.set i l[i] = l := by
  apply List.ext_getElem
  · simp
  · intro j hj1 hj2
    rw [List.getElem_set]
    split
    · next heq => subst heq; rfl
    · rfl

theorem mapGet_some_mem {k : String} {v : α} :
    ∀ {m : List (String × α)}, mapGet k m = some v → (k, v) ∈ m := by
  intro m
  induction m with
  | nil => intro h; simp [mapGet] at h
  | cons e rest ih =>
    obtain ⟨k0, v0⟩ := e
    intro h
    by_cases he : k0 = k
    · subst he
      simp [mapGet] at h
      subst h
      exact List.mem_cons_self _ _
    · simp [mapGet, he] at h
      exact List.mem_cons_of_mem _ (ih h)

theorem mapGet_mapSet_self (k : String) (v : α) :
    ∀ (m : List (String × α)), mapGet k (mapSet k v m) = some v := by
  intro m
  induction m with
  | nil => simp [mapSet, mapGet]
  | cons e rest ih =>
    by_cases he : e.1 = k
    · simp [mapSet, he, mapGet]
    · simp [mapSet, he, mapGet, ih]

theorem mapGet_mapSet_ne (k kt : String) (v : α) (h : kt ≠ k) :
    ∀ (m : List (String × α)), mapGet kt (mapSet k v m) = mapGet kt m := by
  intro m
  induction m with
  | nil => simp [mapSet, mapGet, Ne.symm h]
  | cons e rest ih =>
    by_cases he : e.1 = k
    · subst he
      have hnk : ¬ e.1 = kt := fun hh => h hh.symm
      simp [mapSet, mapGet, hnk]
    · simp only [mapSet, if_neg he]
      by_cases het : e.1 = kt
      · simp [mapGet, het]
      · simp [mapGet, het, ih]

theorem mem_mapSet_elim {e : String × α} {k : String} {v : α} :
    ∀ {m : List (String × α)}, e ∈ mapSet k v m → e = (k, v) ∨ e ∈ m := by
  intro m
  induction m with
  | nil =>
    intro h
    simp [mapSet] at h
    left
    exact h
  | cons e0 rest ih =>
    intro h
    by_cases he : e0.1 = k
    · rcases List.mem_cons.mp (by simpa [mapSet, he] using h) with h1 | h1
      · left; exact h1
      · right; exact List.mem_cons_of_mem _ h1
    · rcases List.mem_cons.mp (by simpa [mapSet, he] using h) with h1 | h1
      · right
        rw [h1]
        exact List.mem_cons_self _ _
      · rcases ih h1 with h2 | h2
        · left; exact h2
        · right; exact List.mem_cons_of_mem _ h2

theorem mem_mapSet_self (k : String) (v : α) :
    ∀ (m : List (String × α)), (k, v) ∈ mapSet k v m := by
  intro m
  induction m with
  | nil => simp [mapSet]
  | cons e rest ih =>
    by_cases he : e.1 = k
    · simp [mapSet, he]
    · simp only [mapSet, if_neg he]
      exact List.mem_cons_of_mem _ ih

theorem mem_mapSet_of_ne {e : String × α} {k : String} {v : α}
    (hne : e.1 ≠ k) : ∀ {m : List (String × α)}, e ∈ m → e ∈ mapSet k v m := by
  intro m
  induction m with
  | nil => intro h; simp at h
  | cons e0 rest ih =>
    intro h
    rcases List.mem_cons.mp h with rfl | h
    · by_cases he : e.1 = k
      · exact absurd he hne
      · simp only [mapSet, if_neg he]
        exact List.mem_cons_self _ _
    · by_cases he : e0.1 = k
      · simp only [mapSet, if_pos he]
        exact List.mem_cons_of_mem _ h
      · simp only [mapSet, if_neg he]
        exact List.mem_cons_of_mem _ (ih h)

theorem mem_mapDel_elim {e : String × α} {k : String} :
    ∀ {m : List (String × α)}, e ∈ mapDel k m → e ∈ m := by
  intro m
  induction m with
  | nil => intro h; simp [mapDel] at h
  | cons e0 rest ih =>
    intro h
    by_cases he : e0.1 = k
    · simp only [mapDel, if_pos he] at h
      exact List.mem_cons_of_mem _ h
    · simp only [mapDel, if_neg he] at h
      rcases List.mem_cons.mp h with rfl | h
      · exact List.mem_cons_self _ _
      · exact List.mem_cons_of_mem _ (ih h)

theorem mem_mapDel_of_ne {e : String × α} {k : String}
    (hne : e.1 ≠ k) : ∀ {m : List (String × α)}, e ∈ m → e ∈ mapDel k m := by
  intro m
  induction m with
  | nil => intro h; simp at h
  | cons e0 rest ih =>
    intro h
    rcases List.mem_cons.mp h with rfl | h
    · by_cases he : e.1 = k
      · exact absurd he hne
      · simp only [mapDel, if_neg he]
        exact List.mem_cons_self _ _
    · by_cases he : e0.1 = k
      · simp only [mapDel, if_pos he]
        exact h
      · simp only [mapDel, if_neg he]
        exact List.mem_cons_of_mem _ (ih h)

theorem mapGet_mapEntries (f : α → α) (k : String) :
    ∀ (m : List (String × α)),
      mapGet k (m.map (fun e => (e.1, f e.2))) = (mapGet k m).map f := by
  intro m
  induction m with
  | nil => simp [mapGet]
  | cons e rest ih =>
    by_cases he : e.1 = k
    · simp [mapGet, he]
    · simp [mapGet, he, ih]

theorem tileDistribution_length : TILE_DISTRIBUTION.length = 138 := by
  decide

theorem addVisibleTile_frame (s : GameState) :
    (addVisibleTile s).status = s.status ∧ (addVisibleTile s).config = s.config ∧
    (addVisibleTile s).turn = s.turn := by
  cases h : s.drawPile <;> simp [addVisibleTile, h]

theorem addVisibleTile_len (s : GameState) (h : s.drawPile ≠ []) :
    (addVisibleTile s).drawPile.length + 1 = s.drawPile.length ∧
    (addVisibleTile s).tiles.length = s.tiles.length + 1 := by
  cases hp : s.drawPile with
  | nil => exact absurd hp h
  | cons a rest => simp [addVisibleTile, hp]

theorem performServeRound_props (s : GameState) (hp : 1 ≤ s.config.players)
    (h : s.config.players < s.drawPile.length) :
    (performServeRound s).status = s.status ∧
    (performServeRound s).config = s.config ∧
    (performServeRound s).drawPile.length = s.drawPile.length - s.config.players ∧
    (performServeRound s).tiles.length = s.tiles.length + 1 := by
  have hguard : ¬ (s.drawPile.length < s.config.players - 1) := by omega
  have hburn : burnOtherPlayers s =
      { s with drawPile := s.drawPile.drop (s.config.players - 1) } := by
    simp [burnOtherPlayers, hguard]
  have hlen : (s.drawPile.drop (s.config.players - 1)).length =
      s.drawPile.length - (s.config.players - 1) := by
    simp
  have hne : (burnOtherPlayers s).drawPile ≠ [] := by
    rw [hburn]
    intro hcontra
    have : (s.drawPile.drop (s.config.players - 1)).length = 0 := by
      simp only at hcontra
      rw [hcontra]
      rfl
    omega
  have hav := addVisibleTile_len (burnOtherPlayers s) hne
  have hfr := addVisibleTile_frame (burnOtherPlayers s)
  refine ⟨?_, ?_, ?_, ?_⟩
  · simp only [performServeRound]
    rw [hfr.1, hburn]
  · simp only [performServeRound]
    rw [hfr.2.1, hburn]
  · simp only [performServeRound]
    have := hav.1
    rw [hburn] at this ⊢
    simp only at this ⊢
    rw [hlen] at this
    omega
  · simp only [performServeRound]
    have := hav.2
    rw [hburn] at this ⊢
    simp only at this ⊢
    omega

theorem serveRoundsLoop_props :
    ∀ (k : Nat) (s : GameState), 1 ≤ s.config.players →
      k * s.config.players < s.drawPile.length →
      (serveRoundsLoop k s).status = s.status ∧
      (serveRoundsLoop k s).config = s.config ∧
      (serveRoundsLoop k s).drawPile.length =
        s.drawPile.length - k * s.config.players ∧
      (serveRoundsLoop k s).tiles.length = s.tiles.length + k := by
  intro k
  induction k with
  | zero => intro s _ _; simp [serveRoundsLoop]
  | succ n ih =>
    intro s hp hlen
    have hcan : canServeRound s = true := by
      simp only [canServeRound, decide_eq_true_eq]
      have : s.config.players ≤ (n + 1) * s.config.players := by
        calc s.config.players = 1 * s.config.players := by omega
        _ ≤ (n + 1) * s.config.players := by
          exact Nat.mul_le_mul_right _ (by omega)
      omega
    have hps := performServeRound_props s hp (by
      simp only [canServeRound, decide_eq_true_eq] at hcan
      exact hcan)
    have hp1 : 1 ≤ (performServeRound s).config.players := by rw [hps.2.1]; exact hp
    have hlen1 : n * (performServeRound s).config.players <
        (performServeRound s).drawPile.length := by
      rw [hps.2.1, hps.2.2.1]
      have hexp : (n + 1) * s.config.players =
          n * s.config.players + s.config.players := by ring
      omega
    have hrec := ih (performServeRound s) hp1 hlen1
    simp only [serveRoundsLoop, hcan, if_true]
    refine ⟨?_, ?_, ?_, ?_⟩
    · rw [hrec.1, hps.1]
    · rw [hrec.2.1, hps.2.1]
    · rw [hrec.2.2.1, hps.2.2.1, hps.2.1]
      have hexp : (n + 1) * s.config.players =
          n * s.config.players + s.config.players := by ring
      omega
    · rw [hrec.2.2.2, hps.2.2.2]
      omega

theorem cons_set_perm [Inhabited α] :
    ∀ (xs : List α) (j : Nat) (x : α), j < xs.length →
      List.Perm ((xs.getD j default) :: xs.set j x) (x :: xs) := by
  intro xs
  induction xs with
  | nil => intro j x h; simp at h
  | cons y ys ih =>
    intro j x h
    cases j with
    | zero =>
      simp only [List.getD_cons_zero, List.set_cons_zero]
      exact List.Perm.swap x y ys
    | succ m =>
      simp only [List.getD_cons_succ, List.set_cons_succ]
      have hm : m < ys.length := by simpa using h
      exact ((List.Perm.swap (ys.getD m default) y (ys.set m x)).symm.trans
        (List.Perm.cons y (ih m x hm))).trans (List.Perm.swap x y ys)

theorem swapIdx_perm [Inhabited α] :
    ∀ (l : List α) (i j : Nat), i < l.length → j < l.length →
      List.Perm (swapIdx l i j) l := by
  intro l
  induction l with
  | nil => intro i j hi; simp at hi
  | cons x xs ih =>
    intro i j hi hj
    cases i with
    | zero =>
      cases j with
      | zero => simp [swapIdx]
      | succ m =>
        have hm : m < xs.length := by simpa using hj
        simp only [swapIdx, List.getD_cons_succ, List.set_cons_zero,
          List.set_cons_succ, List.getD_cons_zero]
        exact cons_set_perm xs m x hm
    | succ n =>
      cases j with
      | zero =>
        have hn : n < xs.length := by simpa using hi
        simp only [swapIdx, List.getD_cons_zero, List.set_cons_succ,
          List.set_cons_zero, List.getD_cons_succ]
        exact cons_set_perm xs n x hn
      | succ m =>
        have hn : n < xs.length := by simpa using hi
        have hm : m < xs.length := by simpa using hj
        simp only [swapIdx, List.getD_cons_succ, List.set_cons_succ]
        exact List.Perm.cons x (ih n m hn hm)

theorem swapIdx_length [Inhabited α] (l : List α) (i j : Nat) :
    (swapIdx l i j).length = l.length := by
  simp [swapIdx]

theorem shuffleFrom_perm [Inhabited α] :
    ∀ (i : Nat) (l : List α) (rng : Rng), i < l.length →
      List.Perm (shuffleFrom rng l i).1 l := by
  intro i
  induction i with
  | zero => intro l rng _; simp [shuffleFrom]
  | succ n ih =>
    intro l rng h
    simp only [shuffleFrom]
    have hj : (rng.next (n + 2)).1 < l.length := by
      have : (rng.next (n + 2)).1 < n + 2 := by
        simp only [Rng.next]
        exact Nat.mod_lt _ (by omega)
      omega
    have hlen : n < (swapIdx l (n + 1) (rng.next (n + 2)).1).length := by
      rw [swapIdx_length]
      omega
    exact (ih _ _ hlen).trans (swapIdx_perm l (n + 1) _ h hj)

theorem shuffleList_perm [Inhabited α] (l : List α) (rng : Rng) :
    List.Perm (shuffleList l rng).1 l := by
  cases l with
  | nil => simp [shuffleList, shuffleFrom]
  | cons x xs =>
    have h : (x :: xs).length - 1 < (x :: xs).length := by simp
    exact shuffleFrom_perm _ _ rng h

theorem shuffleList_length [Inhabited α] (l : List α) (rng : Rng) :
    (shuffleList l rng).1.length = l.length :=
  (shuffleList_perm l rng).length_eq

theorem clampPlayers_eq (p : Nat) (h2 : 2 ≤ p) (h4 : p ≤ 4) :
    clampPlayers p = p := by
  simp only [clampPlayers]
  omega

theorem createGame_eq (patch : GameConfigPatch) (rng : Rng) :
    createGame patch rng =
      { serveRoundsLoop (resolveConfig patch).initialVisibleTiles
          { config := resolveConfig patch, status := GameStatus.running, turn := 0
            nextTileId := 1, drawPile := (shuffleList TILE_DISTRIBUTION rng).1
            tiles := [], lastAction := "Game created." } with
        lastAction :=
          "Shelf stocked. Drag tiles onto the board, trade one-for-three, and keep serving." } :=
  rfl

theorem createGame_props (p : Nat) (rng : Rng) (h2 : 2 ≤ p) (h4 : p ≤ 4) :
    (createGame { playersField := some p } rng).status = GameStatus.running ∧
    (createGame { playersField := some p } rng).config.players = p ∧
    (createGame { playersField := some p } rng).drawPile.length = 138 - 12 * p := by
  have hcfg : resolveConfig { playersField := some p } =
      { rows := 12, cols := 12, players := p, initialVisibleTiles := 12
        pressureRangeMs := (4500, 8500) } := by
    simp [resolveConfig, DEFAULT_CONFIG, clampPlayers_eq p h2 h4]
  have hlen : (shuffleList TILE_DISTRIBUTION rng).1.length = 138 := by
    rw [shuffleList_length, tileDistribution_length]
  rw [createGame_eq, hcfg]
  set s0 : GameState :=
    { config := { rows := 12, cols := 12, players := p, initialVisibleTiles := 12
                  pressureRangeMs := (4500, 8500) }
      status := GameStatus.running, turn := 0, nextTileId := 1
      drawPile := (shuffleList TILE_DISTRIBUTION rng).1, tiles := []
      lastAction := "Game created." } with hs0
  have hpp : s0.config.players = p := by rw [hs0]
  have hpile : s0.drawPile = (shuffleList TILE_DISTRIBUTION rng).1 := by rw [hs0]
  have hp1 : 1 ≤ s0.config.players := by rw [hpp]; omega
  have hl : 12 * s0.config.players < s0.drawPile.length := by
    rw [hpp, hpile, hlen]
    omega
  have hloop := serveRoundsLoop_props 12 s0 hp1 hl
  have hiv :
      ({ rows := 12, cols := 12, players := p, initialVisibleTiles := 12
         pressureRangeMs := (4500, 8500)} : GameConfig).initialVisibleTiles = 12 := rfl
  rw [hiv]
  refine ⟨?_, ?_, ?_⟩
  · rw [hloop.1]
  · rw [hloop.2.1, hpp]
  · rw [hloop.2.2.1, hpp]
    rw [show s0.drawPile.length = 138 from by rw [hpile, hlen]]

theorem refillPad_length (n : Nat) : ∀ (rng : Rng), (refillPad rng n).length = n := by
  induction n with
  | zero => intro rng; simp [refillPad]
  | succ m ih => intro rng; simp [refillPad, ih]

theorem resizeBag_props (rng : Rng) (g : GameState) (t : Nat) :
    (resizeBag rng g t).status = g.status ∧
    (resizeBag rng g t).config = g.config ∧
    (resizeBag rng g t).tiles = g.tiles ∧
    (resizeBag rng g t).drawPile.length = t := by
  by_cases h1 : t < g.drawPile.length
  · have he : resizeBag rng g t = { g with drawPile := g.drawPile.take t } := by
      simp only [resizeBag, if_pos h1]
    rw [he]
    refine ⟨rfl, rfl, rfl, ?_⟩
    simp
    omega
  · by_cases h2 : g.drawPile.length = t
    · have he : resizeBag rng g t = g := by
        simp only [resizeBag, if_neg h1, if_pos h2, ite_self]
      rw [he]
      exact ⟨rfl, rfl, rfl, h2⟩
    · have he : resizeBag rng g t =
          { g with drawPile :=
              g.drawPile ++ refillPad rng (t - g.drawPile.length) } := by
        simp only [resizeBag, if_neg h1, if_neg h2]
      rw [he]
      refine ⟨rfl, rfl, rfl, ?_⟩
      simp [refillPad_length]
      omega

theorem mem_mapWithIndex {f : Nat → α → β} :
    ∀ {n : Nat} {l : List α} {e : β}, e ∈ mapWithIndex f n l →
      ∃ i a, a ∈ l ∧ e = f i a := by
  intro n l
  induction l generalizing n with
  | nil => intro e h; simp [mapWithIndex] at h
  | cons x xs ih =>
    intro e h
    rcases List.mem_cons.mp h with rfl | h
    · exact ⟨n, x, List.mem_cons_self _ _, rfl⟩
    · obtain ⟨i, a, ha, rfl⟩ := ih h
      exact ⟨i, a, List.mem_cons_of_mem _ ha, rfl⟩

theorem sync_mem {rngs : Nat → Rng} {games : List (String × GameState)} {t : Nat}
    {e : String × GameState} (h : e ∈ synchronizePlayerBagSizes rngs games t) :
    ∃ e0 ∈ games, e.1 = e0.1 ∧ e.2.status = e0.2.status ∧
      e.2.config = e0.2.config ∧ e.2.drawPile.length = t := by
  obtain ⟨i, a, ha, he⟩ := mem_mapWithIndex h
  by_cases hlen : a.2.drawPile.length ≠ t
  · rw [if_pos hlen] at he
    subst he
    have hr := resizeBag_props (rngs i) a.2 t
    exact ⟨a, ha, rfl, hr.1, hr.2.1, hr.2.2.2⟩
  · rw [if_neg hlen] at he
    push_neg at hlen
    exact ⟨a, ha, by rw [he], by rw [he], by rw [he], by rw [he]; exact hlen⟩

theorem listInsertAt_length (a : α) :
    ∀ (n : Nat) (l : List α), (listInsertAt n a l).length = l.length + 1 := by
  intro n
  induction n with
  | zero => intro l; simp [listInsertAt]
  | succ m ih =>
    intro l
    cases l with
    | nil => simp [listInsertAt]
    | cons x xs => simp [listInsertAt, ih]

theorem servePlate_not_running (s : GameState) (h : ¬ s.status = GameStatus.running) :
    servePlate s = s := by
  simp [servePlate, h]

theorem servePlate_won_eq (s : GameState) (h : s.status = GameStatus.running)
    (h2 : s.drawPile.length ≤ s.config.players) :
    servePlate s =
      { s with status := GameStatus.won
               lastAction := "You served the final plate and won." } := by
  have hc : canServeRound s = false := by
    simp [canServeRound]
    omega
  simp [servePlate, h, hc]

theorem servePlate_run_props (s : GameState) (h : s.status = GameStatus.running)
    (hp : 1 ≤ s.config.players) (h2 : s.config.players < s.drawPile.length) :
    (servePlate s).status = GameStatus.running ∧
    (servePlate s).config = s.config ∧
    (servePlate s).drawPile.length = s.drawPile.length - s.config.players := by
  have hc : canServeRound s = true := by
    simp [canServeRound]
    omega
  have hps := performServeRound_props s hp h2
  have hserve : servePlate s =
      { performServeRound s with
        lastAction := "You served a plate. Opponents also drew hidden tiles." } := by
    simp [servePlate, h, hc]
  rw [hserve]
  exact ⟨by simp only [hps.1, h], by simp only [hps.2.1], by simp only [hps.2.2.1]⟩

theorem tradeTile_frame (s : GameState) (tid : String) (rng : Rng) :
    (tradeTile s tid rng).status = s.status ∧
    (tradeTile s tid rng).config = s.config ∧
    (tradeTile s tid rng).drawPile.length ≤ s.drawPile.length := by
  by_cases h : s.status = GameStatus.running
  swap
  · simp [tradeTile, h]
  by_cases hc : canTradeTile s
  swap
  · simp [tradeTile, h, hc]
  cases hfi : firstIdxWhere (fun t => t.id == tid) s.tiles with
  | none => simp [tradeTile, h, hc, hfi]
  | some i =>
    have hlen4 : 3 < s.drawPile.length := by
      simpa [canTradeTile] using hc
    set s1 : GameState :=
      { s with
        tiles := s.tiles.eraseIdx i
        drawPile := (insertLetterIntoBag s.drawPile
          (s.tiles.getD i default).letter rng).1 } with hs1
    have heq : tradeTile s tid rng =
        { addVisibleTile (addVisibleTile (addVisibleTile s1)) with
          turn := (addVisibleTile (addVisibleTile (addVisibleTile s1))).turn + 1
          lastAction := "Traded " ++ (s.tiles.getD i default).letter ++
            " for three new tiles." } := by
      rw [hs1]
      simp [tradeTile, h, hc, hfi]
    have hs1len : s1.drawPile.length = s.drawPile.length + 1 := by
      rw [hs1]
      show (insertLetterIntoBag s.drawPile (s.tiles.getD i default).letter rng).1.length =
        s.drawPile.length + 1
      simp [insertLetterIntoBag, listInsertAt_length]
    have h1f := addVisibleTile_frame s1
    have h1len := addVisibleTile_len s1 (by
      intro hcon
      rw [hcon] at hs1len
      simp at hs1len)
    have e1 := h1len.1
    have h2f := addVisibleTile_frame (addVisibleTile s1)
    have h2len := addVisibleTile_len (addVisibleTile s1) (by
      intro hcon
      have hz : (addVisibleTile s1).drawPile.length = 0 := by rw [hcon]; rfl
      omega)
    have e2 := h2len.1
    have h3f := addVisibleTile_frame (addVisibleTile (addVisibleTile s1))
    have h3len := addVisibleTile_len (addVisibleTile (addVisibleTile s1)) (by
      intro hcon
      have hz : (addVisibleTile (addVisibleTile s1)).drawPile.length = 0 := by
        rw [hcon]
        rfl
      omega)
    have hs1status : s1.status = s.status := by rw [hs1]
    have hs1config : s1.config = s.config := by rw [hs1]
    rw [heq]
    refine ⟨?_, ?_, ?_⟩
    · show (addVisibleTile (addVisibleTile (addVisibleTile s1))).status = s.status
      rw [h3f.1, h2f.1, h1f.1, hs1status]
    · show (addVisibleTile (addVisibleTile (addVisibleTile s1))).config = s.config
      rw [h3f.2.1, h2f.2.1, h1f.2.1, hs1config]
    · show (addVisibleTile (addVisibleTile (addVisibleTile s1))).drawPile.length ≤
        s.drawPile.length
      have e3 := h3len.1
      omega

/-- C1: servePlate either ends the game as won (bag cannot supply a full
round) or burns players-1 letters, surfaces one letter as a staging tile,
and increments turn by one. -/
theorem servePlate_spec (s : GameState) (h : s.status = GameStatus.running) :
    (s.drawPile.length ≤ s.config.players →
      servePlate s =
        { s with status := GameStatus.won
                 lastAction := "You served the final plate and won." }) ∧
    (s.config.players < s.drawPile.length →
      servePlate s =
        { s with
          drawPile := (s.drawPile.drop (s.config.players - 1)).drop 1
          tiles := s.tiles ++
            [{ id := "t" ++ toString s.nextTileId
               letter := (s.drawPile.drop (s.config.players - 1)).headD ""
               zone := TileZone.staging, row := none, col := none }]
          turn := s.turn + 1
          nextTileId := s.nextTileId + 1
          lastAction := "You served a plate. Opponents also drew hidden tiles." }) := by
  constructor
  · intro h2
    exact servePlate_won_eq s h h2
  · intro h2
    have hc : canServeRound s = true := by
      simp [canServeRound]
      omega
    have hserve : servePlate s =
        { performServeRound s with
          lastAction := "You served a plate. Opponents also drew hidden tiles." } := by
      simp [servePlate, h, hc]
    have hguard : ¬ (s.drawPile.length < s.config.players - 1) := by omega
    have hburn : burnOtherPlayers s =
        { s with drawPile := s.drawPile.drop (s.config.players - 1) } := by
      simp [burnOtherPlayers, hguard]
    have hlendrop : (s.drawPile.drop (s.config.players - 1)).length =
        s.drawPile.length - (s.config.players - 1) := by simp
    have hne : s.drawPile.drop (s.config.players - 1) ≠ [] := by
      intro hc0
      rw [hc0] at hlendrop
      simp at hlendrop
      omega
    cases hD : s.drawPile.drop (s.config.players - 1) with
    | nil => exact absurd hD hne
    | cons a rest =>
      have hperf : performServeRound s =
          { s with
            drawPile := rest
            tiles := s.tiles ++
              [{ id := "t" ++ toString s.nextTileId, letter := a
                 zone := TileZone.staging, row := none, col := none }]
            turn := s.turn + 1
            nextTileId := s.nextTileId + 1 } := by
        simp [performServeRound, hburn, addVisibleTile, hD]
      rw [hserve, hperf]
      simp

/-- C1 witness: the serve branch evaluated on a concrete running state. -/
theorem servePlate_spec_witness :
    demoServe.status = GameStatus.running ∧
    servePlate demoServe =
      { demoServe with
        drawPile := (demoServe.drawPile.drop (demoServe.config.players - 1)).drop 1
        tiles := demoServe.tiles ++
          [{ id := "t" ++ toString demoServe.nextTileId
             letter := (demoServe.drawPile.drop (demoServe.config.players - 1)).headD ""
             zone := TileZone.staging, row := none, col := none }]
        turn := demoServe.turn + 1
        nextTileId := demoServe.nextTileId + 1
        lastAction := "You served a plate. Opponents also drew hidden tiles." } :=
  ⟨rfl, (servePlate_spec demoServe rfl).2 (by decide)⟩

/-- C9 counterexample: the tile distribution does not have 144 entries. -/
theorem tileDistribution_not_144 : ¬ TILE_DISTRIBUTION.length = 144 := by
  decide

/-- C9 (amended): the distribution has exactly 138 letters; createGame
Fisher-Yates shuffles it (a permutation of the fixed multiset) with the
supplied RNG and then performs the initialVisibleTiles serve rounds. -/
theorem createGame_amended :
    TILE_DISTRIBUTION.length = 138 ∧
    (∀ rng : Rng, List.Perm (shuffleList TILE_DISTRIBUTION rng).1 TILE_DISTRIBUTION) ∧
    (∀ (patch : GameConfigPatch) (rng : Rng),
      createGame patch rng =
        { serveRoundsLoop (resolveConfig patch).initialVisibleTiles
            { config := resolveConfig patch, status := GameStatus.running, turn := 0
              nextTileId := 1, drawPile := (shuffleList TILE_DISTRIBUTION rng).1
              tiles := [], lastAction := "Game created." } with
          lastAction :=
            "Shelf stocked. Drag tiles onto the board, trade one-for-three, and keep serving." }) :=
  ⟨tileDistribution_length, fun rng => shuffleList_perm _ rng,
   fun patch rng => createGame_eq patch rng⟩

/-- C4 counterexample: with a bag of 4 letters and a tile id that is not
present, tradeTile returns the state unchanged, so the bag does not
shrink by 2. -/
theorem tradeTile_missing_counterexample :
    tradeTile demoTradeBase "zz" zeroRng = demoTradeBase ∧
    ¬ ((tradeTile demoTradeBase "zz" zeroRng).drawPile.length + 2 =
        demoTradeBase.drawPile.length) := by
  constructor
  · decide
  · decide

theorem tradeTile_found_lens (s : GameState) (tid : String) (rng : Rng)
    (h : s.status = GameStatus.running) (hc : canTradeTile s = true)
    {i : Nat} (hfi : firstIdxWhere (fun t => t.id == tid) s.tiles = some i) :
    (tradeTile s tid rng).drawPile.length + 2 = s.drawPile.length ∧
    (tradeTile s tid rng).tiles.length = s.tiles.length + 2 := by
  have hlen4 : 3 < s.drawPile.length := by
    simpa [canTradeTile] using hc
  have hilt := firstIdxWhere_some_lt hfi
  set s1 : GameState :=
    { s with
      tiles := s.tiles.eraseIdx i
      drawPile := (insertLetterIntoBag s.drawPile
        (s.tiles.getD i default).letter rng).1 } with hs1
  have heq : tradeTile s tid rng =
      { addVisibleTile (addVisibleTile (addVisibleTile s1)) with
        turn := (addVisibleTile (addVisibleTile (addVisibleTile s1))).turn + 1
        lastAction := "Traded " ++ (s.tiles.getD i default).letter ++
          " for three new tiles." } := by
    rw [hs1]
    simp [tradeTile, h, hc, hfi]
  have hs1len : s1.drawPile.length = s.drawPile.length + 1 := by
    rw [hs1]
    show (insertLetterIntoBag s.drawPile (s.tiles.getD i default).letter rng).1.length =
      s.drawPile.length + 1
    simp [insertLetterIntoBag, listInsertAt_length]
  have hs1tiles : s1.tiles.length = s.tiles.length - 1 := by
    rw [hs1]
    show (s.tiles.eraseIdx i).length = s.tiles.length - 1
    rw [List.length_eraseIdx]
    simp [hilt]
  have h1len := addVisibleTile_len s1 (by
    intro hcon
    rw [hcon] at hs1len
    simp at hs1len)
  have e1 := h1len.1
  have t1 := h1len.2
  have h2len := addVisibleTile_len (addVisibleTile s1) (by
    intro hcon
    have hz : (addVisibleTile s1).drawPile.length = 0 := by rw [hcon]; rfl
    omega)
  have e2 := h2len.1
  have t2 := h2len.2
  have h3len := addVisibleTile_len (addVisibleTile (addVisibleTile s1)) (by
    intro hcon
    have hz : (addVisibleTile (addVisibleTile s1)).drawPile.length = 0 := by
      rw [hcon]
      rfl
    omega)
  have e3 := h3len.1
  have t3 := h3len.2
  rw [heq]
  constructor
  · show (addVisibleTile (addVisibleTile (addVisibleTile s1))).drawPile.length + 2 =
      s.drawPile.length
    omega
  · show (addVisibleTile (addVisibleTile (addVisibleTile s1))).tiles.length =
      s.tiles.length + 2
    omega

/-- C4 (amended): with a bag of at most 3 the trade is a no-op up to
lastAction; with a larger bag, a present tile id shrinks the bag by
exactly 2 and grows the tile multiset by exactly 2, while an absent tile
id returns the state unchanged. -/
theorem tradeTile_spec (s : GameState) (tid : String) (rng : Rng)
    (h : s.status = GameStatus.running) :
    (s.drawPile.length ≤ 3 →
      tradeTile s tid rng =
        { s with lastAction := "Not enough tiles remain to trade." }) ∧
    (3 < s.drawPile.length →
      ((∀ t ∈ s.tiles, t.id ≠ tid) → tradeTile s tid rng = s) ∧
      ((∃ t ∈ s.tiles, t.id = tid) →
        (tradeTile s tid rng).drawPile.length + 2 = s.drawPile.length ∧
        (tradeTile s tid rng).tiles.length = s.tiles.length + 2)) := by
  refine ⟨?_, ?_⟩
  · intro h2
    have hc : canTradeTile s = false := by
      simp [canTradeTile]
      omega
    simp [tradeTile, h, hc]
  · intro h2
    have hc : canTradeTile s = true := by
      simp [canTradeTile]
      omega
    constructor
    · intro habs
      cases hfi : firstIdxWhere (fun t => t.id == tid) s.tiles with
      | none => simp [tradeTile, h, hc, hfi]
      | some i =>
        have hilt := firstIdxWhere_some_lt hfi
        have hp := firstIdxWhere_getElem hfi hilt
        simp only [beq_iff_eq] at hp
        exact absurd hp (habs _ (List.getElem_mem hilt))
    · intro hex
      obtain ⟨t0, ht0, hid⟩ := hex
      have hsome := firstIdxWhere_isSome (p := fun t => t.id == tid) ht0
        (by simpa using hid)
      cases hfi : firstIdxWhere (fun t => t.id == tid) s.tiles with
      | none => rw [hfi] at hsome; simp at hsome
      | some i => exact tradeTile_found_lens s tid rng h hc hfi

/-- C4 witness: the amended trade facts evaluated on concrete states. -/
theorem tradeTile_spec_witness :
    demoTradeFull.status = GameStatus.running ∧
    3 < demoTradeFull.drawPile.length ∧
    (∃ t ∈ demoTradeFull.tiles, t.id = "t1") ∧
    (tradeTile demoTradeFull "t1" zeroRng).drawPile.length + 2 =
      demoTradeFull.drawPile.length ∧
    (tradeTile demoTradeFull "t1" zeroRng).tiles.length =
      demoTradeFull.tiles.length + 2 := by
  refine ⟨rfl, by decide, ⟨demoTradeFull.tiles.head (by decide), by decide, by decide⟩, ?_⟩
  have := ((tradeTile_spec demoTradeFull "t1" zeroRng rfl).2 (by decide)).2
    ⟨demoTradeFull.tiles.head (by decide), by decide, by decide⟩
  exact this

theorem map_ids_set (l : List Tile) (i : Nat) (hi : i < l.length) (u : Tile)
    (hid : u.id = l[i].id) (hlet : u.letter = l[i].letter) :
    (l.set i u).map (fun t => (t.id, t.letter)) = l.map (fun t => (t.id, t.letter)) := by
  rw [List.map_set]
  have hmi : i < (l.map fun t => (t.id, t.letter)).length := by simpa using hi
  have hdef : (u.id, u.letter) = (l.map fun t => (t.id, t.letter))[i] := by
    rw [List.getElem_map, hid, hlet]
  rw [hdef]
  exact listSet_self _ _ (by simpa using hi)

theorem map_ids_two_sets (l : List Tile) (i k : Nat) (hi : i < l.length)
    (hk : k < l.length) (hki : k ≠ i) (u v : Tile)
    (hui : u.id = l[i].id) (hul : u.letter = l[i].letter)
    (hvk : v.id = l[k].id) (hvl : v.letter = l[k].letter) :
    ((l.set i u).set k v).map (fun t => (t.id, t.letter)) =
      l.map (fun t => (t.id, t.letter)) := by
  have hk2 : k < (l.set i u).length := by simpa using hk
  have hvk2 : v.id = (l.set i u)[k].id := by
    rw [List.getElem_set_ne (fun he => hki he.symm)]
    exact hvk
  have hvl2 : v.letter = (l.set i u)[k].letter := by
    rw [List.getElem_set_ne (fun he => hki he.symm)]
    exact hvl
  rw [map_ids_set (l.set i u) k hk2 v hvk2 hvl2]
  exact map_ids_set l i hi u hui hul

/-- C10: moveTile never touches the bag, the turn counter, the status,
the id counter, the config, or the tiles' identities and letters; only
placements (and lastAction) may change. -/
theorem moveTile_frame_spec (s : GameState) (tid : String)
    (targetRow targetCol : Int) (h : s.status = GameStatus.running) :
    (moveTile s tid targetRow targetCol).drawPile = s.drawPile ∧
    (moveTile s tid targetRow targetCol).turn = s.turn ∧
    (moveTile s tid targetRow targetCol).status = s.status ∧
    (moveTile s tid targetRow targetCol).nextTileId = s.nextTileId ∧
    (moveTile s tid targetRow targetCol).config = s.config ∧
    (moveTile s tid targetRow targetCol).tiles.map (fun t => (t.id, t.letter)) =
      s.tiles.map (fun t => (t.id, t.letter)) := by
  cases hfi : firstIdxWhere (fun t => t.id == tid) s.tiles with
  | none =>
    have heq : moveTile s tid targetRow targetCol = s := by
      simp [moveTile, h, hfi]
    rw [heq]
    exact ⟨rfl, rfl, rfl, rfl, rfl, rfl⟩
  | some i =>
    have hi := firstIdxWhere_some_lt hfi
    have hpi := firstIdxWhere_getElem hfi hi
    simp only [beq_iff_eq] at hpi
    have hq_i : s.tiles[i]? = some (s.tiles[i]) := List.getElem?_eq_getElem hi
    cases hocc : firstIdxWhere
        (fun item => item.id != tid && item.zone == TileZone.board &&
          item.row == some (clampCoord s.config.rows targetRow) &&
          item.col == some (clampCoord s.config.cols targetCol)) s.tiles with
    | none =>
      have heq : (moveTile s tid targetRow targetCol).tiles = s.tiles.set i
          { s.tiles[i] with
            zone := TileZone.board
            row := some (clampCoord s.config.rows targetRow)
            col := some (clampCoord s.config.cols targetCol) } ∧
          (moveTile s tid targetRow targetCol).drawPile = s.drawPile ∧
          (moveTile s tid targetRow targetCol).turn = s.turn ∧
          (moveTile s tid targetRow targetCol).status = s.status ∧
          (moveTile s tid targetRow targetCol).nextTileId = s.nextTileId ∧
          (moveTile s tid targetRow targetCol).config = s.config := by
        simp [moveTile, h, hfi, hocc, hq_i]
      refine ⟨heq.2.1, heq.2.2.1, heq.2.2.2.1, heq.2.2.2.2.1, heq.2.2.2.2.2, ?_⟩
      rw [heq.1]
      exact map_ids_set s.tiles i hi _ rfl rfl
    | some k =>
      have hk := firstIdxWhere_some_lt hocc
      have hpk := firstIdxWhere_getElem hocc hk
      simp only [Bool.and_eq_true, bne_iff_ne, beq_iff_eq] at hpk
      have hki : k ≠ i := by
        intro hcontra
        subst hcontra
        exact hpk.1.1.1 hpi
      have hq_k : s.tiles[k]? = some (s.tiles[k]) := List.getElem?_eq_getElem hk
      have hshape : ∃ v : Tile, v.id = s.tiles[k].id ∧ v.letter = s.tiles[k].letter ∧
          (moveTile s tid targetRow targetCol).tiles = (s.tiles.set i
            { s.tiles[i] with
              zone := TileZone.board
              row := some (clampCoord s.config.rows targetRow)
              col := some (clampCoord s.config.cols targetCol) }).set k v ∧
          (moveTile s tid targetRow targetCol).drawPile = s.drawPile ∧
          (moveTile s tid targetRow targetCol).turn = s.turn ∧
          (moveTile s tid targetRow targetCol).status = s.status ∧
          (moveTile s tid targetRow targetCol).nextTileId = s.nextTileId ∧
          (moveTile s tid targetRow targetCol).config = s.config := by
        rcases hz : s.tiles[i].zone with _ | _
        · rcases hrow : s.tiles[i].row with _ | oR
          · refine ⟨{ s.tiles[k] with zone := TileZone.staging, row := none, col := none },
              rfl, rfl, ?_⟩
            simp [moveTile, h, hfi, hocc, hq_i, hq_k, hz, hrow]
          · rcases hcol : s.tiles[i].col with _ | oC
            · refine ⟨{ s.tiles[k] with zone := TileZone.staging, row := none, col := none },
                rfl, rfl, ?_⟩
              simp [moveTile, h, hfi, hocc, hq_i, hq_k, hz, hrow, hcol]
            · refine ⟨{ s.tiles[k] with zone := TileZone.board, row := some oR, col := some oC },
                rfl, rfl, ?_⟩
              simp [moveTile, h, hfi, hocc, hq_i, hq_k, hz, hrow, hcol]
        · refine ⟨{ s.tiles[k] with zone := TileZone.staging, row := none, col := none },
            rfl, rfl, ?_⟩
          simp [moveTile, h, hfi, hocc, hq_i, hq_k, hz]
      obtain ⟨v, hvid, hvlet, htiles, hrest⟩ := hshape
      refine ⟨hrest.1, hrest.2.1, hrest.2.2.1, hrest.2.2.2.1, hrest.2.2.2.2, ?_⟩
      rw [htiles]
      exact map_ids_two_sets s.tiles i k hi hk hki _ v rfl rfl hvid hvlet

/-- C10 witness: the frame facts evaluated on a concrete move. -/
theorem moveTile_frame_spec_witness :
    demoMove.status = GameStatus.running ∧
    (moveTile demoMove "t2" 2 2).drawPile = demoMove.drawPile ∧
    (moveTile demoMove "t2" 2 2).tiles.map (fun t => (t.id, t.letter)) =
      demoMove.tiles.map (fun t => (t.id, t.letter)) :=
  ⟨rfl, (moveTile_frame_spec demoMove "t2" 2 2 rfl).1,
   (moveTile_frame_spec demoMove "t2" 2 2 rfl).2.2.2.2.2⟩

theorem clash_staging_left (t u : Tile) (h : t.zone = TileZone.staging) :
    clash t u = false := by
  simp [clash, h]

theorem clash_staging_right (t u : Tile) (h : u.zone = TileZone.staging) :
    clash t u = false := by
  simp [clash, h]

theorem clash_true_elim {t u : Tile} (h : clash t u = true) :
    t.zone = TileZone.board ∧ u.zone = TileZone.board ∧
    t.row.isSome = true ∧ t.col.isSome = true ∧ t.row = u.row ∧ t.col = u.col := by
  simpa [clash, Bool.and_eq_true, beq_iff_eq, and_assoc] using h

theorem clash_intro {t u : Tile} (h1 : t.zone = TileZone.board)
    (h2 : u.zone = TileZone.board) (h3 : t.row.isSome = true)
    (h4 : t.col.isSome = true) (h5 : t.row = u.row) (h6 : t.col = u.col) :
    clash t u = true := by
  simp [clash, h1, h2, h3, h4, h5, h6]
  exact ⟨by rw [← h5]; exact h3, by rw [← h6]; exact h4⟩

theorem clash_symm_false {t u : Tile} (h : clash t u = false) :
    clash u t = false := by
  by_contra habs
  simp only [Bool.not_eq_false] at habs
  obtain ⟨h1, h2, h3, h4, h5, h6⟩ := clash_true_elim habs
  have ht3 : t.row.isSome = true := by rw [← h5]; exact h3
  have ht4 : t.col.isSome = true := by rw [← h6]; exact h4
  rw [clash_intro h2 h1 ht3 ht4 h5.symm h6.symm] at h
  exact Bool.true_eq_false.mp h

theorem occupiesP_clash {u v : Tile} {r c : Int} (hu : occupiesP u r c)
    (hv : occupiesP v r c) : clash u v = true := by
  obtain ⟨hu1, hu2, hu3⟩ := hu
  obtain ⟨hv1, hv2, hv3⟩ := hv
  exact clash_intro hu1 hv1 (by simp [hu2]) (by simp [hu3])
    (by rw [hu2, hv2]) (by rw [hu3, hv3])

theorem pairwise_clash_of_getElem {l : List Tile}
    (h : ∀ a b (ha : a < l.length) (hb : b < l.length), a ≠ b →
      clash l[a] l[b] = false) :
    atMostOnePerCell l := by
  unfold atMostOnePerCell
  rw [List.pairwise_iff_getElem]
  intro a b ha hb hab
  exact h a b ha hb (by omega)

theorem cell_idx_of_pairwise {l : List Tile} (h : atMostOnePerCell l) :
    ∀ a b (ha : a < l.length) (hb : b < l.length), a ≠ b →
      clash l[a] l[b] = false := by
  intro a b ha hb hab
  rcases Nat.lt_or_ge a b with h1 | h1
  · exact (List.pairwise_iff_getElem.mp h) a b ha hb h1
  · have h2 : b < a := by omega
    exact clash_symm_false ((List.pairwise_iff_getElem.mp h) b a hb ha h2)

theorem moveTile_cell_core1 (T : List Tile) (i : Nat) (hi : i < T.length)
    (moved : Tile) (hcell : atMostOnePerCell T)
    (hmy : ∀ y (hy : y < T.length), y ≠ i →
      clash moved T[y] = false ∧ clash T[y] moved = false) :
    atMostOnePerCell (T.set i moved) := by
  apply pairwise_clash_of_getElem
  intro a b ha hb hab
  have ha2 : a < T.length := by simpa using ha
  have hb2 : b < T.length := by simpa using hb
  rw [List.getElem_set, List.getElem_set]
  by_cases hia : i = a
  · rw [if_pos hia]
    by_cases hib : i = b
    · exact absurd (hia.symm.trans hib) hab
    · rw [if_neg hib]
      exact (hmy b hb2 (fun hcon => hib hcon.symm)).1
  · rw [if_neg hia]
    by_cases hib : i = b
    · rw [if_pos hib]
      exact (hmy a ha2 (fun hcon => hia hcon.symm)).2
    · rw [if_neg hib]
      exact cell_idx_of_pairwise hcell a b ha2 hb2 hab

theorem moveTile_cell_core2 (T : List Tile) (i k : Nat) (hi : i < T.length)
    (hk : k < T.length) (hki : k ≠ i) (moved newU : Tile)
    (hcell : atMostOnePerCell T)
    (hmv : clash moved newU = false) (hvm : clash newU moved = false)
    (hmy : ∀ y (hy : y < T.length), y ≠ i → y ≠ k →
      clash moved T[y] = false ∧ clash T[y] moved = false)
    (hvy : ∀ y (hy : y < T.length), y ≠ i → y ≠ k →
      clash newU T[y] = false ∧ clash T[y] newU = false) :
    atMostOnePerCell ((T.set i moved).set k newU) := by
  apply pairwise_clash_of_getElem
  intro a b ha hb hab
  have ha2 : a < T.length := by simpa using ha
  have hb2 : b < T.length := by simpa using hb
  have ha3 : a < (T.set i moved).length := by simpa using ha2
  have hb3 : b < (T.set i moved).length := by simpa using hb2
  rw [List.getElem_set, List.getElem_set, List.getElem_set, List.getElem_set]
  by_cases hka : k = a
  · rw [if_pos hka]
    by_cases hkb : k = b
    · exact absurd (hka.symm.trans hkb) hab
    · rw [if_neg hkb]
      by_cases hib : i = b
      · rw [if_pos hib]
        exact hvm
      · rw [if_neg hib]
        exact (hvy b hb2 (fun hcon => hib hcon.symm)
          (fun hcon => hkb hcon.symm)).1
  · rw [if_neg hka]
    by_cases hia : i = a
    · rw [if_pos hia]
      by_cases hkb : k = b
      · rw [if_pos hkb]
        exact hmv
      · rw [if_neg hkb]
        by_cases hib : i = b
        · exact absurd (hia.symm.trans hib) hab
        · rw [if_neg hib]
          exact (hmy b hb2 (fun hcon => hib hcon.symm)
            (fun hcon => hkb hcon.symm)).1
    · rw [if_neg hia]
      by_cases hkb : k = b
      · rw [if_pos hkb]
        exact (hvy a ha2 (fun hcon => hia hcon.symm)
          (fun hcon => hka hcon.symm)).2
      · rw [if_neg hkb]
        by_cases hib : i = b
        · rw [if_pos hib]
          exact (hmy a ha2 (fun hcon => hia hcon.symm)
            (fun hcon => hka hcon.symm)).2
        · rw [if_neg hib]
          exact cell_idx_of_pairwise hcell a b ha2 hb2 hab

theorem getElem_idx_congr (l : List Tile) {a b : Nat} (hab : a = b)
    (ha : a < l.length) (hb : b < l.length) : l[a] = l[b] := by
  subst hab
  rfl

theorem clampCoord_bounds (bound : Nat) (x : Int) (h : 1 ≤ bound) :
    1 ≤ clampCoord bound x ∧ clampCoord bound x ≤ (bound : Int) := by
  unfold clampCoord
  refine ⟨le_max_left _ _, ?_⟩
  apply max_le
  · exact_mod_cast h
  · exact min_le_left _ _

/-- C3: with well-formed tiles (unique ids, board coordinates present,
at most one board tile per cell), moveTile clamps the target into the
grid, keeps at most one board tile on every cell, places the moved tile
at the clamped cell, swaps with a board occupant when the mover came
from the board, evicts the occupant to staging when the mover came from
staging, and moves freely onto an empty cell. -/
theorem moveTile_spec (s : GameState) (tid : String) (targetRow targetCol : Int)
    (hrun : s.status = GameStatus.running)
    (hcell : atMostOnePerCell s.tiles)
    (hids : (s.tiles.map (fun t => t.id)).Nodup)
    (hwf : boardCoordsPresent s.tiles)
    (hmem : ∃ t ∈ s.tiles, t.id = tid)
    (hrows : 1 ≤ s.config.rows) (hcols : 1 ≤ s.config.cols) :
    (1 ≤ clampCoord s.config.rows targetRow ∧
     clampCoord s.config.rows targetRow ≤ (s.config.rows : Int) ∧
     1 ≤ clampCoord s.config.cols targetCol ∧
     clampCoord s.config.cols targetCol ≤ (s.config.cols : Int)) ∧
    atMostOnePerCell (moveTile s tid targetRow targetCol).tiles ∧
    (∀ t ∈ s.tiles, t.id = tid →
      { t with zone := TileZone.board
               row := some (clampCoord s.config.rows targetRow)
               col := some (clampCoord s.config.cols targetCol) } ∈
        (moveTile s tid targetRow targetCol).tiles) ∧
    (∀ u ∈ s.tiles, u.id ≠ tid →
      occupiesP u (clampCoord s.config.rows targetRow)
        (clampCoord s.config.cols targetCol) →
      ∀ t ∈ s.tiles, t.id = tid →
        (t.zone = TileZone.board →
          { u with row := t.row, col := t.col } ∈
            (moveTile s tid targetRow targetCol).tiles) ∧
        (t.zone = TileZone.staging →
          { u with zone := TileZone.staging, row := none, col := none } ∈
            (moveTile s tid targetRow targetCol).tiles)) ∧
    ((∀ u ∈ s.tiles, u.id ≠ tid →
        ¬ occupiesP u (clampCoord s.config.rows targetRow)
          (clampCoord s.config.cols targetCol)) →
      ∀ u ∈ s.tiles, u.id ≠ tid →
        u ∈ (moveTile s tid targetRow targetCol).tiles) := by
  have hbr := clampCoord_bounds s.config.rows targetRow hrows
  have hbc := clampCoord_bounds s.config.cols targetCol hcols
  set rr := clampCoord s.config.rows targetRow with hrr
  set cc := clampCoord s.config.cols targetCol with hcc
  obtain ⟨t0, ht0mem, ht0id⟩ := hmem
  have hsome := firstIdxWhere_isSome (p := fun t => t.id == tid) ht0mem
    (by simpa using ht0id)
  cases hfi : firstIdxWhere (fun t => t.id == tid) s.tiles with
  | none => rw [hfi] at hsome; simp at hsome
  | some i =>
  have hi := firstIdxWhere_some_lt hfi
  have hpi := firstIdxWhere_getElem hfi hi
  simp only [beq_iff_eq] at hpi
  have hq_i : s.tiles[i]? = some (s.tiles[i]) := List.getElem?_eq_getElem hi
  have huniq : ∀ j (hj : j < s.tiles.length), s.tiles[j].id = tid → j = i := by
    intro j hj hjid
    by_contra hne
    have hpair := List.pairwise_iff_getElem.mp hids
    have hmaplen : (s.tiles.map (fun t => t.id)).length = s.tiles.length := by simp
    rcases Nat.lt_or_ge j i with h1 | h1
    · have hx := hpair j i (by omega) (by omega) h1
      simp only [List.getElem_map] at hx
      exact hx (hjid.trans hpi.symm)
    · have h2 : i < j := by omega
      have hx := hpair i j (by omega) (by omega) h2
      simp only [List.getElem_map] at hx
      exact hx (hpi.trans hjid.symm)
  set moved : Tile :=
    { s.tiles[i] with zone := TileZone.board, row := some rr, col := some cc } with hmoved
  have hpred : ∀ u : Tile,
      ((u.id != tid && u.zone == TileZone.board && u.row == some rr &&
        u.col == some cc) = true) ↔ (u.id ≠ tid ∧ occupiesP u rr cc) := by
    intro u
    simp only [Bool.and_eq_true, bne_iff_ne, beq_iff_eq, occupiesP]
    tauto
  cases hocc : firstIdxWhere
      (fun item => item.id != tid && item.zone == TileZone.board &&
        item.row == some rr && item.col == some cc) s.tiles with
  | none =>
    have hnofact : ∀ u ∈ s.tiles, ¬ (u.id ≠ tid ∧ occupiesP u rr cc) := by
      intro u hu hcon
      have := firstIdxWhere_none hocc u hu
      rw [(hpred u).2 hcon] at this
      exact Bool.true_eq_false.mp this
    have hres : (moveTile s tid targetRow targetCol).tiles = s.tiles.set i moved := by
      simp [moveTile, hrun, hfi, hocc, hq_i, hmoved, hrr, hcc]
    have hmy : ∀ y (hy : y < s.tiles.length), y ≠ i →
        clash moved s.tiles[y] = false ∧
        clash s.tiles[y] moved = false := by
      intro y hy hyne
      have hfalse : clash moved s.tiles[y] = false := by
        by_contra habs
        simp only [Bool.not_eq_false] at habs
        obtain ⟨hc1, hc2, hc3, hc4, hc5, hc6⟩ := clash_true_elim habs
        have hyid : s.tiles[y].id ≠ tid := by
          intro hcon
          exact hyne (huniq y hy hcon)
        refine hnofact s.tiles[y] (List.getElem_mem hy) ⟨hyid, hc2, ?_, ?_⟩
        · rw [← hc5]
        · rw [← hc6]
      exact ⟨hfalse, clash_symm_false hfalse⟩
    refine ⟨⟨hbr.1, hbr.2, hbc.1, hbc.2⟩, ?_, ?_, ?_, ?_⟩
    · rw [hres]
      exact moveTile_cell_core1 s.tiles i hi moved hcell hmy
    · intro t htmem htid
      obtain ⟨j, hj, hjt⟩ := List.mem_iff_getElem.mp htmem
      have hji : j = i := huniq j hj (by rw [hjt, htid])
      have hti : s.tiles[i] = t :=
        (getElem_idx_congr s.tiles hji.symm hi hj).trans hjt
      rw [hres]
      have hgoal : ({ t with
          zone := TileZone.board
          row := some rr
          col := some cc } : Tile) = moved := by
        simp only [hmoved, hti]
      rw [hgoal]
      have hii : i < (s.tiles.set i moved).length := by simpa using hi
      have hset : (s.tiles.set i moved)[i] = moved := List.getElem_set_self _
      have hmm2 := List.getElem_mem hii
      rw [hset] at hmm2
      exact hmm2
    · intro u humem huid hocc2 t htmem htid
      exact absurd ⟨huid, hocc2⟩ (hnofact u humem)
    · intro _ u humem huid
      obtain ⟨j, hj, hju⟩ := List.mem_iff_getElem.mp humem
      have hji : j ≠ i := by
        intro hcon
        apply huid
        rw [← hju, getElem_idx_congr s.tiles hcon hj hi]
        exact hpi
      rw [hres]
      have hjj : j < (s.tiles.set i moved).length := by simpa using hj
      have hset : (s.tiles.set i moved)[j] = s.tiles[j] :=
        List.getElem_set_ne (fun hcon => hji hcon.symm) _
      rw [← hju]
      have hmm2 := List.getElem_mem hjj
      rw [hset] at hmm2
      exact hmm2
  | some k =>
    have hk := firstIdxWhere_some_lt hocc
    have hpkraw := firstIdxWhere_getElem hocc hk
    have hpk := (hpred s.tiles[k]).1 hpkraw
    have hkocc : occupiesP s.tiles[k] rr cc := hpk.2
    have hki : k ≠ i := by
      intro hcon
      apply hpk.1
      rw [getElem_idx_congr s.tiles hcon hk hi]
      exact hpi
    have hq_k : s.tiles[k]? = some (s.tiles[k]) := List.getElem?_eq_getElem hk
    have hocc_unique : ∀ j (hj : j < s.tiles.length), s.tiles[j].id ≠ tid →
        occupiesP s.tiles[j] rr cc → j = k := by
      intro j hj hjid hjocc
      by_contra hne
      have := cell_idx_of_pairwise hcell j k hj hk hne
      rw [occupiesP_clash hjocc hkocc] at this
      exact Bool.true_eq_false.mp this
    have hmy : ∀ y (hy : y < s.tiles.length), y ≠ i → y ≠ k →
        clash moved s.tiles[y] = false ∧
        clash s.tiles[y] moved = false := by
      intro y hy hyi hyk
      have hfalse : clash moved s.tiles[y] = false := by
        by_contra habs
        simp only [Bool.not_eq_false] at habs
        obtain ⟨hc1, hc2, hc3, hc4, hc5, hc6⟩ := clash_true_elim habs
        have hyid : s.tiles[y].id ≠ tid := by
          intro hcon
          exact hyi (huniq y hy hcon)
        apply hyk
        apply hocc_unique y hy hyid
        refine ⟨hc2, ?_, ?_⟩
        · rw [← hc5]
        · rw [← hc6]
      exact ⟨hfalse, clash_symm_false hfalse⟩
    have hmoved_occ : occupiesP moved rr cc := ⟨rfl, rfl, rfl⟩
    rcases hz : s.tiles[i].zone with _ | _
    · -- mover was on the board: swap with the occupant
      have hwfi := hwf s.tiles[i] (List.getElem_mem hi) hz
      cases hrowi : s.tiles[i].row with
      | none => exact absurd hrowi hwfi.1
      | some oR =>
      cases hcoli : s.tiles[i].col with
      | none => exact absurd hcoli hwfi.2
      | some oC =>
      set newU : Tile :=
        { s.tiles[k] with
          zone := TileZone.board
          row := some oR
          col := some oC } with hnewU
      have hres : (moveTile s tid targetRow targetCol).tiles =
          (s.tiles.set i moved).set k newU := by
        simp [moveTile, hrun, hfi, hocc, hq_i, hq_k, hz, hrowi, hcoli, hmoved,
          hnewU, hrr, hcc]
      have hiocc : occupiesP s.tiles[i] oR oC := ⟨hz, hrowi, hcoli⟩
      have hvy : ∀ y (hy : y < s.tiles.length), y ≠ i → y ≠ k →
          clash newU s.tiles[y] = false ∧
          clash s.tiles[y] newU = false := by
        intro y hy hyi hyk
        have hfalse : clash newU s.tiles[y] = false := by
          by_contra habs
          simp only [Bool.not_eq_false] at habs
          obtain ⟨hc1, hc2, hc3, hc4, hc5, hc6⟩ := clash_true_elim habs
          have hyocc : occupiesP s.tiles[y] oR oC := by
            refine ⟨hc2, ?_, ?_⟩
            · rw [← hc5]
            · rw [← hc6]
          have := cell_idx_of_pairwise hcell y i hy hi hyi
          rw [occupiesP_clash hyocc hiocc] at this
          exact Bool.true_eq_false.mp this
        exact ⟨hfalse, clash_symm_false hfalse⟩
      have hmv : clash moved newU = false := by
        by_contra habs
        simp only [Bool.not_eq_false] at habs
        obtain ⟨hc1, hc2, hc3, hc4, hc5, hc6⟩ := clash_true_elim habs
        have hrreq : some rr = some oR := hc5
        have hcceq : some cc = some oC := hc6
        have hiocc2 : occupiesP s.tiles[i] rr cc := by
          refine ⟨hz, ?_, ?_⟩
          · rw [hrowi, ← Option.some_inj.mp hrreq]
          · rw [hcoli, ← Option.some_inj.mp hcceq]
        have := cell_idx_of_pairwise hcell i k hi hk (fun hcon => hki hcon.symm)
        rw [occupiesP_clash hiocc2 hkocc] at this
        exact Bool.true_eq_false.mp this
      refine ⟨⟨hbr.1, hbr.2, hbc.1, hbc.2⟩, ?_, ?_, ?_, ?_⟩
      · rw [hres]
        exact moveTile_cell_core2 s.tiles i k hi hk hki moved newU hcell hmv
          (clash_symm_false hmv) hmy hvy
      · intro t htmem htid
        obtain ⟨j, hj, hjt⟩ := List.mem_iff_getElem.mp htmem
        have hji : j = i := huniq j hj (by rw [hjt, htid])
        have hti : s.tiles[i] = t :=
          (getElem_idx_congr s.tiles hji.symm hi hj).trans hjt
        rw [hres]
        have hgoal : ({ t with
            zone := TileZone.board
            row := some rr
            col := some cc } : Tile) = moved := by
          simp only [hmoved, hti]
        rw [hgoal]
        have hii : i < ((s.tiles.set i moved).set k newU).length := by
          simpa using hi
        have hset : ((s.tiles.set i moved).set k newU)[i] = moved := by
          rw [List.getElem_set_ne hki, List.getElem_set_self]
        have hmm2 := List.getElem_mem hii
        rw [hset] at hmm2
        exact hmm2
      · intro u humem huid huocc t htmem htid
        obtain ⟨j, hj, hju⟩ := List.mem_iff_getElem.mp humem
        have hjk : j = k := hocc_unique j hj (by rw [hju]; exact huid)
          (by rw [hju]; exact huocc)
        have hku : s.tiles[k] = u :=
          (getElem_idx_congr s.tiles hjk.symm hk hj).trans hju
        obtain ⟨jt, hjt, hjtt⟩ := List.mem_iff_getElem.mp htmem
        have hjti : jt = i := huniq jt hjt (by rw [hjtt, htid])
        have hti : s.tiles[i] = t :=
          (getElem_idx_congr s.tiles hjti.symm hi hjt).trans hjtt
        constructor
        · intro _
          have hgoal : ({ u with row := t.row, col := t.col } : Tile) = newU := by
            simp only [hnewU, ← hku, ← hti, hrowi, hcoli, hkocc.1]
          rw [hres, hgoal]
          have hkk : k < ((s.tiles.set i moved).set k newU).length := by
            simpa using hk
          have hset : ((s.tiles.set i moved).set k newU)[k] = newU :=
            List.getElem_set_self _
          have hmm2 := List.getElem_mem hkk
          rw [hset] at hmm2
          exact hmm2
        · intro hstag
          rw [← hti, hz] at hstag
          exact absurd hstag (by simp)
      · intro hno
        exact absurd (hno s.tiles[k] (List.getElem_mem hk) hpk.1) (by
          intro hcon
          exact hcon hkocc)
    · -- mover came from staging: the occupant is evicted to the tray
      set newU : Tile :=
        { s.tiles[k] with
          zone := TileZone.staging
          row := none
          col := none } with hnewU
      have hres : (moveTile s tid targetRow targetCol).tiles =
          (s.tiles.set i moved).set k newU := by
        simp [moveTile, hrun, hfi, hocc, hq_i, hq_k, hz, hmoved, hnewU, hrr, hcc]
      have hvy : ∀ y (hy : y < s.tiles.length), y ≠ i → y ≠ k →
          clash newU s.tiles[y] = false ∧
          clash s.tiles[y] newU = false := by
        intro y hy _ _
        exact ⟨clash_staging_left _ _ rfl, clash_staging_right _ _ rfl⟩
      refine ⟨⟨hbr.1, hbr.2, hbc.1, hbc.2⟩, ?_, ?_, ?_, ?_⟩
      · rw [hres]
        exact moveTile_cell_core2 s.tiles i k hi hk hki moved newU hcell
          (clash_staging_right _ _ rfl) (clash_staging_left _ _ rfl) hmy hvy
      · intro t htmem htid
        obtain ⟨j, hj, hjt⟩ := List.mem_iff_getElem.mp htmem
        have hji : j = i := huniq j hj (by rw [hjt, htid])
        have hti : s.tiles[i] = t :=
          (getElem_idx_congr s.tiles hji.symm hi hj).trans hjt
        rw [hres]
        have hgoal : ({ t with
            zone := TileZone.board
            row := some rr
            col := some cc } : Tile) = moved := by
          simp only [hmoved, hti]
        rw [hgoal]
        have hii : i < ((s.tiles.set i moved).set k newU).length := by
          simpa using hi
        have hset : ((s.tiles.set i moved).set k newU)[i] = moved := by
          rw [List.getElem_set_ne hki, List.getElem_set_self]
        have hmm2 := List.getElem_mem hii
        rw [hset] at hmm2
        exact hmm2
      · intro u humem huid huocc t htmem htid
        obtain ⟨j, hj, hju⟩ := List.mem_iff_getElem.mp humem
        have hjk : j = k := hocc_unique j hj (by rw [hju]; exact huid)
          (by rw [hju]; exact huocc)
        have hku : s.tiles[k] = u :=
          (getElem_idx_congr s.tiles hjk.symm hk hj).trans hju
        obtain ⟨jt, hjt, hjtt⟩ := List.mem_iff_getElem.mp htmem
        have hjti : jt = i := huniq jt hjt (by rw [hjtt, htid])
        have hti : s.tiles[i] = t :=
          (getElem_idx_congr s.tiles hjti.symm hi hjt).trans hjtt
        constructor
        · intro hboard
          rw [← hti, hz] at hboard
          exact absurd hboard (by simp)
        · intro _
          have hgoal : ({ u with
              zone := TileZone.staging
              row := none
              col := none } : Tile) = newU := by
            simp only [hnewU, ← hku]
          rw [hres, hgoal]
          have hkk : k < ((s.tiles.set i moved).set k newU).length := by
            simpa using hk
          have hset : ((s.tiles.set i moved).set k newU)[k] = newU :=
            List.getElem_set_self _
          have hmm2 := List.getElem_mem hkk
          rw [hset] at hmm2
          exact hmm2
      · intro hno
        exact absurd (hno s.tiles[k] (List.getElem_mem hk) hpk.1) (by
          intro hcon
          exact hcon hkocc)

/-- C3 witness: the move specification applied to a concrete well-formed
state. -/
theorem moveTile_spec_witness :
    demoMove.status = GameStatus.running ∧
    atMostOnePerCell demoMove.tiles ∧
    atMostOnePerCell (moveTile demoMove "t2" 2 2).tiles :=
  ⟨rfl, by decide,
   (moveTile_spec demoMove "t2" 2 2 rfl (by decide) (by decide) (by decide)
     (by decide) (by decide) (by decide)).2.1⟩

theorem ensurePlaying_inr_elim {r : RoomModel} {sid : String} {g : GameState}
    (h : ensurePlaying r sid = Sum.inr g) :
    r.phase = RoomPhase.playing ∧ getPlayerIdForSession r sid ≠ "" ∧
    mapGet (getPlayerIdForSession r sid) r.playerGameStates = some g := by
  simp only [ensurePlaying] at h
  by_cases hph : r.phase ≠ RoomPhase.playing
  · rw [if_pos hph] at h
    cases h
  · rw [if_neg hph] at h
    by_cases hpid : getPlayerIdForSession r sid = ""
    · rw [if_pos hpid] at h
      cases h
    · rw [if_neg hpid] at h
      cases hm : mapGet (getPlayerIdForSession r sid) r.playerGameStates with
      | none =>
        rw [hm] at h
        cases h
      | some g0 =>
        rw [hm] at h
        injection h with h2
        subst h2
        exact ⟨not_not.mp hph, hpid, rfl⟩

theorem ensurePlaying_inr_intro (r : RoomModel) (sid : String) (g : GameState)
    (hph : r.phase = RoomPhase.playing)
    (hpid : getPlayerIdForSession r sid ≠ "")
    (hg : mapGet (getPlayerIdForSession r sid) r.playerGameStates = some g) :
    ensurePlaying r sid = Sum.inr g := by
  simp only [ensurePlaying]
  rw [if_neg (by rw [hph]; exact fun hc => hc rfl)]
  rw [if_neg hpid, hg]

/-- C7: whenever the acting player's board holds a staging (tray) tile,
action_serve_plate is answered by an action_rejected carrying the fixed
tray message, and the room - every stored GameState, the shared bag
count, and the phase - is returned exactly unchanged. -/
theorem serveRejected_spec (r : RoomModel) (sid : String) (rngs : Nat → Rng)
    (g : GameState)
    (hph : r.phase = RoomPhase.playing)
    (hpid : getPlayerIdForSession r sid ≠ "")
    (hg : mapGet (getPlayerIdForSession r sid) r.playerGameStates = some g)
    (hstag : hasStagingTiles g = true) :
    handleServePlate r sid rngs =
      (r, [(Dest.client sid,
            ServerMsg.actionRejected
              "Place all tray tiles on your board before serving.")]) := by
  have hens := ensurePlaying_inr_intro r sid g hph hpid hg
  simp only [handleServePlate, hens, hstag, if_true]

theorem serveRejected_spec_witness :
    demoRoundStag.phase = RoomPhase.playing ∧
    hasStagingTiles demoGameStag = true ∧
    handleServePlate demoRoundStag "s1" zeroRngs =
      (demoRoundStag,
       [(Dest.client "s1",
         ServerMsg.actionRejected
           "Place all tray tiles on your board before serving.")]) :=
  ⟨rfl, by decide,
   serveRejected_spec demoRoundStag "s1" zeroRngs demoGameStag rfl (by decide)
     (by decide) (by decide)⟩

theorem getFirstConnected_eq (r : RoomModel) :
    getFirstConnectedPlayerSessionId r = r.players.foldl firstConnStep "" := rfl

theorem getFirstPlayerId_eq (r : RoomModel) :
    getFirstPlayerId r = r.players.foldl firstKeyStep "" := rfl

theorem firstConnFold_ne :
    ∀ (l : List (String × PlayerR)) (acc : String), acc ≠ "" →
      l.foldl firstConnStep acc = acc := by
  intro l
  induction l with
  | nil => intro acc _; rfl
  | cons y ys ih =>
    intro acc h
    rw [List.foldl_cons]
    have hs : firstConnStep acc y = acc := by
      simp only [firstConnStep]
      rw [if_neg]
      intro hcon
      exact h hcon.1
    rw [hs]
    exact ih acc h

theorem firstConn_spec :
    ∀ (l : List (String × PlayerR)), (∀ e ∈ l, e.1 ≠ "") →
      (l.foldl firstConnStep "" = "" ∧ ∀ e ∈ l, e.2.connected = false) ∨
      (∃ pre e post, l = pre ++ e :: post ∧ l.foldl firstConnStep "" = e.1 ∧
        e.2.connected = true ∧ ∀ x ∈ pre, x.2.connected = false) := by
  intro l
  induction l with
  | nil =>
    intro _
    left
    exact ⟨rfl, by simp⟩
  | cons y ys ih =>
    intro hkeys
    by_cases hyc : y.2.connected = true
    · right
      have hkey : y.1 ≠ "" := hkeys y (List.mem_cons_self _ _)
      have hfold : (y :: ys).foldl firstConnStep "" = y.1 := by
        rw [List.foldl_cons]
        have hs : firstConnStep "" y = y.1 := by
          simp [firstConnStep, hyc]
        rw [hs]
        exact firstConnFold_ne ys y.1 hkey
      exact ⟨[], y, ys, rfl, hfold, hyc, by simp⟩
    · have hyc2 : y.2.connected = false := by
        cases hb : y.2.connected
        · rfl
        · exact absurd hb hyc
      have hfold : (y :: ys).foldl firstConnStep "" = ys.foldl firstConnStep "" := by
        rw [List.foldl_cons]
        have hs : firstConnStep "" y = "" := by
          simp [firstConnStep, hyc2]
        rw [hs]
      have hkeys2 : ∀ e ∈ ys, e.1 ≠ "" :=
        fun e he => hkeys e (List.mem_cons_of_mem _ he)
      rcases ih hkeys2 with ⟨hf, hall⟩ | ⟨pre, e, post, hsp, hfe, hec, hpre⟩
      · left
        refine ⟨by rw [hfold, hf], ?_⟩
        intro e he
        rcases List.mem_cons.mp he with rfl | he2
        · exact hyc2
        · exact hall e he2
      · right
        refine ⟨y :: pre, e, post, by rw [hsp]; simp, by rw [hfold, hfe], hec, ?_⟩
        intro x hx
        rcases List.mem_cons.mp hx with rfl | hx2
        · exact hyc2
        · exact hpre x hx2

theorem firstKeyFold_ne :
    ∀ (l : List (String × PlayerR)) (acc : String), acc ≠ "" →
      l.foldl firstKeyStep acc = acc := by
  intro l
  induction l with
  | nil => intro acc _; rfl
  | cons y ys ih =>
    intro acc h
    rw [List.foldl_cons]
    have hs : firstKeyStep acc y = acc := by
      simp only [firstKeyStep]
      rw [if_neg h]
    rw [hs]
    exact ih acc h

theorem firstKey_cons (y : String × PlayerR) (ys : List (String × PlayerR))
    (hk : y.1 ≠ "") : (y :: ys).foldl firstKeyStep "" = y.1 := by
  rw [List.foldl_cons]
  have hs : firstKeyStep "" y = y.1 := by
    simp [firstKeyStep]
  rw [hs]
  exact firstKeyFold_ne ys y.1 hk

theorem owner_reassign (l : List (String × PlayerR)) (fb : String)
    (hkeys : ∀ e ∈ l, e.1 ≠ "") (hc : ∃ e ∈ l, e.2.connected = true) :
    ∃ pre e post, l = pre ++ e :: post ∧
      (if l.foldl firstConnStep "" = "" then fb else l.foldl firstConnStep "") = e.1 ∧
      e.2.connected = true ∧ ∀ x ∈ pre, x.2.connected = false := by
  rcases firstConn_spec l hkeys with ⟨hf, hall⟩ | ⟨pre, e, post, hsp, hfe, hec, hpre⟩
  · obtain ⟨e, he, hec⟩ := hc
    rw [hall e he] at hec
    cases hec
  · have hne : l.foldl firstConnStep "" ≠ "" := by
      rw [hfe]
      refine hkeys e ?_
      rw [hsp]
      exact List.mem_append_right _ (List.mem_cons_self _ _)
    refine ⟨pre, e, post, hsp, ?_, hec, hpre⟩
    rw [if_neg hne]
    exact hfe

theorem mapSet_ne_nil (k : String) (v : α) :
    ∀ (l : List (String × α)), mapSet k v l ≠ [] := by
  intro l
  cases l with
  | nil => simp [mapSet]
  | cons e rest =>
    simp only [mapSet]
    split <;> simp

theorem ownerInv_fields {r1 r2 : RoomModel} (hpl : r1.players = r2.players)
    (how : r1.ownerClientId = r2.ownerClientId) (h : OwnerInv r2) : OwnerInv r1 := by
  unfold OwnerInv at h ⊢
  rw [hpl, how]
  exact h

theorem roundInv_fields {r1 r2 : RoomModel} (hph : r1.phase = r2.phase)
    (harp : r1.activeRoundPlayers = r2.activeRoundPlayers)
    (hg : r1.playerGameStates = r2.playerGameStates)
    (hsh : r1.sharedBagCount = r2.sharedBagCount) (h : RoundInv r2) : RoundInv r1 := by
  unfold RoundInv at h ⊢
  rw [hph, harp, hg, hsh]
  exact h

theorem getPid_fields {r1 r2 : RoomModel} (hm : r1.playerIdBySessionId = r2.playerIdBySessionId)
    (hpl : r1.players = r2.players) (sid : String) :
    getPlayerIdForSession r1 sid = getPlayerIdForSession r2 sid := by
  unfold getPlayerIdForSession
  rw [hm, hpl]

theorem foldl_firstConnStep_eta (l : List (String × PlayerR)) (a : String) :
    l.foldl (fun first e => if first = "" ∧ e.2.connected then e.1 else first) a =
    l.foldl firstConnStep a := rfl

theorem foldl_firstKeyStep_eta (l : List (String × PlayerR)) (a : String) :
    l.foldl (fun first e => if first = "" then e.1 else first) a =
    l.foldl firstKeyStep a := rfl

theorem reserve_fields (r : RoomModel) (pid : String) (now : Nat) (tok : String) :
    (reserveDisconnectedSeat r pid now tok).players = r.players ∧
    (reserveDisconnectedSeat r pid now tok).ownerClientId = r.ownerClientId ∧
    (reserveDisconnectedSeat r pid now tok).phase = r.phase ∧
    (reserveDisconnectedSeat r pid now tok).playerIdBySessionId = r.playerIdBySessionId ∧
    (reserveDisconnectedSeat r pid now tok).playerGameStates = r.playerGameStates ∧
    (reserveDisconnectedSeat r pid now tok).activeRoundPlayers = r.activeRoundPlayers ∧
    (reserveDisconnectedSeat r pid now tok).sharedBagCount = r.sharedBagCount ∧
    (reserveDisconnectedSeat r pid now tok).clients = r.clients := by
  simp only [reserveDisconnectedSeat, issueResumeToken]
  split <;> exact ⟨rfl, rfl, rfl, rfl, rfl, rfl, rfl, rfl⟩

theorem sendSeatToken_fields (r : RoomModel) (a b c : String) :
    ((sendSeatToken r a b c).1).players = r.players ∧
    ((sendSeatToken r a b c).1).ownerClientId = r.ownerClientId ∧
    ((sendSeatToken r a b c).1).phase = r.phase ∧
    ((sendSeatToken r a b c).1).playerIdBySessionId = r.playerIdBySessionId ∧
    ((sendSeatToken r a b c).1).playerGameStates = r.playerGameStates ∧
    ((sendSeatToken r a b c).1).activeRoundPlayers = r.activeRoundPlayers ∧
    ((sendSeatToken r a b c).1).sharedBagCount = r.sharedBagCount ∧
    ((sendSeatToken r a b c).1).clients = r.clients := by
  simp only [sendSeatToken, issueResumeToken]
  split
  · exact ⟨rfl, rfl, rfl, rfl, rfl, rfl, rfl, rfl⟩
  · split <;> exact ⟨rfl, rfl, rfl, rfl, rfl, rfl, rfl, rfl⟩

theorem getOrCreate_fields (r : RoomModel) (sid : String) (c z : Rng) :
    ((getOrCreatePlayerGameState r sid c z).2).players = r.players ∧
    ((getOrCreatePlayerGameState r sid c z).2).ownerClientId = r.ownerClientId ∧
    ((getOrCreatePlayerGameState r sid c z).2).phase = r.phase ∧
    ((getOrCreatePlayerGameState r sid c z).2).playerIdBySessionId =
      r.playerIdBySessionId ∧
    ((getOrCreatePlayerGameState r sid c z).2).activeRoundPlayers =
      r.activeRoundPlayers ∧
    ((getOrCreatePlayerGameState r sid c z).2).sharedBagCount = r.sharedBagCount ∧
    ((getOrCreatePlayerGameState r sid c z).2).clients = r.clients := by
  simp only [getOrCreatePlayerGameState]
  split
  · exact ⟨rfl, rfl, rfl, rfl, rfl, rfl, rfl⟩
  · split <;> exact ⟨rfl, rfl, rfl, rfl, rfl, rfl, rfl⟩

theorem getOrCreate_room_existing (r : RoomModel) (sid : String) (c z : Rng)
    (g : GameState)
    (h : mapGet (getPlayerIdForSession r sid) r.playerGameStates = some g) :
    (getOrCreatePlayerGameState r sid c z).2 = r := by
  simp only [getOrCreatePlayerGameState]
  by_cases hpid : getPlayerIdForSession r sid = ""
  · rw [if_pos hpid]
  · rw [if_neg hpid, h]

theorem tryReclaim_fields (r : RoomModel) (s n t : String) (now : Nat) :
    ((tryReclaimSeat r s n t now).2).phase = r.phase ∧
    ((tryReclaimSeat r s n t now).2).playerGameStates = r.playerGameStates ∧
    ((tryReclaimSeat r s n t now).2).activeRoundPlayers = r.activeRoundPlayers ∧
    ((tryReclaimSeat r s n t now).2).sharedBagCount = r.sharedBagCount ∧
    ((tryReclaimSeat r s n t now).2).clients = r.clients := by
  simp only [tryReclaimSeat]
  repeat' split
  all_goals exact ⟨rfl, rfl, rfl, rfl, rfl⟩

theorem removePlayer_none (r : RoomModel) (sid m : String)
    (hp : mapGet sid r.players = none) :
    removePlayerBySession r sid m = (r, []) := by
  simp only [removePlayerBySession, hp]

theorem removePlayer_fields (r : RoomModel) (sid m : String) (p : PlayerR)
    (hp : mapGet sid r.players = some p) :
    (removePlayerBySession r sid m).1.players = mapDel sid r.players ∧
    (removePlayerBySession r sid m).1.ownerClientId =
      (if r.ownerClientId = sid then
        (if (mapDel sid r.players).foldl firstConnStep "" = "" then
          (mapDel sid r.players).foldl firstKeyStep ""
        else (mapDel sid r.players).foldl firstConnStep "")
      else r.ownerClientId) := by
  constructor
  · simp only [removePlayerBySession, hp]
    repeat' split
    all_goals rfl
  · cases hm2 : mapGet p.playerId r.resumeTokenByPlayerId <;>
      by_cases ho : r.ownerClientId = sid <;>
      simp [removePlayerBySession, hp, hm2, getFirstConnectedPlayerSessionId,
        getFirstPlayerId, clearRoundGames, foldl_firstConnStep_eta,
        foldl_firstKeyStep_eta, ho] <;>
      (repeat' split) <;> first | rfl | simp [ho]

theorem removePlayer_keys (r : RoomModel) (sid m : String)
    (hk : ∀ e ∈ r.players, e.1 ≠ "") :
    ∀ e ∈ (removePlayerBySession r sid m).1.players, e.1 ≠ "" := by
  cases hp : mapGet sid r.players with
  | none =>
    rw [removePlayer_none r sid m hp]
    exact hk
  | some p =>
    intro e he
    rw [(removePlayer_fields r sid m p hp).1] at he
    exact hk e (mem_mapDel_elim he)

theorem removePlayer_ownerInv (r : RoomModel) (sid m : String)
    (hk : ∀ e ∈ r.players, e.1 ≠ "") (hinv : OwnerInv r) :
    OwnerInv (removePlayerBySession r sid m).1 := by
  cases hp : mapGet sid r.players with
  | none =>
    rw [removePlayer_none r sid m hp]
    exact hinv
  | some p =>
    have hf := removePlayer_fields r sid m p hp
    intro hc
    rw [hf.1] at hc
    by_cases ho : r.ownerClientId = sid
    · have hkeys2 : ∀ e ∈ mapDel sid r.players, e.1 ≠ "" :=
        fun e he => hk e (mem_mapDel_elim he)
      obtain ⟨pre, e, post, hsp, howeq, hec, _⟩ :=
        owner_reassign (mapDel sid r.players)
          ((mapDel sid r.players).foldl firstKeyStep "") hkeys2 hc
      refine ⟨e, ?_, ?_, hec⟩
      · rw [hf.1, hsp]
        exact List.mem_append_right _ (List.mem_cons_self _ _)
      · rw [hf.2, if_pos ho]
        exact howeq.symm
    · obtain ⟨e, he, hec⟩ := hc
      obtain ⟨u, hu, huo, huc⟩ := hinv ⟨e, mem_mapDel_elim he, hec⟩
      refine ⟨u, ?_, ?_, huc⟩
      · rw [hf.1]
        exact mem_mapDel_of_ne (by rw [huo]; exact ho) hu
      · rw [hf.2, if_neg ho]
        exact huo

theorem onLeave_none (r : RoomModel) (sid : String) (c : Bool) (now : Nat)
    (tok : String) (hp : mapGet sid r.players = none) :
    onLeave r sid c now tok =
      ({ r with clients := r.clients.filter (fun x => x ≠ sid) }, []) := by
  simp only [onLeave, hp]

theorem onLeave_consented_eq (r : RoomModel) (sid : String) (now : Nat)
    (tok : String) (p : PlayerR) (hp : mapGet sid r.players = some p) :
    onLeave r sid true now tok =
      removePlayerBySession { r with clients := r.clients.filter (fun x => x ≠ sid) }
        sid (p.name ++ " left the room.") := by
  simp only [onLeave, hp, if_true]

theorem onLeave_unc_fields (r : RoomModel) (sid : String) (now : Nat)
    (tok : String) (p : PlayerR) (hp : mapGet sid r.players = some p) :
    (onLeave r sid false now tok).1.players =
      mapSet sid { p with connected := false } r.players ∧
    (onLeave r sid false now tok).1.ownerClientId =
      (if r.ownerClientId = sid then
        (if (mapSet sid { p with connected := false } r.players).foldl
              firstConnStep "" = "" then
          (mapSet sid { p with connected := false } r.players).foldl firstKeyStep ""
        else
          (mapSet sid { p with connected := false } r.players).foldl firstConnStep "")
      else r.ownerClientId) ∧
    (onLeave r sid false now tok).1.phase = r.phase := by
  refine ⟨?_, ?_, ?_⟩ <;>
    cases hm2 : mapGet p.playerId r.resumeTokenByPlayerId <;>
    by_cases ho : r.ownerClientId = sid <;>
    simp [onLeave, hp, hm2, reserveDisconnectedSeat, issueResumeToken,
      getFirstConnectedPlayerSessionId, getFirstPlayerId,
      foldl_firstConnStep_eta, foldl_firstKeyStep_eta, ho]

theorem ownerFallback_spec (P : List (String × PlayerR)) (ow : String)
    (hkeys : ∀ e ∈ P, e.1 ≠ "")
    (how : ow = if P.foldl firstConnStep "" = "" then P.foldl firstKeyStep ""
           else P.foldl firstConnStep "") :
    ((∃ e ∈ P, e.2.connected = true) →
      ∃ pre e post, P = pre ++ e :: post ∧ ow = e.1 ∧ e.2.connected = true ∧
        ∀ x ∈ pre, x.2.connected = false) ∧
    ((∀ e ∈ P, e.2.connected = false) →
      ow = (P.map Prod.fst).headD "" ∧ (P ≠ [] → ow ≠ "")) := by
  constructor
  · intro hc
    obtain ⟨pre, e, post, hsp, hfe, hec, hpre⟩ :=
      owner_reassign P (P.foldl firstKeyStep "") hkeys hc
    exact ⟨pre, e, post, hsp, by rw [how]; exact hfe, hec, hpre⟩
  · intro hall
    have hfold : P.foldl firstConnStep "" = "" := by
      rcases firstConn_spec P hkeys with ⟨h0, _⟩ | ⟨pre, e, post, hsp, hfe, hec, _⟩
      · exact h0
      · exfalso
        have hmem : e ∈ P := by
          rw [hsp]
          exact List.mem_append_right _ (List.mem_cons_self _ _)
        rw [hall e hmem] at hec
        cases hec
    have how2 : ow = P.foldl firstKeyStep "" := by rw [how, if_pos hfold]
    cases P with
    | nil =>
      refine ⟨by rw [how2]; rfl, ?_⟩
      intro hne
      exact absurd rfl hne
    | cons y ys =>
      have hyk : y.1 ≠ "" := hkeys y (List.mem_cons_self _ _)
      rw [how2, firstKey_cons y ys hyk]
      exact ⟨by simp, fun _ => hyk⟩

theorem onLeave_ownerInv (r : RoomModel) (sid : String) (c : Bool) (now : Nat)
    (tok : String) (hk : ∀ e ∈ r.players, e.1 ≠ "") (hinv : OwnerInv r) :
    OwnerInv (onLeave r sid c now tok).1 := by
  cases hp : mapGet sid r.players with
  | none =>
    rw [onLeave_none r sid c now tok hp]
    exact ownerInv_fields rfl rfl hinv
  | some p =>
    cases c with
    | true =>
      rw [onLeave_consented_eq r sid now tok p hp]
      exact removePlayer_ownerInv _ sid _ hk (ownerInv_fields rfl rfl hinv)
    | false =>
      have hf := onLeave_unc_fields r sid now tok p hp
      have hkeysL : ∀ e ∈ mapSet sid { p with connected := false } r.players,
          e.1 ≠ "" := by
        intro e he
        rcases mem_mapSet_elim he with rfl | he2
        · exact hk (sid, p) (mapGet_some_mem hp)
        · exact hk e he2
      intro hc
      rw [hf.1] at hc
      by_cases ho : r.ownerClientId = sid
      · obtain ⟨pre, e, post, hsp, howeq, hec, _⟩ :=
          owner_reassign (mapSet sid { p with connected := false } r.players)
            ((mapSet sid { p with connected := false } r.players).foldl
              firstKeyStep "") hkeysL hc
        refine ⟨e, ?_, ?_, hec⟩
        · rw [hf.1, hsp]
          exact List.mem_append_right _ (List.mem_cons_self _ _)
        · rw [hf.2.1, if_pos ho]
          exact howeq.symm
      · obtain ⟨e, he, hec⟩ := hc
        rcases mem_mapSet_elim he with rfl | he2
        · simp at hec
        · obtain ⟨u, hu, huo, huc⟩ := hinv ⟨e, he2, hec⟩
          refine ⟨u, ?_, ?_, huc⟩
          · rw [hf.1]
            exact mem_mapSet_of_ne (by rw [huo]; exact ho) hu
          · rw [hf.2.1, if_neg ho]
            exact huo

theorem foldl_pres {γ β : Type} {P : γ → Prop} (step : γ → β → γ)
    (hstep : ∀ a b, P a → P (step a b)) :
    ∀ (l : List β) (a : γ), P a → P (l.foldl step a) := by
  intro l
  induction l with
  | nil =>
    intro a h
    exact h
  | cons x xs ih =>
    intro a h
    exact ih (step a x) (hstep a x h)

theorem sendSeatToken_players (r : RoomModel) (a b c : String) :
    ((sendSeatToken r a b c).1).players = r.players := (sendSeatToken_fields r a b c).1

theorem sendSeatToken_owner (r : RoomModel) (a b c : String) :
    ((sendSeatToken r a b c).1).ownerClientId = r.ownerClientId :=
  (sendSeatToken_fields r a b c).2.1

theorem sendSeatToken_phase (r : RoomModel) (a b c : String) :
    ((sendSeatToken r a b c).1).phase = r.phase := (sendSeatToken_fields r a b c).2.2.1

theorem sendSeatToken_pibs (r : RoomModel) (a b c : String) :
    ((sendSeatToken r a b c).1).playerIdBySessionId = r.playerIdBySessionId :=
  (sendSeatToken_fields r a b c).2.2.2.1

theorem sendSeatToken_games (r : RoomModel) (a b c : String) :
    ((sendSeatToken r a b c).1).playerGameStates = r.playerGameStates :=
  (sendSeatToken_fields r a b c).2.2.2.2.1

theorem getOrCreate_players (r : RoomModel) (sid : String) (c z : Rng) :
    ((getOrCreatePlayerGameState r sid c z).2).players = r.players :=
  (getOrCreate_fields r sid c z).1

theorem getOrCreate_owner (r : RoomModel) (sid : String) (c z : Rng) :
    ((getOrCreatePlayerGameState r sid c z).2).ownerClientId = r.ownerClientId :=
  (getOrCreate_fields r sid c z).2.1

theorem getOrCreate_phase (r : RoomModel) (sid : String) (c z : Rng) :
    ((getOrCreatePlayerGameState r sid c z).2).phase = r.phase :=
  (getOrCreate_fields r sid c z).2.2.1

theorem getOrCreate_pibs (r : RoomModel) (sid : String) (c z : Rng) :
    ((getOrCreatePlayerGameState r sid c z).2).playerIdBySessionId =
      r.playerIdBySessionId :=
  (getOrCreate_fields r sid c z).2.2.2.1

theorem pruneFold_pres (Q : RoomModel → Prop)
    (hseat : ∀ (x : RoomModel) (s : List (String × SeatReservation)),
      Q x → Q { x with seatReservationsByToken := s })
    (hrem : ∀ (x : RoomModel) (sid m : String),
      Q x → Q (removePlayerBySession x sid m).1) :
    ∀ (l : List String) (acc : RoomModel × List Out), Q acc.1 →
      Q ((l.foldl
        (fun acc token =>
          match mapGet token acc.1.seatReservationsByToken with
          | none => acc
          | some reservation =>
            let room1 :=
              { acc.1 with
                seatReservationsByToken := mapDel token acc.1.seatReservationsByToken }
            match getPlayerEntryByPlayerId room1 reservation.playerId with
            | none => (room1, acc.2)
            | some entry =>
              if entry.2.connected then (room1, acc.2)
              else
                let rem := removePlayerBySession room1 entry.1
                  (entry.2.name ++ " timed out and was removed from the room.")
                (rem.1, acc.2 ++ rem.2)) acc).1) := by
  intro l
  induction l with
  | nil =>
    intro acc h
    exact h
  | cons x xs ih =>
    intro acc h
    rw [List.foldl_cons]
    refine ih _ ?_
    cases hmt : mapGet x acc.1.seatReservationsByToken with
    | none =>
      simpa [hmt] using h
    | some resv =>
      simp only [hmt]
      have hroom1 : Q { acc.1 with
          seatReservationsByToken := mapDel x acc.1.seatReservationsByToken } :=
        hseat acc.1 _ h
      cases hge : getPlayerEntryByPlayerId
          { acc.1 with
            seatReservationsByToken := mapDel x acc.1.seatReservationsByToken }
          resv.playerId with
      | none =>
        simpa [hge] using hroom1
      | some entry =>
        simp only [hge]
        by_cases hconn : entry.2.connected = true
        · simpa [hconn] using hroom1
        · have hconn2 : entry.2.connected = false := by
            cases hb : entry.2.connected
            · rfl
            · exact absurd hb hconn
          simpa [hconn2] using hrem _ entry.1 _ hroom1

theorem prune_pres (Q : RoomModel → Prop)
    (hseat : ∀ (x : RoomModel) (s : List (String × SeatReservation)),
      Q x → Q { x with seatReservationsByToken := s })
    (hrem : ∀ (x : RoomModel) (sid m : String),
      Q x → Q (removePlayerBySession x sid m).1)
    (r : RoomModel) (now : Nat) (h : Q r) :
    Q (pruneExpiredSeatReservations r now).1 := by
  simp only [pruneExpiredSeatReservations]
  split
  · exact h
  · split
    · exact h
    · exact pruneFold_pres Q hseat hrem _ (r, []) h

theorem prune_keys (r : RoomModel) (now : Nat)
    (hk : ∀ e ∈ r.players, e.1 ≠ "") :
    ∀ e ∈ (pruneExpiredSeatReservations r now).1.players, e.1 ≠ "" := by
  refine prune_pres (fun x => ∀ e ∈ x.players, e.1 ≠ "") ?_ ?_ r now hk
  · intro x s hx
    exact hx
  · intro x sid m hx
    exact removePlayer_keys x sid m hx

theorem tryReclaim_players_cases (r1 : RoomModel) (sid nm tok : String) (now : Nat) :
    ((tryReclaimSeat r1 sid nm tok now).2.players = r1.players ∧
     (tryReclaimSeat r1 sid nm tok now).1 = none) ∨
    (∃ player esid, (tryReclaimSeat r1 sid nm tok now).1 = some player ∧
      player.connected = true ∧
      (tryReclaimSeat r1 sid nm tok now).2.players =
        mapSet sid player (mapDel esid r1.players)) := by
  simp only [tryReclaimSeat]
  by_cases h0 : tok = ""
  · simp only [if_pos h0]
    exact Or.inl ⟨by simp, by simp⟩
  · simp only [if_neg h0]
    cases hm : mapGet tok r1.seatReservationsByToken with
    | none =>
      simp only [hm]
      exact Or.inl ⟨by simp, by simp⟩
    | some resv =>
      simp only [hm]
      by_cases hexp : resv.expiresAt ≤ now
      · simp only [if_pos hexp]
        exact Or.inl ⟨by simp, by simp⟩
      · simp only [if_neg hexp]
        cases hge : getPlayerEntryByPlayerId r1 resv.playerId with
        | none =>
          simp only [hge]
          exact Or.inl ⟨by simp, by simp⟩
        | some entry =>
          simp only [hge]
          by_cases hconn : entry.2.connected = true
          · simp only [if_pos hconn]
            exact Or.inl ⟨by simp, by simp⟩
          · simp only [if_neg hconn]
            refine Or.inr ⟨_, entry.1, rfl, rfl, ?_⟩
            split <;> rfl

theorem tryReclaim_some_elim {r1 : RoomModel} {sid nm tok : String} {now : Nat}
    {player : PlayerR}
    (h : (tryReclaimSeat r1 sid nm tok now).1 = some player) :
    player.connected = true ∧
    ∃ esid, (tryReclaimSeat r1 sid nm tok now).2.players =
      mapSet sid player (mapDel esid r1.players) := by
  rcases tryReclaim_players_cases r1 sid nm tok now with ⟨_, hnone⟩ |
    ⟨player0, esid, hsome, hc, hpl⟩
  · rw [h] at hnone
    cases hnone
  · rw [h] at hsome
    injection hsome with h2
    subst h2
    exact ⟨hc, esid, hpl⟩

theorem tryReclaim_keys (r1 : RoomModel) (sid nm tok : String) (now : Nat)
    (hk : ∀ e ∈ r1.players, e.1 ≠ "") (hsid : sid ≠ "") :
    ∀ e ∈ ((tryReclaimSeat r1 sid nm tok now).2).players, e.1 ≠ "" := by
  rcases tryReclaim_players_cases r1 sid nm tok now with ⟨hpl, _⟩ |
    ⟨player0, esid, _, _, hpl⟩ <;>
    intro e he <;> rw [hpl] at he
  · exact hk e he
  · rcases mem_mapSet_elim he with rfl | he2
    · exact hsid
    · exact hk e (mem_mapDel_elim he2)

theorem onJoinFinish_ownerInv (r2 : RoomModel) (sid : String) (player : PlayerR)
    (rj : Bool) (ft : String) (cr rr : Rng) (po : List Out)
    (hkeys : ∀ e ∈ r2.players, e.1 ≠ "")
    (hq : ∃ q, mapGet sid r2.players = some q ∧ q.connected = true) :
    OwnerInv (onJoinFinish r2 sid player rj ft cr rr po).1 := by
  obtain ⟨q, hq1, hq2⟩ := hq
  have hconn : ∃ e ∈ r2.players, e.2.connected = true :=
    ⟨(sid, q), mapGet_some_mem hq1, hq2⟩
  by_cases hfix : (r2.ownerClientId = "" ∨
      (match mapGet r2.ownerClientId r2.players with
        | some p => p.connected
        | none => false) = false)
  · -- owner reassigned to the first connected seat (some seat is connected)
    rcases firstConn_spec r2.players hkeys with ⟨_, hall⟩ |
      ⟨pre, e, post, hsp, hfe, hec, _⟩
    · obtain ⟨e, he, hec⟩ := hconn
      rw [hall e he] at hec
      cases hec
    · have hne : getFirstConnectedPlayerSessionId r2 ≠ "" := by
        rw [getFirstConnected_eq, hfe]
        refine hkeys e ?_
        rw [hsp]
        exact List.mem_append_right _ (List.mem_cons_self _ _)
      have hro : OwnerInv { r2 with
          ownerClientId := getFirstConnectedPlayerSessionId r2 } := by
        intro _
        refine ⟨e, ?_, ?_, hec⟩
        · show e ∈ r2.players
          rw [hsp]
          exact List.mem_append_right _ (List.mem_cons_self _ _)
        · show e.1 = getFirstConnectedPlayerSessionId r2
          rw [getFirstConnected_eq, hfe]
      simp only [onJoinFinish, if_pos hfix, if_neg hne]
      split
      · refine ownerInv_fields ?_ ?_ hro
        · rw [getOrCreate_players, sendSeatToken_players]
        · rw [getOrCreate_owner, sendSeatToken_owner]
      · refine ownerInv_fields ?_ ?_ hro
        · rw [sendSeatToken_players]
        · rw [sendSeatToken_owner]
  · -- owner already names a connected seat
    have hro : OwnerInv r2 := by
      have hne : ¬ r2.ownerClientId = "" := fun hc => hfix (Or.inl hc)
      have hok : ¬ ((match mapGet r2.ownerClientId r2.players with
          | some p => p.connected
          | none => false) = false) := fun hc => hfix (Or.inr hc)
      cases hmo : mapGet r2.ownerClientId r2.players with
      | none =>
        rw [hmo] at hok
        exact absurd rfl hok
      | some pp =>
        rw [hmo] at hok
        have hppc : pp.connected = true := by
          cases hb : pp.connected
          · exact absurd hb hok
          · rfl
        intro _
        exact ⟨(r2.ownerClientId, pp), mapGet_some_mem hmo, rfl, hppc⟩
    simp only [onJoinFinish, if_neg hfix]
    split
    · refine ownerInv_fields ?_ ?_ hro
      · rw [getOrCreate_players, sendSeatToken_players]
      · rw [getOrCreate_owner, sendSeatToken_owner]
    · refine ownerInv_fields ?_ ?_ hro
      · rw [sendSeatToken_players]
      · rw [sendSeatToken_owner]

theorem onJoin_ownerInv (r : RoomModel) (sid : String) (opts : JoinOptions)
    (now : Nat) (fp ft : String) (cr rr : Rng) (u : RoomModel × List Out)
    (hk : ∀ e ∈ r.players, e.1 ≠ "") (hsid : sid ≠ "")
    (hok : onJoin r sid opts now fp ft cr rr = Except.ok u) :
    OwnerInv u.1 := by
  simp only [onJoin] at hok
  have hk1 : ∀ e ∈ (pruneExpiredSeatReservations
      { r with clients := r.clients ++ [sid] } now).1.players, e.1 ≠ "" :=
    prune_keys _ now hk
  split at hok
  · -- reclaimed seat
    injection hok with h2
    subst h2
    rename_i player hrec
    obtain ⟨hpc, esid, hpl⟩ := tryReclaim_some_elim hrec
    refine onJoinFinish_ownerInv _ sid player true ft cr rr _ ?_ ?_
    · intro e he
      rw [hpl] at he
      rcases mem_mapSet_elim he with rfl | he2
      · exact hsid
      · exact hk1 e (mem_mapDel_elim he2)
    · refine ⟨player, ?_, hpc⟩
      rw [hpl]
      exact mapGet_mapSet_self sid player _
  · -- fresh seat
    split at hok
    · cases hok
    · injection hok with h2
      subst h2
      rename_i hrec hcap
      refine onJoinFinish_ownerInv _ sid _ false ft cr rr _ ?_ ?_
      · intro e he
        simp only at he
        rcases mem_mapSet_elim he with rfl | he2
        · exact hsid
        · exact tryReclaim_keys _ sid _ _ now hk1 hsid e he2
      · refine ⟨_, mapGet_mapSet_self sid _ _, ?_⟩
        rfl

/-- C8 counterexample: after the host gracefully leaves a room whose only
remaining seat is disconnected, ownership is not cleared: it falls back to
the (disconnected) first roster key. -/
theorem owner_counterexample :
    c8FinalRoom.ownerClientId = "s2" ∧
    (mapGet c8FinalRoom.ownerClientId c8FinalRoom.players).map PlayerR.connected =
      some false ∧
    getConnectedPlayerCount c8FinalRoom = 0 ∧
    c8FinalRoom.players ≠ [] := by decide

/-- C8 (amended): when the host leaves (consented or not), ownership passes
to the first remaining connected seat in stable roster order; when no
connected seat remains it falls back to the first roster key (empty only
when the roster is empty), rather than being cleared.  The ownership
invariant - the owner is a connected seat whenever any seat is connected -
is preserved by onLeave, removePlayerBySession, and every successful
onJoin. -/
theorem owner_spec (r : RoomModel) (hkeys : ∀ e ∈ r.players, e.1 ≠ "")
    (hinv : OwnerInv r) :
    (∀ sid now tok p, mapGet sid r.players = some p → r.ownerClientId = sid →
      ((∃ e ∈ (onLeave r sid false now tok).1.players, e.2.connected = true) →
        ∃ pre e post, (onLeave r sid false now tok).1.players = pre ++ e :: post ∧
          (onLeave r sid false now tok).1.ownerClientId = e.1 ∧
          e.2.connected = true ∧ ∀ x ∈ pre, x.2.connected = false) ∧
      ((∀ e ∈ (onLeave r sid false now tok).1.players, e.2.connected = false) →
        (onLeave r sid false now tok).1.ownerClientId =
          ((onLeave r sid false now tok).1.players.map Prod.fst).headD "" ∧
        ((onLeave r sid false now tok).1.players ≠ [] →
          (onLeave r sid false now tok).1.ownerClientId ≠ ""))) ∧
    (∀ sid now tok p, mapGet sid r.players = some p → r.ownerClientId = sid →
      ((∃ e ∈ (onLeave r sid true now tok).1.players, e.2.connected = true) →
        ∃ pre e post, (onLeave r sid true now tok).1.players = pre ++ e :: post ∧
          (onLeave r sid true now tok).1.ownerClientId = e.1 ∧
          e.2.connected = true ∧ ∀ x ∈ pre, x.2.connected = false) ∧
      ((∀ e ∈ (onLeave r sid true now tok).1.players, e.2.connected = false) →
        (onLeave r sid true now tok).1.ownerClientId =
          ((onLeave r sid true now tok).1.players.map Prod.fst).headD "" ∧
        ((onLeave r sid true now tok).1.players ≠ [] →
          (onLeave r sid true now tok).1.ownerClientId ≠ ""))) ∧
    (∀ sid c now tok, OwnerInv (onLeave r sid c now tok).1) ∧
    (∀ sid m, OwnerInv (removePlayerBySession r sid m).1) ∧
    (∀ sid opts now fp ft cr rr u, sid ≠ "" →
      onJoin r sid opts now fp ft cr rr = Except.ok u → OwnerInv u.1) := by
  refine ⟨?_, ?_, ?_, ?_, ?_⟩
  · intro sid now tok p hp ho
    have hf := onLeave_unc_fields r sid now tok p hp
    have hkeysL : ∀ e ∈ mapSet sid { p with connected := false } r.players,
        e.1 ≠ "" := by
      intro e he
      rcases mem_mapSet_elim he with rfl | he2
      · exact hkeys (sid, p) (mapGet_some_mem hp)
      · exact hkeys e he2
    have hmain := ownerFallback_spec
      (mapSet sid { p with connected := false } r.players)
      ((onLeave r sid false now tok).1.ownerClientId) hkeysL
      (by rw [hf.2.1, if_pos ho])
    constructor
    · intro hc
      rw [hf.1] at hc
      obtain ⟨pre, e, post, hsp, howeq, hec, hpre⟩ := hmain.1 hc
      exact ⟨pre, e, post, by rw [hf.1]; exact hsp, howeq, hec, hpre⟩
    · intro hall
      rw [hf.1] at hall
      obtain ⟨h1, h2⟩ := hmain.2 hall
      constructor
      · rw [hf.1]
        exact h1
      · intro hne
        rw [hf.1] at hne
        exact h2 hne
  · intro sid now tok p hp ho
    have hce := onLeave_consented_eq r sid now tok p hp
    have hf := removePlayer_fields
      { r with clients := r.clients.filter (fun x => x ≠ sid) } sid
      (p.name ++ " left the room.") p hp
    simp only at hf
    have hkeysD : ∀ e ∈ mapDel sid r.players, e.1 ≠ "" :=
      fun e he => hkeys e (mem_mapDel_elim he)
    have hmain := ownerFallback_spec (mapDel sid r.players)
      ((onLeave r sid true now tok).1.ownerClientId) hkeysD
      (by rw [hce, hf.2, if_pos ho])
    constructor
    · intro hc
      rw [hce, hf.1] at hc
      obtain ⟨pre, e, post, hsp, howeq, hec, hpre⟩ := hmain.1 hc
      exact ⟨pre, e, post, by rw [hce, hf.1]; exact hsp, howeq, hec, hpre⟩
    · intro hall
      rw [hce, hf.1] at hall
      obtain ⟨h1, h2⟩ := hmain.2 hall
      constructor
      · rw [hce, hf.1]
        rw [hce] at h1
        exact h1
      · intro hne
        rw [hce, hf.1] at hne
        exact h2 hne
  · intro sid c now tok
    exact onLeave_ownerInv r sid c now tok hkeys hinv
  · intro sid m
    exact removePlayer_ownerInv r sid m hkeys hinv
  · intro sid opts now fp ft cr rr u hsid hok2
    exact onJoin_ownerInv r sid opts now fp ft cr rr u hkeys hsid hok2

theorem owner_spec_witness :
    OwnerInv demoRound ∧ OwnerInv (onLeave demoRound "s1" false 0 "tk").1 :=
  ⟨by decide, (owner_spec demoRound (by decide) (by decide)).2.2.1 "s1" false 0 "tk"⟩

theorem snapshots_mem_elim {r : RoomModel} {reason : String} {a0 : Option String}
    {o : Out} (h : o ∈ sendSnapshotsToAllPlayers r reason a0) :
    ∃ c g, o = (Dest.client c, buildGameSnapshot r g reason a0) := by
  simp only [sendSnapshotsToAllPlayers] at h
  obtain ⟨c, _, hgc⟩ := List.mem_filterMap.mp h
  by_cases hpid : getPlayerIdForSession r c = ""
  · rw [if_pos hpid] at hgc
    cases hgc
  · rw [if_neg hpid] at hgc
    cases hm : mapGet (getPlayerIdForSession r c) r.playerGameStates with
    | none =>
      rw [hm] at hgc
      cases hgc
    | some g =>
      rw [hm] at hgc
      injection hgc with h2
      exact ⟨c, g, h2.symm⟩

theorem winnerNames_snapshots (r : RoomModel) (reason : String)
    (a : Option String) :
    winnerNamesIn (sendSnapshotsToAllPlayers r reason a) = [] := by
  unfold winnerNamesIn
  rw [List.filterMap_eq_nil]
  intro o ho
  obtain ⟨c, g, heq⟩ := snapshots_mem_elim ho
  subst heq
  rfl

/-- C5 counterexample: a reachable 2-player winning serve ends the round
(phase lobby, board store cleared) but broadcasts game_finished with an
EMPTY winnerName: the winner joined under the name ". .", which
sanitizeName reduces to the empty string. -/
theorem serveWin_counterexample :
    c5PreRoom.phase = RoomPhase.playing ∧
    c5FinalStep.1.phase = RoomPhase.lobby ∧
    c5FinalStep.1.playerGameStates = [] ∧
    winnerNamesIn c5FinalStep.2 = [""] := by decide

/-- C5 (amended): in a round where the acting player's board has no tray
tiles, is running, and its pile cannot supply a full serve
(drawPile.length less-or-equal players, e.g. equal to the player count of
a 2-player round), the next action_serve_plate moves the room to the
lobby phase, empties the per-player GameState store, and broadcasts
exactly one game_finished whose winnerName is the winner's ROSTER name -
which may be the empty string, so non-emptiness does not hold. -/
theorem serveWin_spec (r : RoomModel) (sid : String) (rngs : Nat → Rng)
    (esid : String) (pl : PlayerR) (g : GameState)
    (hph : r.phase = RoomPhase.playing)
    (hpid : getPlayerIdForSession r sid ≠ "")
    (hg : mapGet (getPlayerIdForSession r sid) r.playerGameStates = some g)
    (hstag : hasStagingTiles g = false)
    (hrun : g.status = GameStatus.running)
    (hlen : g.drawPile.length ≤ g.config.players)
    (hentry : getPlayerEntryByPlayerId r (getPlayerIdForSession r sid) =
      some (esid, pl)) :
    (handleServePlate r sid rngs).1.phase = RoomPhase.lobby ∧
    (handleServePlate r sid rngs).1.playerGameStates = [] ∧
    winnerNamesIn (handleServePlate r sid rngs).2 = [pl.name] := by
  have hens := ensurePlaying_inr_intro r sid g hph hpid hg
  have hgw : servePlate g =
      { g with status := GameStatus.won
               lastAction := "You served the final plate and won." } :=
    servePlate_won_eq g hrun hlen
  have hnext : mapGet (getPlayerIdForSession r sid)
      (r.playerGameStates.map (fun e => (e.1, servePlate e.2))) =
      some (servePlate g) := by
    rw [mapGet_mapEntries, hg]
    rfl
  simp only [getPlayerEntryByPlayerId] at hentry
  simp only [handleServePlate, hens, hstag, Bool.false_eq_true, if_false,
    if_neg hpid, hnext, hgw]
  simp only [finalizeWinner, finalizeNoWinner, getPlayerEntryByPlayerId, hentry,
    hph, hnext, hgw, clearRoundGames, hpid, ne_eq]
  simp [winnerNamesIn, List.filterMap_append, winnerNames_snapshots, hentry,
    clearRoundGames, hnext, hgw]
  intro a b hmem
  obtain ⟨c, g2, heq⟩ := snapshots_mem_elim hmem
  injection heq with ha hb
  subst hb
  rfl

theorem serveWin_spec_witness :
    demoRound.phase = RoomPhase.playing ∧
    (handleServePlate demoRound "s1" zeroRngs).1.phase = RoomPhase.lobby ∧
    (handleServePlate demoRound "s1" zeroRngs).1.playerGameStates = [] ∧
    winnerNamesIn (handleServePlate demoRound "s1" zeroRngs).2 =
      [demoPlayerA.name] := by
  have h := serveWin_spec demoRound "s1" zeroRngs "s1" demoPlayerA demoGameWin rfl
    (by decide) (by decide) (by decide) (by decide) (by decide) (by decide)
  exact ⟨rfl, h.1, h.2.1, h.2.2⟩

theorem sendSeatToken_arp (r : RoomModel) (a b c : String) :
    ((sendSeatToken r a b c).1).activeRoundPlayers = r.activeRoundPlayers :=
  (sendSeatToken_fields r a b c).2.2.2.2.2.1

theorem sendSeatToken_shared (r : RoomModel) (a b c : String) :
    ((sendSeatToken r a b c).1).sharedBagCount = r.sharedBagCount :=
  (sendSeatToken_fields r a b c).2.2.2.2.2.2.1

theorem finalizeWinner_phase (r : RoomModel) (w : String)
    (hph : r.phase = RoomPhase.playing) :
    (finalizeWinner r w).1.phase = RoomPhase.lobby := by
  simp only [finalizeWinner]
  rw [if_neg (by rw [hph]; exact fun hc => hc rfl)]
  cases hge : getPlayerEntryByPlayerId r w with
  | none =>
    simp [finalizeNoWinner, clearRoundGames]
  | some entry =>
    simp only [hge]
    cases hm : mapGet w r.playerGameStates with
    | none => simp [hm, finalizeNoWinner, clearRoundGames]
    | some g => simp [hm, clearRoundGames]

theorem removePlayer_cases (r : RoomModel) (sid m : String) (p : PlayerR)
    (hp : mapGet sid r.players = some p) :
    ((removePlayerBySession r sid m).1.phase = RoomPhase.lobby ∧
     (removePlayerBySession r sid m).1.playerGameStates = []) ∨
    ((removePlayerBySession r sid m).1.phase = r.phase ∧
     (removePlayerBySession r sid m).1.playerGameStates =
       mapDel p.playerId r.playerGameStates ∧
     (removePlayerBySession r sid m).1.sharedBagCount = r.sharedBagCount ∧
     (removePlayerBySession r sid m).1.activeRoundPlayers = r.activeRoundPlayers) := by
  cases hm2 : mapGet p.playerId r.resumeTokenByPlayerId <;>
    simp only [removePlayerBySession, hp, hm2] <;>
    (repeat' split) <;>
    first
      | exact Or.inl ⟨rfl, rfl⟩
      | exact Or.inr ⟨rfl, rfl, rfl, rfl⟩

theorem removePlayer_invQ (x : RoomModel) (sid m : String)
    (h : RoundInv x ∧ (x.phase = RoomPhase.playing → 0 < x.sharedBagCount)) :
    RoundInv (removePlayerBySession x sid m).1 ∧
    ((removePlayerBySession x sid m).1.phase = RoomPhase.playing →
      0 < (removePlayerBySession x sid m).1.sharedBagCount) := by
  cases hp : mapGet sid x.players with
  | none =>
    rw [removePlayer_none x sid m hp]
    exact h
  | some p =>
    rcases removePlayer_cases x sid m p hp with ⟨hph, hg⟩ | ⟨hph, hg, hsh, harp⟩
    · constructor
      · intro hpl
        rw [hph] at hpl
        exact absurd hpl (by decide)
      · intro hpl
        rw [hph] at hpl
        exact absurd hpl (by decide)
    · constructor
      · intro hpl
        rw [hph] at hpl
        obtain ⟨h1, h2, h3⟩ := h.1 hpl
        refine ⟨by rw [harp]; exact h1, by rw [harp]; exact h2, ?_⟩
        intro e he
        rw [hg] at he
        obtain ⟨hs, hc, hd⟩ := h3 e (mem_mapDel_elim he)
        exact ⟨hs, by rw [harp]; exact hc, by rw [hsh]; exact hd⟩
      · intro hpl
        rw [hph] at hpl
        rw [hsh]
        exact h.2 hpl

theorem moveTile_keeps (s : GameState) (tid : String) (row col : Int) :
    (moveTile s tid row col).status = s.status ∧
    (moveTile s tid row col).config = s.config ∧
    (moveTile s tid row col).drawPile = s.drawPile := by
  simp only [moveTile]
  repeat' split
  all_goals exact ⟨rfl, rfl, rfl⟩

theorem moveMain_roundInv (r : RoomModel) (hinv : RoundInv r) (sid : String)
    (g : GameState) (tid : String) (row col : Int)
    (hph : r.phase = RoomPhase.playing)
    (hg : mapGet (getPlayerIdForSession r sid) r.playerGameStates = some g) :
    RoundInv { r with playerGameStates := mapSet (getPlayerIdForSession r sid) (moveTile g tid row col) r.playerGameStates } := by
  intro _
  obtain ⟨h1, h2, h3⟩ := hinv hph
  refine ⟨h1, h2, ?_⟩
  intro e he
  rcases mem_mapSet_elim he with rfl | he2
  · have hgf := h3 _ (mapGet_some_mem hg)
    have hk := moveTile_keeps g tid row col
    refine ⟨?_, ?_, ?_⟩
    · rw [hk.1]
      exact hgf.1
    · show (moveTile g tid row col).config.players = _
      rw [hk.2.1]
      exact hgf.2.1
    · show (moveTile g tid row col).drawPile.length = _
      rw [hk.2.2]
      exact hgf.2.2
  · exact h3 e he2

theorem move_roundInv (r : RoomModel) (hinv : RoundInv r) (sid : String)
    (msg : MoveTileMsg) : RoundInv (handleMoveTile r sid msg).1 := by
  cases hens : ensurePlaying r sid with
  | inl rej =>
    simp only [handleMoveTile, hens]
    exact hinv
  | inr g =>
    obtain ⟨hph, hpid, hg⟩ := ensurePlaying_inr_elim hens
    simp only [handleMoveTile, hens]
    repeat' split
    all_goals first
      | exact hinv
      | exact moveMain_roundInv r hinv sid g _ _ _ hph hg

theorem startGames_facts (l : List (String × PlayerR)) (p : Nat) (rngs : Nat → Rng)
    (h2 : 2 ≤ p) (h4 : p ≤ 4) (n : Nat) :
    ∀ e ∈ mapWithIndex
      (fun i e => (e.2.playerId, createGame { playersField := some p } (rngs i)))
      n l,
      e.2.status = GameStatus.running ∧ e.2.config.players = p ∧
      e.2.drawPile.length = 138 - 12 * p := by
  intro e he
  obtain ⟨i, a, _, rfl⟩ := mem_mapWithIndex he
  exact createGame_props p (rngs i) h2 h4

theorem getCurrentBag_startGames (c0 : String × PlayerR)
    (cs : List (String × PlayerR)) (p : Nat) (rngs : Nat → Rng)
    (h2 : 2 ≤ p) (h4 : p ≤ 4) (n : Nat) :
    getCurrentBagCountFromRound (mapWithIndex
      (fun i e => (e.2.playerId, createGame { playersField := some p } (rngs i)))
      n (c0 :: cs)) = 138 - 12 * p := by
  simp only [mapWithIndex, getCurrentBagCountFromRound, List.head?]
  exact (createGame_props p (rngs n) h2 h4).2.2

theorem start_roundInv (r : RoomModel) (hinv : RoundInv r) (sid : String)
    (rngs : Nat → Rng) : RoundInv (startAuthoritativeGame r sid rngs).1 := by
  simp only [startAuthoritativeGame]
  split
  · exact hinv
  · split
    · exact hinv
    · rename_i hown hconn
      intro _
      have hlen2 : 2 ≤ (getConnectedPlayers r).length := Nat.not_lt.mp hconn
      have harp1 : 2 ≤ min 4 (getConnectedPlayers r).length := by omega
      have harp2 : min 4 (getConnectedPlayers r).length ≤ 4 := by omega
      have hshared : getCurrentBagCountFromRound
          (mapWithIndex (fun i e => (e.2.playerId,
            createGame { playersField := some (min 4 (getConnectedPlayers r).length) } (rngs i))) 0
           (getConnectedPlayers r)) =
          138 - 12 * (min 4 (getConnectedPlayers r).length) := by
        obtain ⟨c0, cs, hcp⟩ : ∃ c0 cs, getConnectedPlayers r = c0 :: cs := by
          cases hcp2 : getConnectedPlayers r with
          | nil =>
            rw [hcp2] at hlen2
            exact absurd hlen2 (by decide)
          | cons c0 cs => exact ⟨c0, cs, rfl⟩
        rw [hcp] at harp1 harp2 ⊢
        exact getCurrentBag_startGames c0 cs _ rngs harp1 harp2 0
      refine ⟨harp1, harp2, ?_⟩
      intro e he
      have hfacts := startGames_facts (getConnectedPlayers r)
        (min 4 (getConnectedPlayers r).length) rngs harp1 harp2 0 e he
      refine ⟨hfacts.1, hfacts.2.1, ?_⟩
      rw [hfacts.2.2]
      exact hshared.symm

theorem trade_roundInv (r : RoomModel) (hinv : RoundInv r) (sid : String)
    (msg : TradeTileMsg) (trng : Rng) (rngs : Nat → Rng) :
    RoundInv (handleTradeTile r sid msg trng rngs).1 := by
  cases hens : ensurePlaying r sid with
  | inl rej =>
    simp only [handleTradeTile, hens]
    exact hinv
  | inr g =>
    obtain ⟨hph, hpid, hg⟩ := ensurePlaying_inr_elim hens
    simp only [handleTradeTile, hens]
    split
    · exact hinv
    · split
      · exact hinv
      · try rw [if_neg hpid]
        have hgf := (hinv hph).2.2 _ (mapGet_some_mem hg)
        have hfr := tradeTile_frame g (msg.tileId.getD "") trng
        split
        · -- bagDelta nonzero: games synchronized to the new shared count
          intro _
          obtain ⟨h1, h2, h3⟩ := hinv hph
          refine ⟨h1, h2, ?_⟩
          intro e he
          obtain ⟨e0, he0, _, hst, hcf, hdl⟩ := sync_mem he
          rcases mem_mapSet_elim he0 with heq | he02
          · refine ⟨?_, ?_, ?_⟩
            · rw [hst, heq]
              rw [hfr.1]
              exact hgf.1
            · rw [hcf, heq]
              show (tradeTile g (msg.tileId.getD "") trng).config.players = _
              rw [hfr.2.1]
              exact hgf.2.1
            · exact hdl
          · obtain ⟨hs0, hc0, _⟩ := h3 e0 he02
            exact ⟨by rw [hst]; exact hs0, by rw [hcf]; exact hc0, hdl⟩
        · -- bagDelta zero: the traded board kept its pile length
          rename_i hdelta
          intro _
          obtain ⟨h1, h2, h3⟩ := hinv hph
          refine ⟨h1, h2, ?_⟩
          intro e he
          rcases mem_mapSet_elim he with rfl | he2
          · have hle := hfr.2.2
            have hz : g.drawPile.length -
                (tradeTile g (msg.tileId.getD "") trng).drawPile.length = 0 :=
              not_not.mp hdelta
            refine ⟨?_, ?_, ?_⟩
            · show (tradeTile g (msg.tileId.getD "") trng).status = _
              rw [hfr.1]
              exact hgf.1
            · show (tradeTile g (msg.tileId.getD "") trng).config.players = _
              rw [hfr.2.1]
              exact hgf.2.1
            · show (tradeTile g (msg.tileId.getD "") trng).drawPile.length = _
              have hlen : (tradeTile g (msg.tileId.getD "") trng).drawPile.length =
                  g.drawPile.length := by omega
              rw [hlen]
              exact hgf.2.2
          · exact h3 e he2

theorem serve_roundInv (r : RoomModel) (hinv : RoundInv r) (sid : String)
    (rngs : Nat → Rng) : RoundInv (handleServePlate r sid rngs).1 := by
  cases hens : ensurePlaying r sid with
  | inl rej =>
    simp only [handleServePlate, hens]
    exact hinv
  | inr g =>
    obtain ⟨hph, hpid, hg⟩ := ensurePlaying_inr_elim hens
    by_cases hstag : hasStagingTiles g = true
    · simp only [handleServePlate, hens, hstag, if_true]
      exact hinv
    · have hstag2 : hasStagingTiles g = false := by
        cases hb : hasStagingTiles g
        · rfl
        · exact absurd hb hstag
      have hnext : mapGet (getPlayerIdForSession r sid)
          (r.playerGameStates.map (fun e => (e.1, servePlate e.2))) =
          some (servePlate g) := by
        rw [mapGet_mapEntries, hg]
        rfl
      obtain ⟨h1, h2, h3⟩ := hinv hph
      have hgf : g.status = GameStatus.running ∧
          g.config.players = r.activeRoundPlayers ∧
          g.drawPile.length = r.sharedBagCount := h3 _ (mapGet_some_mem hg)
      by_cases hcs : g.config.players < g.drawPile.length
      · have hrp := servePlate_run_props g hgf.1 (by omega) hcs
        simp only [handleServePlate, hens, hstag2, Bool.false_eq_true, if_false,
          if_neg hpid, hnext, hrp.1, if_true]
        intro _
        refine ⟨h1, h2, ?_⟩
        intro e he
        obtain ⟨e0, he0, _, hst, hcf, hdl⟩ := sync_mem he
        obtain ⟨e00, he00, he0eq⟩ := List.mem_map.mp he0
        obtain ⟨hs00, hc00, hd00⟩ := h3 e00 he00
        have hcs00 : e00.2.config.players < e00.2.drawPile.length := by
          rw [hc00, hd00]
          rw [hgf.2.1, hgf.2.2] at hcs
          exact hcs
        have hrp0 := servePlate_run_props e00.2 hs00 (by rw [hc00]; omega) hcs00
        refine ⟨?_, ?_, ?_⟩
        · rw [hst, ← he0eq]
          exact hrp0.1
        · rw [hcf, ← he0eq]
          show (servePlate e00.2).config.players = _
          rw [hrp0.2.1]
          exact hc00
        · exact hdl
      · have hlen : g.drawPile.length ≤ g.config.players := Nat.not_lt.mp hcs
        have hgw := servePlate_won_eq g hgf.1 hlen
        simp only [handleServePlate, hens, hstag2, Bool.false_eq_true, if_false,
          if_neg hpid, hnext, hgw]
        simp only [ne_eq, hpid, not_false_eq_true, if_true, reduceCtorEq, if_false]
        intro hpl
        rw [finalizeWinner_phase] at hpl
        · exact absurd hpl (by decide)
        · exact hph

set_option maxHeartbeats 2000000 in
theorem getOrCreate_roundInv (x : RoomModel) (sid : String) (c z : Rng)
    (h : RoundInv x) (hsh : x.phase = RoomPhase.playing → 0 < x.sharedBagCount) :
    RoundInv (getOrCreatePlayerGameState x sid c z).2 := by
  simp only [getOrCreatePlayerGameState]
  by_cases hpid : getPlayerIdForSession x sid = ""
  · rw [if_pos hpid]
    exact h
  · rw [if_neg hpid]
    cases hm : mapGet (getPlayerIdForSession x sid) x.playerGameStates with
    | some ex =>
      simp only [hm]
      exact h
    | none =>
      simp only [hm]
      intro hpl
      have hpl2 : x.phase = RoomPhase.playing := hpl
      obtain ⟨h1, h2, h3⟩ := h hpl2
      have h0arp : 0 < x.activeRoundPlayers := by omega
      have hplayers : (if 0 < x.activeRoundPlayers then x.activeRoundPlayers
          else min 4 (getConnectedPlayerCount x)) = x.activeRoundPlayers :=
        if_pos h0arp
      have hshpos : 0 < x.sharedBagCount := hsh hpl2
      rw [hplayers]
      have hmax : max 2 x.activeRoundPlayers = x.activeRoundPlayers := by omega
      rw [hmax]
      have hcg := createGame_props x.activeRoundPlayers c h1 h2
      generalize hG : createGame { playersField := some x.activeRoundPlayers } c = G
      rw [hG] at hcg
      refine ⟨h1, h2, ?_⟩
      intro e he
      rcases mem_mapSet_elim he with rfl | he2
      · by_cases hlen : G.drawPile.length ≠ x.sharedBagCount
        · rw [if_pos ⟨hshpos, hlen⟩]
          have hrb := resizeBag_props z G x.sharedBagCount
          refine ⟨?_, ?_, ?_⟩
          · show (resizeBag z G x.sharedBagCount).status = GameStatus.running
            rw [hrb.1]
            exact hcg.1
          · show (resizeBag z G x.sharedBagCount).config.players = _
            rw [hrb.2.1]
            exact hcg.2.1
          · exact hrb.2.2.2
        · rw [if_neg (fun hc => hlen hc.2)]
          exact ⟨hcg.1, hcg.2.1, not_not.mp hlen⟩
      · exact h3 e he2

theorem onJoinFinish_roundInv (r2 : RoomModel) (sid : String) (player : PlayerR)
    (rj : Bool) (ft : String) (cr rr : Rng) (po : List Out)
    (h : RoundInv r2) (hsh : r2.phase = RoomPhase.playing → 0 < r2.sharedBagCount) :
    RoundInv (onJoinFinish r2 sid player rj ft cr rr po).1 := by
  by_cases hfix : (r2.ownerClientId = "" ∨
      (match mapGet r2.ownerClientId r2.players with
        | some p => p.connected
        | none => false) = false) <;>
    [simp only [onJoinFinish, if_pos hfix]; simp only [onJoinFinish, if_neg hfix]] <;>
    (repeat' split) <;>
    first
      | exact getOrCreate_roundInv _ sid cr rr
          (roundInv_fields (sendSeatToken_phase _ _ _ _) (sendSeatToken_arp _ _ _ _)
            (sendSeatToken_games _ _ _ _) (sendSeatToken_shared _ _ _ _)
            (roundInv_fields rfl rfl rfl rfl h))
          (by
            intro hpl
            rw [sendSeatToken_phase] at hpl
            rw [sendSeatToken_shared]
            exact hsh hpl)
      | exact roundInv_fields (sendSeatToken_phase _ _ _ _) (sendSeatToken_arp _ _ _ _)
          (sendSeatToken_games _ _ _ _) (sendSeatToken_shared _ _ _ _)
          (roundInv_fields rfl rfl rfl rfl h)

theorem join_roundInv (r : RoomModel) (sid : String) (opts : JoinOptions)
    (now : Nat) (fp ft : String) (cr rr : Rng) (u : RoomModel × List Out)
    (hinv : RoundInv r) (hsh : r.phase = RoomPhase.playing → 0 < r.sharedBagCount)
    (hok : onJoin r sid opts now fp ft cr rr = Except.ok u) :
    RoundInv u.1 := by
  simp only [onJoin] at hok
  have hq1 := prune_pres
    (fun x => RoundInv x ∧ (x.phase = RoomPhase.playing → 0 < x.sharedBagCount))
    (fun x s hx => ⟨roundInv_fields rfl rfl rfl rfl hx.1, hx.2⟩)
    removePlayer_invQ { r with clients := r.clients ++ [sid] } now
    ⟨roundInv_fields rfl rfl rfl rfl hinv, hsh⟩
  split at hok
  · injection hok with h2
    subst h2
    refine onJoinFinish_roundInv _ sid _ true ft cr rr _ ?_ ?_
    · exact roundInv_fields (tryReclaim_fields _ _ _ _ _).1
        (tryReclaim_fields _ _ _ _ _).2.2.1 (tryReclaim_fields _ _ _ _ _).2.1
        (tryReclaim_fields _ _ _ _ _).2.2.2.1 hq1.1
    · intro hpl
      rw [(tryReclaim_fields _ _ _ _ _).1] at hpl
      rw [(tryReclaim_fields _ _ _ _ _).2.2.2.1]
      exact hq1.2 hpl
  · split at hok
    · cases hok
    · injection hok with h2
      subst h2
      refine onJoinFinish_roundInv _ sid _ false ft cr rr _ ?_ ?_
      · refine roundInv_fields rfl rfl rfl rfl ?_
        exact roundInv_fields (tryReclaim_fields _ _ _ _ _).1
          (tryReclaim_fields _ _ _ _ _).2.2.1 (tryReclaim_fields _ _ _ _ _).2.1
          (tryReclaim_fields _ _ _ _ _).2.2.2.1 hq1.1
      · intro hpl
        have hpl2 := hpl
        rw [(tryReclaim_fields _ _ _ _ _).1] at hpl2
        show 0 < ((tryReclaimSeat _ _ _ _ _).2).sharedBagCount
        rw [(tryReclaim_fields _ _ _ _ _).2.2.2.1]
        exact hq1.2 hpl2

/-- C2 counterexample: a reachable mid-round join while the shared bag
count is zero leaves the store with unequal pile lengths: three boards
drained to 0 and the joiner's fresh board still holding 114 letters. -/
theorem bagSizes_counterexample :
    c2FinalRoom.phase = RoomPhase.playing ∧
    bagLengths c2FinalRoom = [0, 0, 0, 114] ∧
    ¬ allBagSizesEqual c2FinalRoom.playerGameStates := by decide

/-- C2 (amended): the store maintains the round invariant - every stored
board running with the round player count and a pile of exactly the
shared size, hence all pile lengths equal - across start_game,
action_move_tile, action_trade_tile and action_serve_plate; a mid-round
join preserves it only under the proviso that the shared bag count is
still positive (at zero the joiner's fresh board is not resized, the
counterexample). -/
theorem bagSizes_spec (r : RoomModel) (hinv : RoundInv r) :
    (∀ sid rngs, RoundInv (startAuthoritativeGame r sid rngs).1) ∧
    (∀ sid msg, RoundInv (handleMoveTile r sid msg).1) ∧
    (∀ sid msg trng srngs, RoundInv (handleTradeTile r sid msg trng srngs).1) ∧
    (∀ sid rngs, RoundInv (handleServePlate r sid rngs).1) ∧
    (∀ sid opts now fp ft cr rr u,
      (r.phase = RoomPhase.playing → 0 < r.sharedBagCount) →
      onJoin r sid opts now fp ft cr rr = Except.ok u → RoundInv u.1) ∧
    (r.phase = RoomPhase.playing → allBagSizesEqual r.playerGameStates) :=
  ⟨fun sid rngs => start_roundInv r hinv sid rngs,
   fun sid msg => move_roundInv r hinv sid msg,
   fun sid msg trng srngs => trade_roundInv r hinv sid msg trng srngs,
   fun sid rngs => serve_roundInv r hinv sid rngs,
   fun sid opts now fp ft cr rr u hsh hok =>
     join_roundInv r sid opts now fp ft cr rr u hinv hsh hok,
   fun hph => by
     intro e1 he1 e2 he2
     obtain ⟨_, _, hd1⟩ := (hinv hph).2.2 e1 he1
     obtain ⟨_, _, hd2⟩ := (hinv hph).2.2 e2 he2
     rw [hd1, hd2]⟩

theorem bagSizes_spec_witness :
    RoundInv demoRound ∧ RoundInv (handleServePlate demoRound "s1" zeroRngs).1 ∧
    allBagSizesEqual demoRound.playerGameStates :=
  ⟨by decide, (bagSizes_spec demoRound (by decide)).2.2.2.1 "s1" zeroRngs,
   (bagSizes_spec demoRound (by decide)).2.2.2.2.2 rfl⟩

theorem onJoinFinish_players (r2 : RoomModel) (sid : String) (player : PlayerR)
    (rj : Bool) (ft : String) (cr rr : Rng) (po : List Out) :
    (onJoinFinish r2 sid player rj ft cr rr po).1.players = r2.players := by
  by_cases hfix : (r2.ownerClientId = "" ∨
      (match mapGet r2.ownerClientId r2.players with
        | some p => p.connected
        | none => false) = false) <;>
    [simp only [onJoinFinish, if_pos hfix]; simp only [onJoinFinish, if_neg hfix]] <;>
    (repeat' split) <;>
    simp only [getOrCreate_players, sendSeatToken_players]

theorem joinTail_games (r3 : RoomModel) (sid ft : String) (cr rr : Rng)
    (g : GameState)
    (hg3 : mapGet (getPlayerIdForSession r3 sid) r3.playerGameStates = some g) :
    ((getOrCreatePlayerGameState (sendSeatToken r3 sid sid ft).1 sid cr rr).2).playerGameStates =
      r3.playerGameStates ∧
    ((sendSeatToken r3 sid sid ft).1).playerGameStates = r3.playerGameStates := by
  have hpid4 : getPlayerIdForSession (sendSeatToken r3 sid sid ft).1 sid =
      getPlayerIdForSession r3 sid :=
    getPid_fields (sendSeatToken_pibs _ _ _ _) (sendSeatToken_players _ _ _ _) sid
  have hg4 : mapGet (getPlayerIdForSession (sendSeatToken r3 sid sid ft).1 sid)
      ((sendSeatToken r3 sid sid ft).1).playerGameStates = some g := by
    rw [hpid4, sendSeatToken_games]
    exact hg3
  constructor
  · rw [getOrCreate_room_existing _ _ _ _ g hg4]
    exact sendSeatToken_games _ _ _ _
  · exact sendSeatToken_games _ _ _ _

theorem onJoinFinish_games (r2 : RoomModel) (sid : String) (player : PlayerR)
    (rj : Bool) (ft : String) (cr rr : Rng) (po : List Out) (g : GameState)
    (hg : mapGet (getPlayerIdForSession r2 sid) r2.playerGameStates = some g) :
    (onJoinFinish r2 sid player rj ft cr rr po).1.playerGameStates =
      r2.playerGameStates := by
  by_cases hfix : (r2.ownerClientId = "" ∨
      (match mapGet r2.ownerClientId r2.players with
        | some p => p.connected
        | none => false) = false) <;>
    [simp only [onJoinFinish, if_pos hfix]; simp only [onJoinFinish, if_neg hfix]] <;>
    (repeat' split) <;>
    first
      | exact (joinTail_games _ sid ft cr rr g (by exact hg)).1
      | exact (joinTail_games _ sid ft cr rr g (by exact hg)).2

theorem tryReclaim_success_eq (r1 : RoomModel) (sid nm tok : String) (now : Nat)
    (resv : SeatReservation) (esid : String) (pl : PlayerR)
    (htokne : tok ≠ "")
    (hres : mapGet tok r1.seatReservationsByToken = some resv)
    (hexp : now < resv.expiresAt)
    (hfind : r1.players.find? (fun e => e.2.playerId == resv.playerId) =
      some (esid, pl))
    (hdisc : pl.connected = false) :
    (tryReclaimSeat r1 sid nm tok now).1 =
      some ⟨pl.playerId, sid,
        (if nm ≠ "" ∧ nm ≠ pl.name then nm else pl.name), true, pl.ready,
        pl.joinedAt, pl.wins, pl.gamesPlayed, pl.longestWord⟩ ∧
    (tryReclaimSeat r1 sid nm tok now).2.players =
      mapSet sid ⟨pl.playerId, sid,
        (if nm ≠ "" ∧ nm ≠ pl.name then nm else pl.name), true, pl.ready,
        pl.joinedAt, pl.wins, pl.gamesPlayed, pl.longestWord⟩
        (mapDel esid r1.players) ∧
    (tryReclaimSeat r1 sid nm tok now).2.playerIdBySessionId =
      mapSet sid pl.playerId r1.playerIdBySessionId := by
  simp only [tryReclaimSeat, if_neg htokne, hres, getPlayerEntryByPlayerId, hfind,
    if_neg (Nat.not_le.mpr hexp), hdisc, Bool.false_eq_true, if_false]
  refine ⟨by simp, ?_, ?_⟩ <;> split <;> rfl

/-- C6 counterexample: a join presenting an unknown resume token to a full
room is refused outright ("Room is full.") - no fresh seat is created, so
the unknown-token clause of the claim fails for full rooms. -/
theorem seatReclaim_counterexample :
    mapGet "zz" demoRoomC6full.seatReservationsByToken = none ∧
    demoRoomC6full.players.length = 4 ∧
    onJoin demoRoomC6full "s5" { resumeTokenField := some "zz" } 0 "p5" "t5"
      zeroRng zeroRng = Except.error "Room is full." := by decide

/-- C6 (amended): with no reservation expiring at this instant (prune
inert), a join presenting a valid unexpired token whose reserved player is
still seated and disconnected rebinds that seat in place - same playerId
and stats, connected true, new session id, name optionally updated - and
the GameState stored under that playerId is untouched; an expired token
reclaims nothing (the reservation is deleted instead); an unknown or
empty token leads to a fresh seat with the injected new playerId PROVIDED
the roster is not full (a full room refuses the join, the
counterexample). -/
theorem seatReclaim_spec (r : RoomModel) (sessionId : String)
    (options : JoinOptions) (now : Nat) (fp ft : String) (cr rr : Rng)
    (hpr : pruneExpiredSeatReservations
      { r with clients := r.clients ++ [sessionId] } now =
      ({ r with clients := r.clients ++ [sessionId] }, [])) :
    (∀ resv esid pl g,
      getJoinResumeToken options ≠ "" →
      mapGet (getJoinResumeToken options) r.seatReservationsByToken = some resv →
      now < resv.expiresAt →
      r.players.find? (fun e => e.2.playerId == resv.playerId) = some (esid, pl) →
      pl.connected = false →
      mapGet pl.playerId r.playerGameStates = some g →
      ∃ u, onJoin r sessionId options now fp ft cr rr = Except.ok u ∧
        mapGet sessionId u.1.players =
          some ⟨pl.playerId, sessionId,
            (if sanitizeName options.nameField
                  ("Player " ++ toString (r.clients ++ [sessionId]).length) ≠ "" ∧
                sanitizeName options.nameField
                  ("Player " ++ toString (r.clients ++ [sessionId]).length) ≠ pl.name
              then sanitizeName options.nameField
                  ("Player " ++ toString (r.clients ++ [sessionId]).length)
              else pl.name), true, pl.ready,
            pl.joinedAt, pl.wins, pl.gamesPlayed, pl.longestWord⟩ ∧
        mapGet pl.playerId u.1.playerGameStates = some g) ∧
    (∀ nm resv,
      getJoinResumeToken options ≠ "" →
      mapGet (getJoinResumeToken options) r.seatReservationsByToken = some resv →
      resv.expiresAt ≤ now →
      (tryReclaimSeat r sessionId nm (getJoinResumeToken options) now).1 = none) ∧
    ((getJoinResumeToken options = "" ∨
      mapGet (getJoinResumeToken options) r.seatReservationsByToken = none) →
      r.players.length < 4 →
      ∃ u, onJoin r sessionId options now fp ft cr rr = Except.ok u ∧
        mapGet sessionId u.1.players =
          some ⟨fp, sessionId,
            sanitizeName options.nameField
              ("Player " ++ toString (r.clients ++ [sessionId]).length),
            true, false, now, 0, 0, ""⟩) := by
  refine ⟨?_, ?_, ?_⟩
  · intro resv esid pl g htokne hres hexp hfind hdisc hg
    have hsucc := tryReclaim_success_eq { r with clients := r.clients ++ [sessionId] }
      sessionId (sanitizeName options.nameField
        ("Player " ++ toString (r.clients ++ [sessionId]).length))
      (getJoinResumeToken options) now resv esid pl htokne (by exact hres) hexp
      (by exact hfind) hdisc
    simp only [onJoin, hpr, hsucc.1]
    refine ⟨_, rfl, ?_, ?_⟩
    · rw [onJoinFinish_players, hsucc.2.1]
      exact mapGet_mapSet_self _ _ _
    · rw [onJoinFinish_games _ _ _ _ _ _ _ _ g (by
        simp only [getPlayerIdForSession, hsucc.2.2, mapGet_mapSet_self]
        rw [(tryReclaim_fields _ _ _ _ _).2.1]
        exact hg)]
      rw [(tryReclaim_fields _ _ _ _ _).2.1]
      exact hg
  · intro nm resv htokne hres hexp2
    simp only [tryReclaimSeat, if_neg htokne, hres, if_pos hexp2]
  · intro hun hcap
    have hrecn : tryReclaimSeat { r with clients := r.clients ++ [sessionId] }
        sessionId (sanitizeName options.nameField
          ("Player " ++ toString (r.clients ++ [sessionId]).length))
        (getJoinResumeToken options) now =
        (none, { r with clients := r.clients ++ [sessionId] }) := by
      rcases hun with htok0 | hnone
      · simp only [tryReclaimSeat, if_pos htok0]
      · by_cases htok0 : getJoinResumeToken options = ""
        · simp only [tryReclaimSeat, if_pos htok0]
        · simp only [tryReclaimSeat, if_neg htok0, hnone]
    simp only [onJoin, hpr, hrecn, if_neg (Nat.not_le.mpr hcap)]
    refine ⟨_, rfl, ?_⟩
    rw [onJoinFinish_players]
    exact mapGet_mapSet_self _ _ _

theorem seatReclaim_spec_witness :
    demoPlayerOld.connected = false ∧
    (0 : Nat) < 1000 ∧
    ∃ u, onJoin demoRoomC6 "sNew"
        { nameField := some "Old", resumeTokenField := some "tokX" } 0 "pF" "tF"
        zeroRng zeroRng = Except.ok u ∧
      mapGet "pX" u.1.playerGameStates = some demoGameWin := by
  have h := (seatReclaim_spec demoRoomC6 "sNew"
    { nameField := some "Old", resumeTokenField := some "tokX" } 0 "pF" "tF"
    zeroRng zeroRng (by decide)).1
    { playerId := "pX", expiresAt := 1000 } "sOld" demoPlayerOld demoGameWin
    (by decide) (by decide) (by decide) (by decide) (by decide) (by decide)
  obtain ⟨u, hu, _, hgames⟩ := h
  exact ⟨by decide, by decide, u, hu, hgames⟩

end Bisquits
